import Mathlib

/-! # Attendance engine and lesson monitoring of ed-mist-backend

A shallow embedding of

* `internal/usecase/attendance.go` (`CalculateAttendanceStatus`,
  `CalculateLateMinutes`, `GetTodayAttendance`),
* `internal/repository/lesson.go` (`FindMonitoringLessons`),
* `internal/scheduler/lesson_monitor.go` (`LessonMonitor`),
* `internal/scheduler/lesson_scheduler.go` (`checkAndStartMonitors`),
* `internal/scheduler/daily_batch.go` (`DailyBatchScheduler`),
* `internal/handler/app.go` (`CreateManualStay`),

together with the parts of Go's `time` package and of IEEE-754 binary64
arithmetic that these functions rely on.
-/

namespace EdMist

/-! ## Go `time`: instants and durations -/

/-!
An instant (`time.Time`) is represented by the integer number of nanoseconds
since Go's zero time, 0001-01-01 00:00:00 UTC (a Monday): only the instant
matters to `Before`, `After`, `Equal`, `Add`, `Sub` and `Truncate`.
A `time.Duration` is a signed 64-bit count of nanoseconds.
Both are written `Int` below; the functions of the two Go types live in the
namespaces `Time` and `Duration`.
-/

/-- The constant `time.Second`, in nanoseconds. -/
def Second : Int := 1000000000

/-- The constant `time.Minute`, in nanoseconds. -/
def Minute : Int := 60000000000

/-- The constant `time.Hour`, in nanoseconds. -/
def Hour : Int := 3600000000000

/-- The largest `time.Duration` (`1<<63 - 1`). -/
def maxDuration : Int := 9223372036854775807

/-- The smallest `time.Duration` (`-1 << 63`). -/
def minDuration : Int := -9223372036854775808

/-- The method `Time.Add` for instants within the range of the calendar. -/
def Time.Add (t : Int) (d : Int) : Int := t + d

/-- The method `Time.Before`. -/
def Time.Before (t u : Int) : Bool := decide (t < u)

/-- The method `Time.After`. -/
def Time.After (t u : Int) : Bool := decide (u < t)

/-- The method `Time.Truncate`: `t` rounded down to a multiple of `d` since the
zero time; `t` itself when `d ≤ 0`. -/
def Time.Truncate (t : Int) (d : Int) : Int :=
  if d ≤ 0 then t else t - t % d

/-- The method `Time.Weekday` (Sunday = 0) in a location `zone` seconds east of UTC. -/
def Time.Weekday (zone : Int) (t : Int) : Int :=
  ((t + zone * Second) / (24 * Hour) + 1) % 7

/-- The method `Time.Sub`: the duration `t - u`, saturated at the largest and the
smallest `Duration` when the difference does not fit in 64 bits. -/
def Time.Sub (t u : Int) : Int :=
  if maxDuration < t - u then maxDuration
  else if t - u < minDuration then minDuration
  else t - u

/-! ## IEEE-754 binary64, round to nearest, ties to even

A finite `float64` is represented by the rational number it denotes. -/

/-- Round a rational to the nearest integer, ties to the even one. -/
def roundHalfEven (q : ℚ) : ℤ :=
  let f : ℤ := ⌊q⌋
  if q - f < 1 / 2 then f
  else if 1 / 2 < q - f then f + 1
  else if f % 2 = 0 then f else f + 1

/-- The spacing of binary64 numbers around `q`: `2 ^ (e - 52)` where
`2 ^ e ≤ |q| < 2 ^ (e + 1)`, and `2 ^ (-1074)` in the subnormal range. -/
def ulp64 (q : ℚ) : ℚ := (2 : ℚ) ^ (max (Int.log 2 |q|) (-1022) - 52)

/-- The binary64 number nearest to `q` (ties to even), for `|q|` below the
overflow threshold; every value rounded in this development is below `2 ^ 64`. -/
def f64round (q : ℚ) : ℚ :=
  if q = 0 then 0 else (roundHalfEven (q / ulp64 q) : ℚ) * ulp64 q

/-- The conversion `float64(n)` of an integer. -/
def f64ofInt (n : Int) : ℚ := f64round (n : ℚ)

/-- The binary64 sum `x + y`. -/
def f64add (x y : ℚ) : ℚ := f64round (x + y)

/-- The binary64 product `x * y`. -/
def f64mul (x y : ℚ) : ℚ := f64round (x * y)

/-- The binary64 quotient `x / y`, for `y ≠ 0`. -/
def f64div (x y : ℚ) : ℚ := f64round (x / y)

/-- The conversion `int(x)` of a `float64` within the range of `int`:
the fraction is discarded (truncation towards zero). -/
def f64toInt (x : ℚ) : Int := if 0 ≤ x then ⌊x⌋ else ⌈x⌉

/-- The method `Duration.Minutes`:
`min := d / Minute; nsec := d % Minute; float64(min) + float64(nsec)/(60*1e9)`,
with Go's truncated integer division and remainder. -/
def Duration.Minutes (d : Int) : ℚ :=
  let min := Int.tdiv d Minute
  let nsec := Int.tmod d Minute
  f64add (f64ofInt min) (f64div (f64ofInt nsec) 60000000000)

/-! ## Data model (`internal/model`) -/

/-- The type `model.Lesson`: the fields read by the attendance engine and the monitor. -/
structure Lesson where
  ID : String
  SubjectID : String
  RoomID : String
  OrgID : String
  DayOfWeek : Int
  StartTime : Int
  EndTime : Int
deriving DecidableEq, Repr

/-- The type `model.Stay`. -/
structure Stay where
  ID : Int
  UserID : String
  IsActive : Bool
  RoomID : String
  SubjectID : String
  LessonID : Option String
  Description : String
  Source : String
  CreatedAt : Int
  LeavedAt : Option Int
  Lesson : Option Lesson
deriving DecidableEq, Repr

/-! ## `internal/usecase/attendance.go` -/

/-- The type `AttendanceStatus`. -/
inductive AttendanceStatus where
  | AttendanceOnTime
  | AttendanceLate
  | AttendanceVeryLate
  | AttendanceAbsent
  | AttendanceUnknown
deriving DecidableEq, Repr

open AttendanceStatus

/-- The type `AttendanceConfig`. -/
structure AttendanceConfig where
  LateThresholdMinutes : Int
  EarlyEntryMinutes : Int
  AutoCheckoutEnabled : Bool
deriving DecidableEq, Repr

/-- The function `DefaultAttendanceConfig`. -/
def DefaultAttendanceConfig : AttendanceConfig :=
  { LateThresholdMinutes := 10, EarlyEntryMinutes := 10, AutoCheckoutEnabled := true }

/-- The lesson used by both calculations: `stay.Lesson` when it is not nil,
else the `lesson` argument. -/
def targetLesson (stay : Stay) (lesson : Option Lesson) : Option Lesson :=
  match stay.Lesson with
  | some l => some l
  | none => lesson

/-- The function `CalculateAttendanceStatus`. -/
def CalculateAttendanceStatus (stay : Stay) (lesson : Option Lesson)
    (config : AttendanceConfig) : AttendanceStatus :=
  match targetLesson stay lesson with
  | none => AttendanceUnknown
  | some tl =>
    let diff := Time.Sub stay.CreatedAt tl.StartTime
    if diff ≤ 0 then AttendanceOnTime
    else
      let lateMinutes := f64toInt (Duration.Minutes diff)
      if lateMinutes ≤ config.LateThresholdMinutes then AttendanceLate
      else AttendanceVeryLate

/-- The function `CalculateLateMinutes`. -/
def CalculateLateMinutes (stay : Stay) (lesson : Option Lesson) : Int :=
  match targetLesson stay lesson with
  | none => 0
  | some tl =>
    let diff := Time.Sub stay.CreatedAt tl.StartTime
    if diff ≤ 0 then 0
    else f64toInt (Duration.Minutes diff)

/-- Errors returned by the services; only their presence matters. -/
abbrev Error := String

/-- The type `model.User`: only the id is read. -/
structure User where
  ID : String
deriving DecidableEq, Repr

/-- The type `AttendanceRecord`; `Lesson` is the lesson that the pointer stored
in the record refers to when the record is appended. -/
structure AttendanceRecord where
  Lesson : Lesson
  AttendanceStatus : AttendanceStatus
  LateMinutes : Int
  OnTime : Bool
  EntryTime : Option Int
  ExitTime : Option Int
deriving DecidableEq, Repr

/-- The type `AttendanceSummary`; `AttendanceRate` is a `float64`. -/
structure AttendanceSummary where
  TotalLessons : Int
  OnTime : Int
  Late : Int
  Absent : Int
  AttendanceRate : ℚ
deriving DecidableEq, Repr

/-- The type `AttendanceUsecase`: the queries of the user, lesson and stay services
that `GetTodayAttendance` issues. -/
structure AttendanceUsecase where
  userServiceGetByID : String → Except Error User
  lessonServiceGetByUserAndDate : String → Int → Except Error (List Lesson)
  stayServiceGetByLessonID : String → Except Error (List Stay)
  stayServiceGetByUserID : String → Except Error (List Stay)

/-- Lines 176-182: the first stay of the lesson whose `UserID` is the user's. -/
def findUserStay (stays : List Stay) (userID : String) : Option Stay :=
  stays.find? (fun s => s.UserID == userID)

/-- Lines 191-193: same room, created no earlier than ten minutes before the
lesson starts and no later than thirty minutes after it ends. -/
def matchesRoomAndTime (lesson : Lesson) (stay : Stay) : Bool :=
  stay.RoomID == lesson.RoomID &&
    !(Time.Before stay.CreatedAt (Time.Add lesson.StartTime (-10 * Minute))) &&
    !(Time.After stay.CreatedAt (Time.Add lesson.EndTime (30 * Minute)))

/-- Lines 185-199: the fallback search among all stays of the user; a failed
`GetByUserID` leaves `userStay` nil. -/
def findFallbackStay (allUserStays : Except Error (List Stay)) (lesson : Lesson) :
    Option Stay :=
  match allUserStays with
  | .ok stays => stays.find? (matchesRoomAndTime lesson)
  | .error _ => none

/-- The stay `userStay` that the loop body settles on for one lesson. -/
def selectUserStay (u : AttendanceUsecase) (user : User) (lesson : Lesson)
    (stays : List Stay) : Option Stay :=
  match findUserStay stays user.ID with
  | some s => some s
  | none => findFallbackStay (u.stayServiceGetByUserID user.ID) lesson

/-- Lines 203-210: the record appended for a lesson without a stay. -/
def absentRecord (lesson : Lesson) : AttendanceRecord :=
  { Lesson := lesson, AttendanceStatus := AttendanceAbsent, LateMinutes := 0,
    OnTime := false, EntryTime := none, ExitTime := none }

/-- Lines 214-229: the record appended for a lesson with a stay. -/
def attendedRecord (lesson : Lesson) (userStay : Stay) (config : AttendanceConfig) :
    AttendanceRecord :=
  let status := CalculateAttendanceStatus userStay (some lesson) config
  let lateMinutes := CalculateLateMinutes userStay (some lesson)
  { Lesson := lesson, AttendanceStatus := status, LateMinutes := lateMinutes,
    OnTime := decide (lateMinutes = 0), EntryTime := some userStay.CreatedAt,
    ExitTime := userStay.LeavedAt }

/-- Lines 231-236: the `switch status` that counts an attended lesson. -/
def countStatus (summary : AttendanceSummary) (status : AttendanceStatus) :
    AttendanceSummary :=
  match status with
  | AttendanceOnTime => { summary with OnTime := summary.OnTime + 1 }
  | AttendanceLate => { summary with Late := summary.Late + 1 }
  | AttendanceVeryLate => { summary with Late := summary.Late + 1 }
  | _ => summary

/-- One iteration of the loop over the lessons (lines 167-238). -/
def lessonStep (u : AttendanceUsecase) (user : User) (config : AttendanceConfig)
    (acc : List AttendanceRecord × AttendanceSummary) (lesson : Lesson) :
    Except Error (List AttendanceRecord × AttendanceSummary) :=
  match u.stayServiceGetByLessonID lesson.ID with
  | .error e => .error e
  | .ok stays =>
    match selectUserStay u user lesson stays with
    | none =>
      .ok (acc.1 ++ [absentRecord lesson], { acc.2 with Absent := acc.2.Absent + 1 })
    | some userStay =>
      let rec_ := attendedRecord lesson userStay config
      .ok (acc.1 ++ [rec_], countStatus acc.2 rec_.AttendanceStatus)

/-- The loop over the lessons, stopping at the first failed query. -/
def lessonLoop (u : AttendanceUsecase) (user : User) (config : AttendanceConfig) :
    List Lesson → List AttendanceRecord × AttendanceSummary →
    Except Error (List AttendanceRecord × AttendanceSummary)
  | [], acc => .ok acc
  | lesson :: rest, acc =>
    match lessonStep u user config acc lesson with
    | .error e => .error e
    | .ok acc1 => lessonLoop u user config rest acc1

/-- Lines 240-246: the attendance rate,
`float64(attendedLessons) / float64(summary.TotalLessons) * 100`. -/
def attendanceRate (summary : AttendanceSummary) : ℚ :=
  if summary.TotalLessons > 0 then
    f64mul (f64div (f64ofInt (summary.OnTime + summary.Late))
      (f64ofInt summary.TotalLessons)) 100
  else 0

/-- The function `GetTodayAttendance`. -/
def GetTodayAttendance (u : AttendanceUsecase) (userID : String) (date : Int) :
    Except Error (List AttendanceRecord × AttendanceSummary) :=
  match u.userServiceGetByID userID with
  | .error e => .error e
  | .ok user =>
    match u.lessonServiceGetByUserAndDate userID date with
    | .error e => .error e
    | .ok lessons =>
      let config := DefaultAttendanceConfig
      let summary : AttendanceSummary :=
        { TotalLessons := lessons.length, OnTime := 0, Late := 0, Absent := 0,
          AttendanceRate := 0 }
      match lessonLoop u user config lessons ([], summary) with
      | .error e => .error e
      | .ok (records, summary1) =>
        .ok (records, { summary1 with AttendanceRate := attendanceRate summary1 })

/-! ## `internal/repository/lesson.go` -/

/-- The `WHERE` clause of `FindMonitoringLessons` for one row of `lessons`;
`zone` is the location of `currentTime`. -/
def monitoringSelected (zone : Int) (currentTime : Int) (l : Lesson) : Bool :=
  let monitorStart := Time.Add currentTime (-5 * Minute)
  let monitorEnd := Time.Add currentTime (10 * Minute)
  let dayOfWeek := Time.Weekday zone currentTime
  decide (l.DayOfWeek = dayOfWeek) &&
    ((decide (l.StartTime ≤ monitorEnd) && decide (l.EndTime ≥ monitorStart)) ||
      (decide (l.StartTime ≥ monitorStart) && decide (l.StartTime ≤ monitorEnd)))

/-- The function `FindMonitoringLessons` over the rows of the `lessons` table. -/
def FindMonitoringLessons (table : List Lesson) (zone : Int) (currentTime : Int) :
    List Lesson :=
  table.filter (monitoringSelected zone currentTime)

/-! ## `internal/model/device.go`, `internal/model/room.go` -/

/-- The type `model.Room`: the id and the provider zone id. -/
structure Room where
  ID : String
  MistZoneID : String
deriving DecidableEq, Repr

/-- The type `model.Device`. -/
structure Device where
  ID : String
  UserID : String
  DeviceID : String
  IsActive : Bool
  LastAuthenticated : Int
deriving DecidableEq, Repr

/-- The method `Device.IsAuthenticatedToday`, with `now` the value of `time.Now()`. -/
def Device.IsAuthenticatedToday (d : Device) (now : Int) : Bool :=
  if !d.IsActive then false
  else
    let today := Time.Truncate now (24 * Hour)
    let authDay := Time.Truncate d.LastAuthenticated (24 * Hour)
    decide (authDay = today) || Time.After authDay today

/-! ## The occupancy store (`internal/repository/stay.go`) -/

/-- The `stays` table: its rows and the next value of the auto-increment key. -/
structure StayStore where
  rows : List Stay
  nextID : Int
deriving DecidableEq, Repr

/-- The method `StayRepository.Create`: insert the row under a fresh primary
key, unless the insert fails (`fails`). -/
def StayRepository.Create (fails : Stay → Bool) (db : StayStore) (stay : Stay) :
    Except Error StayStore :=
  if fails stay then .error "create failed"
  else .ok { rows := db.rows ++ [{ stay with ID := db.nextID }], nextID := db.nextID + 1 }

/-- The row with the least primary key among those satisfying `p`
(what `First` returns). -/
def firstRow (p : Stay → Bool) (rows : List Stay) : Option Stay :=
  (rows.filter p).argmin (fun s => s.ID)

/-- The method `StayRepository.FindActiveByUserAndLesson`. -/
def StayRepository.FindActiveByUserAndLesson (fails : String → Bool) (db : StayStore)
    (userID lessonID : String) : Except Error Stay :=
  if fails userID then .error "query failed"
  else
    match firstRow (fun s => s.UserID == userID && s.LessonID == some lessonID && s.IsActive)
        db.rows with
    | some s => .ok s
    | none => .error "record not found"

/-- The method `StayRepository.Update` (`Save`): overwrite the row that has the
key of `stay`, unless the update fails (`fails`). -/
def StayRepository.Update (fails : Stay → Bool) (db : StayStore) (stay : Stay) :
    Except Error StayStore :=
  if fails stay then .error "update failed"
  else .ok { db with rows := db.rows.map (fun r => if r.ID = stay.ID then stay else r) }

/-! ## The stay service (`internal/service/stay.go`) -/

/-- The method `StayService.CreateWithLesson`: `stayRepo.Create`. -/
def StayService.CreateWithLesson (fails : Stay → Bool) (db : StayStore) (stay : Stay) :
    Except Error StayStore :=
  StayRepository.Create fails db stay

/-- The method `StayService.GetActiveByUserAndLesson`:
`stayRepo.FindActiveByUserAndLesson`. -/
def StayService.GetActiveByUserAndLesson (fails : String → Bool) (db : StayStore)
    (userID lessonID : String) : Except Error Stay :=
  StayRepository.FindActiveByUserAndLesson fails db userID lessonID

/-- The method `StayService.Update`: set `SubjectID` and `Description`, then
`stayRepo.Update`. -/
def StayService.Update (fails : Stay → Bool) (db : StayStore) (stay : Stay)
    (subjectID description : String) : Except Error StayStore :=
  StayRepository.Update fails db
    { stay with SubjectID := subjectID, Description := description }

/-! ## `internal/scheduler/lesson_monitor.go` -/

/-- The function `normalizeMACAddress`: `strings.ReplaceAll(mac, "-", ":")`,
every hyphen becomes a colon. -/
def normalizeMACAddress (mac : String) : String :=
  String.mk (mac.data.map (fun c => if c = '-' then ':' else c))

/-- The collaborators a `LessonMonitor` reaches through its scheduler. The
queries that depend on the state of the outside world take the instant of the
call as their first argument. -/
structure MonitorEnv where
  roomServiceGetByID : Int → String → Except Error Room
  mistClientSiteID : String
  mistClientGetZoneClients : Int → String → String → Except Error (List String × List String)
  deviceRepoFindByDeviceID : Int → String → Except Error Device
  stayCreateFails : Stay → Bool
  stayQueryFails : String → Bool
  stayUpdateFails : Stay → Bool

/-- The method `DeviceService.GetByDeviceID`. -/
def MonitorEnv.deviceServiceGetByDeviceID (env : MonitorEnv) (now : Int)
    (deviceID : String) : Except Error Device :=
  env.deviceRepoFindByDeviceID now (normalizeMACAddress deviceID)

/-- What a `LessonMonitor` owns or changes: its recorded-set (the keys of the
map `recordedUsers`, in insertion order), the occupancy store, the scheduler
registry (`activeMonitors`, by lesson id), and the trace of the presence
queries issued so far (zone ids, oldest first). -/
structure MonitorState where
  recordedUsers : List String
  db : StayStore
  activeMonitors : List String
  zoneQueries : List String
deriving DecidableEq, Repr

/-- The stay that `processDevice` builds for a user (lines 139-150), before the
store gives it a key. -/
def autoStay (lesson : Lesson) (now : Int) (userID : String) : Stay :=
  { ID := 0, UserID := userID, IsActive := true, RoomID := lesson.RoomID,
    SubjectID := lesson.SubjectID, LessonID := some lesson.ID, Description := "",
    Source := "auto", CreatedAt := now, LeavedAt := none, Lesson := none }

/-- The method `LessonMonitor.processDevice`, executed at the instant `now`
(the value of its calls of `time.Now()`); the log lines are left out. -/
def processDevice (env : MonitorEnv) (lesson : Lesson) (now : Int)
    (st : MonitorState) (deviceID : String) : MonitorState :=
  match env.deviceServiceGetByDeviceID now deviceID with
  | .error _ => st
  | .ok device =>
    let userID := device.UserID
    if st.recordedUsers.contains userID then st
    else if !device.IsAuthenticatedToday now then st
    else
      let stay : Stay := autoStay lesson now userID
      match StayService.CreateWithLesson env.stayCreateFails st.db stay with
      | .error _ => st
      | .ok db1 => { st with db := db1, recordedUsers := st.recordedUsers ++ [userID] }

/-- The method `LessonMonitor.checkZone`, executed at the instant `now`. -/
def checkZone (env : MonitorEnv) (lesson : Lesson) (now : Int) (st : MonitorState) :
    MonitorState :=
  match env.roomServiceGetByID now lesson.RoomID with
  | .error _ => st
  | .ok room =>
    if room.MistZoneID = "" then st
    else
      let st1 := { st with zoneQueries := st.zoneQueries ++ [room.MistZoneID] }
      match env.mistClientGetZoneClients now env.mistClientSiteID room.MistZoneID with
      | .error _ => st1
      | .ok (sdkClients, wirelessClients) =>
        (sdkClients ++ wirelessClients).foldl (processDevice env lesson now) st1

/-- The body of the loop of `finishLesson` for one recorded user. -/
def finishUser (env : MonitorEnv) (lesson : Lesson) (now : Int) (db : StayStore)
    (userID : String) : StayStore :=
  match StayService.GetActiveByUserAndLesson env.stayQueryFails db userID lesson.ID with
  | .error _ => db
  | .ok stay =>
    let closed : Stay := { stay with IsActive := false, LeavedAt := some now }
    match StayService.Update env.stayUpdateFails db closed closed.SubjectID
        closed.Description with
    | .error _ => db
    | .ok db1 => db1

/-- The method `LessonMonitor.finishLesson`, executed at the instant `now`. -/
def finishLesson (env : MonitorEnv) (lesson : Lesson) (now : Int) (st : MonitorState) :
    MonitorState :=
  { st with db := st.recordedUsers.foldl (finishUser env lesson now) st.db }

/-- The method `LessonMonitor.cleanup`: `removeMonitor` deletes the lesson id
from the registry. -/
def cleanup (lesson : Lesson) (st : MonitorState) : MonitorState :=
  { st with activeMonitors := st.activeMonitors.filter (fun id => id != lesson.ID) }

/-- What the `select` of `Start` receives: the stop signal, or a tick of the
ticker at which `time.Now()` is `now`. -/
inductive MonitorEvent where
  | stop
  | tick (now : Int)
deriving DecidableEq, Repr

/-- The outcome of running a monitor over a finite sequence of events:
the state reached, and whether `Start` has returned. -/
structure MonitorRun where
  state : MonitorState
  returned : Bool
deriving DecidableEq, Repr

/-- The `for`/`select` loop of `Start` (lines 48-71). -/
def monitorLoop (env : MonitorEnv) (lesson : Lesson) :
    List MonitorEvent → MonitorState → MonitorRun
  | [], st => { state := st, returned := false }
  | .stop :: _, st => { state := st, returned := true }
  | .tick now :: rest, st =>
    let monitorStart := Time.Add lesson.StartTime (-5 * Minute)
    let monitorEnd := Time.Add lesson.EndTime (10 * Minute)
    if Time.After now monitorEnd then
      { state := finishLesson env lesson now st, returned := true }
    else if Time.Before now monitorStart then monitorLoop env lesson rest st
    else monitorLoop env lesson rest (checkZone env lesson now st)

/-- The method `LessonMonitor.Start`, begun at the instant `startedAt` with the
events `events` arriving afterwards: one immediate `checkZone`, then the loop;
the deferred `cleanup` runs when `Start` returns. -/
def Start (env : MonitorEnv) (lesson : Lesson) (startedAt : Int)
    (events : List MonitorEvent) (st : MonitorState) : MonitorRun :=
  let run := monitorLoop env lesson events (checkZone env lesson startedAt st)
  if run.returned then { run with state := cleanup lesson run.state } else run

/-- The calendar day of the instant `t` in a location `zone` seconds east of
UTC, counted from day 0 of the zero time. -/
def Time.Day (zone : Int) (t : Int) : Int :=
  (t + zone * Second) / (24 * Hour)

/-- A sequence of `processDevice` calls of one monitor: each call with the
instant at which it runs and the detected device id. -/
def processDevices (env : MonitorEnv) (lesson : Lesson) (calls : List (Int × String))
    (st : MonitorState) : MonitorState :=
  calls.foldl (fun s call => processDevice env lesson call.1 s call.2) st

/-- The state of a monitor returned by `NewLessonMonitor`: an empty
`recordedUsers`, over the given store, registry and query trace. -/
def NewLessonMonitor (db : StayStore) (activeMonitors zoneQueries : List String) :
    MonitorState :=
  { recordedUsers := [], db := db, activeMonitors := activeMonitors,
    zoneQueries := zoneQueries }

/-- The active records of a user in the store. -/
def activeStaysOf (userID : String) (db : StayStore) : List Stay :=
  db.rows.filter (fun r => r.UserID == userID && r.IsActive)

/-! ## `internal/scheduler/lesson_scheduler.go` -/

/-- A `*LessonMonitor` as the scheduler holds it: the object made by
`NewLessonMonitor`, identified by its rank of creation, and its lesson. -/
structure MonitorRef where
  serial : Nat
  lesson : Lesson
deriving DecidableEq, Repr

/-- What `checkAndStartMonitors` reads and changes: the entries of the
`sync.Map` `activeMonitors` (lesson id, monitor), the number of monitors
created so far, and the traces of the calls `monitor.Stop()` and
`go monitor.Start()` (oldest first). -/
structure SchedulerState where
  activeMonitors : List (String × MonitorRef)
  created : Nat
  stopCalls : List MonitorRef
  startCalls : List MonitorRef
deriving DecidableEq, Repr

/-- The state after `NewLessonScheduler`: an empty registry. -/
def NewLessonScheduler : SchedulerState :=
  { activeMonitors := [], created := 0, stopCalls := [], startCalls := [] }

/-- The method `sync.Map.Load`. -/
def syncMapLoad (key : String) (entries : List (String × MonitorRef)) : Option MonitorRef :=
  (entries.find? (fun e => e.1 == key)).map (fun e => e.2)

/-- The method `sync.Map.Delete`. -/
def syncMapDelete (key : String) (entries : List (String × MonitorRef)) :
    List (String × MonitorRef) :=
  entries.filter (fun e => e.1 != key)

/-- The method `sync.Map.Store`: the value replaces the one held under the key. -/
def syncMapStore (key : String) (value : MonitorRef) (entries : List (String × MonitorRef)) :
    List (String × MonitorRef) :=
  syncMapDelete key entries ++ [(key, value)]

/-- The callback of `activeMonitors.Range` (lines 87-98): a monitor whose
lesson id is not in `monitoringLessonIDs` is stopped and deleted. -/
def stopIfNotLive (monitoringLessonIDs : List String) (s : SchedulerState)
    (entry : String × MonitorRef) : SchedulerState :=
  if !(monitoringLessonIDs.contains entry.1) then
    { s with stopCalls := s.stopCalls ++ [entry.2],
             activeMonitors := syncMapDelete entry.1 s.activeMonitors }
  else s

/-- The body of the second loop (lines 100-115): a live lesson that has no
monitor gets a new one, which is stored and started. -/
def startIfNew (s : SchedulerState) (lesson : Lesson) : SchedulerState :=
  match syncMapLoad lesson.ID s.activeMonitors with
  | some _ => s
  | none =>
    let monitor : MonitorRef := { serial := s.created, lesson := lesson }
    { s with created := s.created + 1,
             activeMonitors := syncMapStore lesson.ID monitor s.activeMonitors,
             startCalls := s.startCalls ++ [monitor] }

/-- The method `LessonScheduler.checkAndStartMonitors` at the instant `now`;
`getMonitoringLessons` is `lessonService.GetMonitoringLessons`. `Range` visits
the entries present when it starts. -/
def checkAndStartMonitors (getMonitoringLessons : Int → Except Error (List Lesson))
    (now : Int) (s : SchedulerState) : SchedulerState :=
  match getMonitoringLessons now with
  | .error _ => s
  | .ok lessons =>
    let monitoringLessonIDs := lessons.map (fun l => l.ID)
    let s1 := s.activeMonitors.foldl (stopIfNotLive monitoringLessonIDs) s
    lessons.foldl startIfNew s1

/-- The method `LessonScheduler.removeMonitor`, called by the `cleanup` of a
monitor that returns. -/
def removeMonitor (lessonID : String) (s : SchedulerState) : SchedulerState :=
  { s with activeMonitors := syncMapDelete lessonID s.activeMonitors }

/-- What happens to the registry over time: a tick of the scheduler at the
instant `now`, or a returning monitor removing the entry of its lesson id. -/
inductive SchedulerEvent where
  | tick (now : Int)
  | removed (lessonID : String)
deriving DecidableEq, Repr

/-- The registry after a sequence of events. -/
def runScheduler (getMonitoringLessons : Int → Except Error (List Lesson)) :
    List SchedulerEvent → SchedulerState → SchedulerState
  | [], s => s
  | .tick now :: rest, s =>
    runScheduler getMonitoringLessons rest (checkAndStartMonitors getMonitoringLessons now s)
  | .removed lessonID :: rest, s =>
    runScheduler getMonitoringLessons rest (removeMonitor lessonID s)

/-! ## `internal/handler/app.go`: `CreateManualStay` -/

/-- The method `StayRepository.FindActiveByUserID`. -/
def StayRepository.FindActiveByUserID (fails : String → Bool) (db : StayStore)
    (userID : String) : Except Error Stay :=
  if fails userID then .error "query failed"
  else
    match firstRow (fun s => s.UserID == userID && s.IsActive) db.rows with
    | some s => .ok s
    | none => .error "record not found"

/-- The method `StayService.GetActiveByUserID`: `stayRepo.FindActiveByUserID`. -/
def StayService.GetActiveByUserID (fails : String → Bool) (db : StayStore)
    (userID : String) : Except Error Stay :=
  StayRepository.FindActiveByUserID fails db userID

/-- The body of the request of `CreateManualStay`, after `Bind`. -/
structure ManualStayRequest where
  UserID : String
  RoomID : String
  SubjectID : String
deriving DecidableEq, Repr

/-- The services `CreateManualStay` calls: which store operations fail, and
`lessonService.GetByRoomAndTime`. -/
structure ManualStayEnv where
  stayQueryFails : String → Bool
  stayUpdateFails : Stay → Bool
  stayCreateFails : Stay → Bool
  lessonServiceGetByRoomAndTime : String → Int → Except Error Lesson

/-- Lines 419-428 of `CreateManualStay`: the previous active stay of the user,
if the lookup finds one, is marked left at `leftAt` and saved; a failed lookup
and a failed update are passed over. -/
def closePreviousStay (env : ManualStayEnv) (leftAt : Int) (userID : String)
    (db : StayStore) : StayStore :=
  match StayService.GetActiveByUserID env.stayQueryFails db userID with
  | .error _ => db
  | .ok previousStay =>
    let closed : Stay := { previousStay with IsActive := false, LeavedAt := some leftAt }
    match StayService.Update env.stayUpdateFails db closed closed.SubjectID
        closed.Description with
    | .error _ => db
    | .ok db1 => db1

/-- The stay that `CreateManualStay` creates (lines 430-448). -/
def manualStay (env : ManualStayEnv) (now : Int) (request : ManualStayRequest) : Stay :=
  let lessonIDPtr : Option String :=
    match env.lessonServiceGetByRoomAndTime request.RoomID now with
    | .ok lesson => some lesson.ID
    | .error _ => none
  { ID := 0, UserID := request.UserID, IsActive := true, RoomID := request.RoomID,
    SubjectID := request.SubjectID, LessonID := lessonIDPtr, Description := "",
    Source := "manual", CreatedAt := now, LeavedAt := none, Lesson := none }

/-- The method `AppHandler.CreateManualStay` for a request that `Bind` has
parsed: the HTTP status of the response and the store afterwards. `leftAt` and
`now` are the values of its two calls of `time.Now()`. -/
def CreateManualStay (env : ManualStayEnv) (leftAt now : Int) (request : ManualStayRequest)
    (db : StayStore) : Nat × StayStore :=
  if request.UserID = "" ∨ request.RoomID = "" ∨ request.SubjectID = "" then (400, db)
  else
    let db1 := closePreviousStay env leftAt request.UserID db
    match StayService.CreateWithLesson env.stayCreateFails db1 (manualStay env now request) with
    | .error _ => (500, db1)
    | .ok db2 => (200, db2)

/-! ## `internal/scheduler/daily_batch.go` -/

/-- The type `model.Organization`: the id and the name. -/
structure Organization where
  ID : String
  Name : String
deriving DecidableEq, Repr

/-- The services of a `DailyBatchScheduler` over a device store of type `σ`.
`DeviceRepository.DeactivateAllForOrg` is not part of the sources: the store
it leaves and the error it reports are taken as given. `deviceServiceGetAll`
gives the `User.OrgID` of every device. -/
structure DailyBatchEnv (σ : Type) where
  organizationServiceGetAll : σ → Except Error (List Organization)
  deviceServiceDeactivateAllForOrg : σ → String → σ × Option Error
  deviceServiceGetAll : σ → Except Error (List String)

/-- What `runDailyBatch` changes: the device store, and the trace of the calls
of `DeactivateAllForOrg` (organization ids, oldest first). -/
structure DailyBatchState (σ : Type) where
  db : σ
  deactivateCalls : List String

/-- The body of the loop of `runDailyBatch` for one organization (lines 83-107);
the second component is `totalDeactivated`, which is only logged. -/
def deactivateOrg {σ : Type} (env : DailyBatchEnv σ) (acc : DailyBatchState σ × Nat)
    (org : Organization) : DailyBatchState σ × Nat :=
  let result := env.deviceServiceDeactivateAllForOrg acc.1.db org.ID
  let s1 : DailyBatchState σ :=
    { db := result.1, deactivateCalls := acc.1.deactivateCalls ++ [org.ID] }
  match result.2 with
  | some _ => (s1, acc.2)
  | none =>
    match env.deviceServiceGetAll s1.db with
    | .error _ => (s1, acc.2)
    | .ok orgIDs => (s1, acc.2 + (orgIDs.filter (fun id => id == org.ID)).length)

/-- The method `DailyBatchScheduler.runDailyBatch`. -/
def runDailyBatch {σ : Type} (env : DailyBatchEnv σ) (s : DailyBatchState σ) :
    DailyBatchState σ :=
  match env.organizationServiceGetAll s.db with
  | .error _ => s
  | .ok organizations => (organizations.foldl (deactivateOrg env) (s, 0)).1

/-! ## Go `time`: the calendar (`absDate`, `Date`)

The standard library counts seconds from an absolute zero, the start of the
year -292277022399, in `uint64`; no operation below wraps for an instant that
`time.Now()` can return, and the quantities are integers here. The functions
are those of `time/time.go` up to Go 1.22; later releases compute the same
dates by other formulas. -/

/-- The constant `secondsPerDay`. -/
def secondsPerDay : Int := 86400

/-- The constant `daysPer400Years`. -/
def daysPer400Years : Int := 365 * 400 + 97

/-- The constant `daysPer100Years`. -/
def daysPer100Years : Int := 365 * 100 + 24

/-- The constant `daysPer4Years`. -/
def daysPer4Years : Int := 365 * 4 + 1

/-- The constant `absoluteZeroYear`. -/
def absoluteZeroYear : Int := -292277022399

/-- The constant `unixToInternal`: the seconds from 0001-01-01 to 1970-01-01. -/
def unixToInternal : Int := (1969 * 365 + 1969 / 4 - 1969 / 100 + 1969 / 400) * secondsPerDay

/-- The constant `internalToUnix`. -/
def internalToUnix : Int := -unixToInternal

/-- The constant `absoluteToInternal`,
`(absoluteZeroYear - internalYear) * 365.2425 * secondsPerDay`. -/
def absoluteToInternal : Int := -9223371966579724800

/-- The constant `internalToAbsolute`. -/
def internalToAbsolute : Int := -absoluteToInternal

/-- The function `isLeap`. -/
def isLeap (year : Int) : Bool :=
  decide (year % 4 = 0) && (decide (year % 100 ≠ 0) || decide (year % 400 = 0))

/-- The table `daysBefore`: `daysBefore[m]` is the number of days of a
non-leap year before month `m + 1`. -/
def daysBefore : List Int :=
  [0, 31, 31 + 28, 31 + 28 + 31, 31 + 28 + 31 + 30, 31 + 28 + 31 + 30 + 31,
    31 + 28 + 31 + 30 + 31 + 30, 31 + 28 + 31 + 30 + 31 + 30 + 31,
    31 + 28 + 31 + 30 + 31 + 30 + 31 + 31, 31 + 28 + 31 + 30 + 31 + 30 + 31 + 31 + 30,
    31 + 28 + 31 + 30 + 31 + 30 + 31 + 31 + 30 + 31,
    31 + 28 + 31 + 30 + 31 + 30 + 31 + 31 + 30 + 31 + 30,
    31 + 28 + 31 + 30 + 31 + 30 + 31 + 31 + 30 + 31 + 30 + 31]

/-- The first part of `absDate`, which is all of it when `full` is false: the
year and the day of the year (from 0) of an absolute time in seconds;
`n >> 2` is `n / 4`. -/
def absYearDay (abs : Int) : Int × Int :=
  let d := abs / secondsPerDay
  let n := d / daysPer400Years
  let y := 400 * n
  let d := d - daysPer400Years * n
  let n := d / daysPer100Years
  let n := n - n / 4
  let y := y + 100 * n
  let d := d - daysPer100Years * n
  let n := d / daysPer4Years
  let y := y + 4 * n
  let d := d - daysPer4Years * n
  let n := d / 365
  let n := n - n / 4
  let y := y + n
  let d := d - 365 * n
  (y + absoluteZeroYear, d)

/-- The function `absDate(abs, true)`: year, month, day of the month and day
of the year. -/
def absDate (abs : Int) : Int × Int × Int × Int :=
  let year := (absYearDay abs).1
  let yday := (absYearDay abs).2
  if isLeap year = true ∧ yday = 31 + 29 - 1 then (year, 2, 29, yday)
  else
    let day := if isLeap year = true ∧ yday > 31 + 29 - 1 then yday - 1 else yday
    let month := day / 31
    let end_ := daysBefore.getD (month + 1).toNat 0
    if day ≥ end_ then (year, month + 1 + 1, day - end_ + 1, yday)
    else (year, month + 1, day - daysBefore.getD month.toNat 0 + 1, yday)

/-- The function `absClock`: hour, minute and second of an absolute time. -/
def absClock (abs : Int) : Int × Int × Int :=
  let sec := abs % secondsPerDay
  let hour := sec / 3600
  let sec := sec - hour * 3600
  let min := sec / 60
  let sec := sec - min * 60
  (hour, min, sec)

/-- The function `norm`: `hi, lo` with `lo` brought into `[0, base)`; both
quotients have a non-negative dividend. -/
def norm (hi lo base : Int) : Int × Int :=
  let n1 := (-lo - 1) / base + 1
  let hi1 := if lo < 0 then hi - n1 else hi
  let lo1 := if lo < 0 then lo + n1 * base else lo
  let n2 := lo1 / base
  if lo1 ≥ base then (hi1 + n2, lo1 - n2 * base) else (hi1, lo1)

/-- The function `daysSinceEpoch`: the days from the absolute zero to the start
of `year`. -/
def daysSinceEpoch (year : Int) : Int :=
  let y := year - absoluteZeroYear
  let n := y / 400
  let y := y - 400 * n
  let d := daysPer400Years * n
  let n := y / 100
  let y := y - 100 * n
  let d := d + daysPer100Years * n
  let n := y / 4
  let y := y - 4 * n
  let d := d + daysPer4Years * n
  let n := y
  d + 365 * n

/-- The method `Time.abs` for an instant `t` in a location `zone` seconds east
of UTC: the seconds since the absolute zero, on the local clock. -/
def Time.abs (zone : Int) (t : Int) : Int :=
  let sec := t / Second + internalToUnix
  let sec := sec + zone
  sec + (unixToInternal + internalToAbsolute)

/-- The methods `Time.Year`, `Time.Month` and `Time.Day` of the standard
library, together with `Time.YearDay` (counted from 0): `t.date(true)`. -/
def Time.date (zone : Int) (t : Int) : Int × Int × Int × Int :=
  absDate (Time.abs zone t)

/-- The method `Time.Clock`. -/
def Time.Clock (zone : Int) (t : Int) : Int × Int × Int :=
  absClock (Time.abs zone t)

/-- The method `Time.Nanosecond`. -/
def Time.Nanosecond (t : Int) : Int := t % Second

/-- The function `time.Date` for a location with the fixed offset `zone`, for
which the zone lookup returns that offset at every instant. -/
def Time.Date (year month day hour min sec nsec : Int) (zone : Int) : Int :=
  let m := month - 1
  let ym := norm year m 12
  let year := ym.1
  let month := ym.2 + 1
  let sn := norm sec nsec 1000000000
  let ms := norm min sn.1 60
  let hm := norm hour ms.1 60
  let dh := norm day hm.1 24
  let d := daysSinceEpoch year
  let d := d + daysBefore.getD (month - 1).toNat 0
  let d := if isLeap year = true ∧ month ≥ 3 then d + 1 else d
  let d := d + (dh.1 - 1)
  let abs := d * secondsPerDay
  let abs := abs + (dh.2 * 3600 + hm.2 * 60 + ms.2)
  let unix := abs + (absoluteToInternal + internalToUnix)
  let unix := unix - zone
  (unix + unixToInternal) * Second + sn.2

/-! ## `internal/scheduler/daily_batch.go`: `Start` -/

/-- Lines 35-36 of `DailyBatchScheduler.Start`: `nextMidnight` when
`time.Now()` is `now`, in a location `zone` seconds east of UTC. -/
def nextMidnight (zone : Int) (now : Int) : Int :=
  let date := Time.date zone now
  Time.Date date.1 date.2.1 (date.2.2.1 + 1) 0 0 0 0 zone

/-- Line 37 of `DailyBatchScheduler.Start`: `initialDelay`. -/
def initialDelay (zone : Int) (now : Int) : Int :=
  Time.Sub (nextMidnight zone now) now

/-- What the `select` of `DailyBatchScheduler.Start` receives: the stop signal
(`stopChan` is closed), or a tick of the 24-hour ticker. -/
inductive DailyBatchEvent where
  | stop
  | tick
deriving DecidableEq, Repr

/-- The outcome of `DailyBatchScheduler.Start` over a finite sequence of
events: the state reached, the number of calls of `runDailyBatch` made, and
whether `Start` has returned. -/
structure DailyBatchRun (σ : Type) where
  state : DailyBatchState σ
  runs : Nat
  returned : Bool

/-- The `for`/`select` loop of `DailyBatchScheduler.Start` (lines 52-60). -/
def dailyBatchLoop {σ : Type} (env : DailyBatchEnv σ) :
    List DailyBatchEvent → DailyBatchRun σ → DailyBatchRun σ
  | [], r => r
  | .stop :: _, r => { r with returned := true }
  | .tick :: rest, r =>
    dailyBatchLoop env rest { r with state := runDailyBatch env r.state, runs := r.runs + 1 }

/-- The method `DailyBatchScheduler.Start` from the return of
`time.Sleep(initialDelay)` on (lines 43-61): the first run, then the loop over
the events that the `select` receives. `time.Sleep` does not read `stopChan`,
so a `Stop` called during the wait shows only as the first event. -/
def DailyBatchScheduler.Start {σ : Type} (env : DailyBatchEnv σ)
    (events : List DailyBatchEvent) (s : DailyBatchState σ) : DailyBatchRun σ :=
  dailyBatchLoop env events { state := runDailyBatch env s, runs := 1, returned := false }

/-! ## Reading the results: loop variables and closed records -/

/-- The two meanings that the Go language has given to the variable of a
`for ... range` loop: one variable per iteration (language version go1.22 and
later), or one variable for the whole loop (before). -/
inductive LoopVar where
  | perIteration
  | perLoop
deriving DecidableEq, Repr

/-- The meaning of the loop variable under the language version `go1.N`. -/
def loopVarOf (goMinor : Nat) : LoopVar :=
  if 22 ≤ goMinor then .perIteration else .perLoop

/-- The least language version `go1.N` under which the sources compile. The
sources carry no `go.mod`, but `isPointInZone` in `pkg/mistapi/client.go`
(line 422) has `for i := range len(vertices)`, a range over an integer, which
the compiler accepts from go1.22 on only; that file and `attendance.go` belong
to the one module and neither has a build constraint. -/
def moduleMinGoMinor : Nat := 22

/-- What the caller of `GetTodayAttendance` reads through the field `Lesson`
of the returned records, each of which holds `&lesson` (lines 204 and 223):
with one variable per iteration, the lesson of the record's own iteration;
with one variable for the loop, its last value, the last lesson. -/
def readLessons (sem : LoopVar) (lessons : List Lesson) (records : List AttendanceRecord) :
    List Lesson :=
  match sem with
  | .perIteration => records.map (fun r => r.Lesson)
  | .perLoop =>
    match lessons.getLast? with
    | some last => records.map (fun _ => last)
    | none => []

/-- Whether `finishLesson`, run at `now` over the rows `rows`, saves the row
`r` as closed when it comes to the user of `r`: the lookup of the user's active
record of the lesson does not fail and returns `r`, and the update of the
closed record does not fail. -/
def finishCloses (env : MonitorEnv) (lesson : Lesson) (now : Int) (rows : List Stay)
    (r : Stay) : Bool :=
  !env.stayQueryFails r.UserID &&
    decide (firstRow (fun s => s.UserID == r.UserID && s.LessonID == some lesson.ID &&
      s.IsActive) rows = some r) &&
    !env.stayUpdateFails { r with IsActive := false, LeavedAt := some now }

/-! ## Example data -/

/-- The instant `hour:minute` (UTC) of the day `day` days after the zero time. -/
def clock (day hour minute : Int) : Int :=
  day * (24 * Hour) + hour * Hour + minute * Minute

/-- Monday 2025-04-07, in days since the zero time. -/
def monday : Int := 739347

/-- A lesson held on that Monday from 09:00 to 10:30 in room `R1`. -/
def lesson0900 : Lesson :=
  { ID := "L1", SubjectID := "S1", RoomID := "R1", OrgID := "O1", DayOfWeek := 1,
    StartTime := clock monday 9 0, EndTime := clock monday 10 30 }

/-- A stay of user `U1` in room `R1`, opened at `t`, with no lesson attached. -/
def stayAt (t : Int) : Stay :=
  { ID := 1, UserID := "U1", IsActive := true, RoomID := "R1", SubjectID := "S1",
    LessonID := none, Description := "", Source := "manual", CreatedAt := t,
    LeavedAt := none, Lesson := none }

/-- A lesson held on that Monday in room `room` from `h1:m1` to `h2:m2`. -/
def lessonAt (id room : String) (h1 m1 h2 m2 : Int) : Lesson :=
  { ID := id, SubjectID := "S1", RoomID := room, OrgID := "O1", DayOfWeek := 1,
    StartTime := clock monday h1 m1, EndTime := clock monday h2 m2 }

/-- The four lessons of that Monday. -/
def todayLessons : List Lesson :=
  [lesson0900, lessonAt "L2" "R2" 11 0 12 0, lessonAt "L3" "R3" 13 0 14 0,
    lessonAt "L4" "R4" 15 0 16 0]

/-- The stay of `U1` recorded for lesson `L1` at 08:58, lesson preloaded. -/
def stayL1 : Stay :=
  { ID := 1, UserID := "U1", IsActive := false, RoomID := "R1", SubjectID := "S1",
    LessonID := some "L1", Description := "", Source := "auto",
    CreatedAt := clock monday 8 58, LeavedAt := some (clock monday 10 41),
    Lesson := some lesson0900 }

/-- A manual stay of `U1` in room `R2`, opened at 11:05, not linked to a lesson. -/
def stayR2 : Stay :=
  { ID := 2, UserID := "U1", IsActive := true, RoomID := "R2", SubjectID := "S1",
    LessonID := none, Description := "", Source := "manual",
    CreatedAt := clock monday 11 5, LeavedAt := none, Lesson := none }

/-- Services over a store that holds `stayL1` and `stayR2` for the user `U1`. -/
def exUsecase : AttendanceUsecase :=
  { userServiceGetByID := fun id =>
      if id = "U1" then .ok { ID := "U1" } else .error "record not found"
    lessonServiceGetByUserAndDate := fun _ _ => .ok todayLessons
    stayServiceGetByLessonID := fun id => if id = "L1" then .ok [stayL1] else .ok []
    stayServiceGetByUserID := fun id => if id = "U1" then .ok [stayL1, stayR2] else .ok [] }

/-- The records expected for `U1` on that Monday. -/
def exRecords : List AttendanceRecord :=
  [{ Lesson := lesson0900, AttendanceStatus := AttendanceOnTime, LateMinutes := 0,
     OnTime := true, EntryTime := some (clock monday 8 58),
     ExitTime := some (clock monday 10 41) },
   { Lesson := lessonAt "L2" "R2" 11 0 12 0, AttendanceStatus := AttendanceLate,
     LateMinutes := 5, OnTime := false, EntryTime := some (clock monday 11 5),
     ExitTime := none },
   absentRecord (lessonAt "L3" "R3" 13 0 14 0),
   absentRecord (lessonAt "L4" "R4" 15 0 16 0)]

/-- A monitor environment: room `R1` is zone `Z1`, where the provider reports
the device `AA-BB`, registered to `U1`, active and authenticated at 08:00 of
that Monday; no store operation fails. -/
def exEnv : MonitorEnv :=
  { roomServiceGetByID := fun _ id =>
      if id = "R1" then .ok { ID := "R1", MistZoneID := "Z1" } else .error "record not found"
    mistClientSiteID := "site"
    mistClientGetZoneClients := fun _ _ zone =>
      if zone = "Z1" then .ok (["AA-BB"], []) else .ok ([], [])
    deviceRepoFindByDeviceID := fun _ id =>
      if id = "AA:BB" then
        .ok { ID := "D1", UserID := "U1", DeviceID := "AA:BB", IsActive := true,
              LastAuthenticated := clock monday 8 0 }
      else .error "record not found"
    stayCreateFails := fun _ => false
    stayQueryFails := fun _ => false
    stayUpdateFails := fun _ => false }

/-- A fresh monitor for `L1`: nothing recorded, an empty store, `L1` registered. -/
def exMonitorState : MonitorState :=
  { recordedUsers := [], db := { rows := [], nextID := 1 }, activeMonitors := ["L1"],
    zoneQueries := [] }

/-- The record that the monitor of `L1` opens for `U1` at `t`, under key 1. -/
def autoRow (t : Int) : Stay :=
  { autoStay lesson0900 t "U1" with ID := 1 }

/-- A monitor for `L1` that has recorded `U1` at 08:56; the record is open. -/
def exRecordedState : MonitorState :=
  { recordedUsers := ["U1"], db := { rows := [autoRow (clock monday 8 56)], nextID := 2 },
    activeMonitors := ["L1"], zoneQueries := [] }

/-- A store in which `U1` has one open record, a manual stay begun at 08:30. -/
def exManualStore : StayStore :=
  { rows := [stayAt (clock monday 8 30)], nextID := 2 }

/-- A device of `U1` that is active and whose last authentication is dated
08:00 of the next day. -/
def exFutureDevice : Device :=
  { ID := "D2", UserID := "U1", DeviceID := "CC:DD", IsActive := true,
    LastAuthenticated := clock (monday + 1) 8 0 }

/-- A request of `U1` to enter room `R2` for subject `S1`. -/
def exRequest : ManualStayRequest :=
  { UserID := "U1", RoomID := "R2", SubjectID := "S1" }

/-- Services for `CreateManualStay` in which nothing fails and no lesson is
found for the room. -/
def exManualEnv : ManualStayEnv :=
  { stayQueryFails := fun _ => false
    stayUpdateFails := fun _ => false
    stayCreateFails := fun _ => false
    lessonServiceGetByRoomAndTime := fun _ _ => .error "record not found" }

/-- The same services, except that every update of a stay reports an error. -/
def exManualEnvUpdateFails : ManualStayEnv :=
  { exManualEnv with stayUpdateFails := fun _ => true }

/-- A timetable query that always fails. -/
def exFailingTimetable : Int → Except Error (List Lesson) :=
  fun _ => .error "connection refused"

/-- A registry holding one monitor, for the lesson `L1`. -/
def exSchedulerState : SchedulerState :=
  { activeMonitors := [("L1", { serial := 0, lesson := lesson0900 })], created := 1,
    stopCalls := [], startCalls := [{ serial := 0, lesson := lesson0900 }] }

/-- Services of a daily batch over a store that counts the deactivations:
one organization `O1`, no call fails. -/
def exBatchEnv : DailyBatchEnv Nat :=
  { organizationServiceGetAll := fun _ => .ok [{ ID := "O1", Name := "School" }]
    deviceServiceDeactivateAllForOrg := fun n _ => (n + 1, none)
    deviceServiceGetAll := fun _ => .ok [] }

/-- A stay of `U1` in room `R1` recorded at 10:35 for the lesson `L1`
(09:00-10:30), whose monitor is still running then; the lesson is loaded. -/
def stayLinked : Stay :=
  { ID := 3, UserID := "U1", IsActive := true, RoomID := "R1", SubjectID := "S1",
    LessonID := some "L1", Description := "", Source := "auto",
    CreatedAt := clock monday 10 35, LeavedAt := none, Lesson := some lesson0900 }

/-- Services over a store that holds `stayLinked` only; the day of `U1` has the
single lesson `L5`, from 10:40 to 12:10 in the same room `R1`. -/
def exUsecaseLinked : AttendanceUsecase :=
  { userServiceGetByID := fun id =>
      if id = "U1" then .ok { ID := "U1" } else .error "record not found"
    lessonServiceGetByUserAndDate := fun _ _ => .ok [lessonAt "L5" "R1" 10 40 12 10]
    stayServiceGetByLessonID := fun id => if id = "L1" then .ok [stayLinked] else .ok []
    stayServiceGetByUserID := fun id => if id = "U1" then .ok [stayLinked] else .ok [] }

/-- The environment `exEnv`, except that saving a record of `U2` fails. -/
def exEnvU2Fails : MonitorEnv :=
  { exEnv with stayUpdateFails := fun s => s.UserID == "U2" }

/-- A monitor for `L1` that has recorded `U2` and then `U1`; the store holds
their open records and an open record of `U3` for the same lesson, whom this
monitor has not recorded. -/
def exThreeRows : MonitorState :=
  { recordedUsers := ["U2", "U1"],
    db := { rows := [autoRow (clock monday 8 56),
                     { autoStay lesson0900 (clock monday 8 57) "U2" with ID := 2 },
                     { autoStay lesson0900 (clock monday 8 40) "U3" with ID := 3 }],
            nextID := 4 },
    activeMonitors := ["L1"], zoneQueries := [] }

/-- A device of `U1`, active, last authenticated at 08:00 of that Monday on a
clock nine hours east of UTC, which is 23:00 UTC of the Sunday. -/
def exEarlyDevice : Device :=
  { ID := "D3", UserID := "U1", DeviceID := "EE:FF", IsActive := true,
    LastAuthenticated := clock (monday - 1) 23 0 }

/-- A device of `U1`, active, last authenticated at 10:00 of the Sunday on a
clock nine hours east of UTC, which is 01:00 UTC of the Sunday. -/
def exSundayDevice : Device :=
  { ID := "D4", UserID := "U1", DeviceID := "AB:CD", IsActive := true,
    LastAuthenticated := clock (monday - 1) 1 0 }

/-- The services of `exManualEnv`, except that the lookup of the active stay
reports an error. -/
def exManualEnvQueryFails : ManualStayEnv :=
  { exManualEnv with stayQueryFails := fun _ => true }

/-- Services of a daily batch over a store that lists the organizations whose
devices have been deactivated: two organizations, and the call for the first
one, `O1`, reports an error and changes nothing. -/
def exBatchEnvFirstFails : DailyBatchEnv (List String) :=
  { organizationServiceGetAll := fun _ =>
      .ok [{ ID := "O1", Name := "North" }, { ID := "O2", Name := "South" }]
    deviceServiceDeactivateAllForOrg := fun db id =>
      if id = "O1" then (db, some "update failed") else (db ++ [id], none)
    deviceServiceGetAll := fun _ => .ok [] }

/-! ## Rounding lemmas -/

theorem roundHalfEven_floor_le (q : ℚ) : ⌊q⌋ ≤ roundHalfEven q := by
  unfold roundHalfEven
  simp only
  split_ifs <;> omega

theorem roundHalfEven_le_floor_succ (q : ℚ) : roundHalfEven q ≤ ⌊q⌋ + 1 := by
  unfold roundHalfEven
  simp only
  split_ifs <;> omega

theorem le_roundHalfEven (q : ℚ) (n : ℤ) (h : (n : ℚ) ≤ q) : n ≤ roundHalfEven q :=
  le_trans (Int.le_floor.mpr h) (roundHalfEven_floor_le q)

theorem roundHalfEven_le (q : ℚ) (n : ℤ) (h : q ≤ (n : ℚ)) : roundHalfEven q ≤ n := by
  rcases eq_or_lt_of_le h with h1 | h1
  · subst h1
    unfold roundHalfEven
    simp
  · have h2 : ⌊q⌋ < n := Int.floor_lt.mpr h1
    have h3 := roundHalfEven_le_floor_succ q
    omega

theorem roundHalfEven_lt (q : ℚ) (n : ℤ) (h : q < (n : ℚ) - 1 / 2) : roundHalfEven q < n := by
  have h1 : q < (n : ℚ) := by linarith
  have h2 : ⌊q⌋ < n := Int.floor_lt.mpr h1
  by_cases h3 : ⌊q⌋ = n - 1
  · have h4 : q - (⌊q⌋ : ℚ) < 1 / 2 := by
      rw [h3]; push_cast; linarith
    unfold roundHalfEven
    simp only
    rw [if_pos h4]
    omega
  · have h5 := roundHalfEven_le_floor_succ q
    omega

theorem ulp64_pos (q : ℚ) : 0 < ulp64 q := by
  unfold ulp64
  positivity

/-- Below `2 ^ 53` the spacing is `1 / 2 ^ j` for some natural `j`. -/
theorem ulp64_eq_inv_pow (q : ℚ) (hq : |q| < 2 ^ 53) :
    ∃ j : ℕ, ulp64 q = 1 / 2 ^ j := by
  have hlog : Int.log 2 |q| < 53 := by
    rcases eq_or_lt_of_le (abs_nonneg q) with h0 | h0
    · rw [← h0, Int.log_zero_right]; norm_num
    · apply (Int.lt_zpow_iff_log_lt (by norm_num) h0).mp
      exact_mod_cast hq
  have hk : max (Int.log 2 |q|) (-1022) - 52 ≤ 0 := by
    have : max (Int.log 2 |q|) (-1022) ≤ 52 := max_le (by omega) (by norm_num)
    omega
  obtain ⟨j, hj⟩ := Int.exists_eq_neg_ofNat hk
  refine ⟨j, ?_⟩
  unfold ulp64
  rw [hj, zpow_neg, zpow_natCast, one_div]

/-- Below `2 ^ 18` the spacing is at most `2 ^ (-35)`. -/
theorem ulp64_le_of_lt (q : ℚ) (hq : |q| < 2 ^ 18) : ulp64 q ≤ 1 / 2 ^ 35 := by
  have hlog : Int.log 2 |q| < 18 := by
    rcases eq_or_lt_of_le (abs_nonneg q) with h0 | h0
    · rw [← h0, Int.log_zero_right]; norm_num
    · apply (Int.lt_zpow_iff_log_lt (by norm_num) h0).mp
      exact_mod_cast hq
  have hk : max (Int.log 2 |q|) (-1022) - 52 ≤ -35 := by
    have : max (Int.log 2 |q|) (-1022) ≤ 17 := max_le (by omega) (by norm_num)
    omega
  unfold ulp64
  calc (2 : ℚ) ^ (max (Int.log 2 |q|) (-1022) - 52) ≤ (2 : ℚ) ^ (-35 : ℤ) :=
        zpow_le_zpow_right₀ (by norm_num) hk
    _ = 1 / 2 ^ 35 := by norm_num

/-- Rounding never crosses an integer from above: `n ≤ q` gives `n ≤ f64round q`. -/
theorem le_f64round (q : ℚ) (n : ℤ) (hq : |q| < 2 ^ 53) (h : (n : ℚ) ≤ q) :
    (n : ℚ) ≤ f64round q := by
  unfold f64round
  split_ifs with h0
  · rw [h0] at h; exact h
  · obtain ⟨j, hj⟩ := ulp64_eq_inv_pow q hq
    rw [hj]
    have h1 : ((n * 2 ^ j : ℤ) : ℚ) ≤ q / (1 / 2 ^ j) := by
      push_cast
      rw [div_div_eq_mul_div, div_one]
      exact mul_le_mul_of_nonneg_right h (by positivity)
    have h2 := le_roundHalfEven _ _ h1
    have h3 : ((n * 2 ^ j : ℤ) : ℚ) ≤ (roundHalfEven (q / (1 / 2 ^ j)) : ℚ) := by
      exact_mod_cast h2
    have hpos : (0 : ℚ) < 2 ^ j := by positivity
    rw [mul_one_div, le_div_iff₀ hpos]
    push_cast at h3
    exact h3

/-- Rounding never crosses an integer from below: `q ≤ n` gives `f64round q ≤ n`. -/
theorem f64round_le (q : ℚ) (n : ℤ) (hq : |q| < 2 ^ 53) (h : q ≤ (n : ℚ)) :
    f64round q ≤ (n : ℚ) := by
  unfold f64round
  split_ifs with h0
  · rw [h0] at h; exact h
  · obtain ⟨j, hj⟩ := ulp64_eq_inv_pow q hq
    rw [hj]
    have h1 : q / (1 / 2 ^ j) ≤ ((n * 2 ^ j : ℤ) : ℚ) := by
      push_cast
      rw [div_div_eq_mul_div, div_one]
      exact mul_le_mul_of_nonneg_right h (by positivity)
    have h2 := roundHalfEven_le _ _ h1
    have h3 : (roundHalfEven (q / (1 / 2 ^ j)) : ℚ) ≤ ((n * 2 ^ j : ℤ) : ℚ) := by
      exact_mod_cast h2
    have hpos : (0 : ℚ) < 2 ^ j := by positivity
    rw [mul_one_div, div_le_iff₀ hpos]
    push_cast at h3
    exact h3

/-- An integer below `2 ^ 53` in absolute value is a binary64 number. -/
theorem f64round_intCast (n : ℤ) (hn : |(n : ℚ)| < 2 ^ 53) : f64round (n : ℚ) = n :=
  le_antisymm (f64round_le _ n hn le_rfl) (le_f64round _ n hn le_rfl)

theorem roundHalfEven_le_add_half (q : ℚ) : (roundHalfEven q : ℚ) ≤ q + 1 / 2 := by
  have hf : (⌊q⌋ : ℚ) ≤ q := Int.floor_le q
  unfold roundHalfEven
  simp only
  split_ifs with h1 h2 h3
  · linarith
  · push_cast; linarith
  · linarith
  · push_cast
    have : q - (⌊q⌋ : ℚ) = 1 / 2 := le_antisymm (not_lt.mp h2) (not_lt.mp h1)
    linarith

/-- Below `2 ^ e` the spacing is at most `2 ^ (e - 53)`. -/
theorem ulp64_le (q : ℚ) (e : ℤ) (hq0 : q ≠ 0) (he : -1021 ≤ e) (hq : |q| < 2 ^ e) :
    ulp64 q ≤ 2 ^ (e - 53) := by
  have hlog : Int.log 2 |q| < e := by
    apply (Int.lt_zpow_iff_log_lt (by norm_num) (abs_pos.mpr hq0)).mp
    exact_mod_cast hq
  have hk : max (Int.log 2 |q|) (-1022) - 52 ≤ e - 53 := by
    have : max (Int.log 2 |q|) (-1022) ≤ e - 1 := max_le (by omega) (by omega)
    omega
  unfold ulp64
  exact zpow_le_zpow_right₀ (by norm_num) hk

/-- The rounding error is at most half a spacing, upwards. -/
theorem f64round_le_add (q : ℚ) : f64round q ≤ q + ulp64 q / 2 := by
  have hu := ulp64_pos q
  unfold f64round
  split_ifs with h0
  · subst h0; simp only [zero_add]; linarith
  · have h1 := roundHalfEven_le_add_half (q / ulp64 q)
    calc (roundHalfEven (q / ulp64 q) : ℚ) * ulp64 q
        ≤ (q / ulp64 q + 1 / 2) * ulp64 q := mul_le_mul_of_nonneg_right h1 hu.le
      _ = q + ulp64 q / 2 := by field_simp; ring

/-- A value below `2 ^ 18` that stays `2 ^ (-36)` under the integer `n + 1`
rounds to a binary64 number under `n + 1`. -/
theorem f64round_lt_succ (s : ℚ) (n : ℤ) (hs : |s| < 2 ^ 18)
    (h : s < (n : ℚ) + 1 - 1 / 2 ^ 36) : f64round s < (n : ℚ) + 1 := by
  unfold f64round
  split_ifs with h0
  · rw [h0] at h
    have : (0 : ℚ) < 1 / 2 ^ 36 := by positivity
    linarith
  · obtain ⟨j, hj⟩ := ulp64_eq_inv_pow s (lt_trans hs (by norm_num))
    have hle : ulp64 s ≤ 2 ^ ((18 : ℤ) - 53) := ulp64_le s 18 h0 (by norm_num) (by exact_mod_cast hs)
    rw [hj] at hle ⊢
    have hpos : (0 : ℚ) < 2 ^ j := by positivity
    have hhalf : (1 : ℚ) / 2 ≤ 2 ^ j * (1 / 2 ^ 36) := by
      have h35 : (2 : ℚ) ^ 35 ≤ 2 ^ j := by
        have h1 : (1 : ℚ) / 2 ^ j ≤ 1 / 2 ^ 35 := by
          calc (1 : ℚ) / 2 ^ j ≤ 2 ^ ((18 : ℤ) - 53) := hle
            _ = 1 / 2 ^ 35 := by norm_num
        rw [div_le_div_iff₀ hpos (by positivity)] at h1
        linarith
      calc (1 : ℚ) / 2 = 2 ^ 35 * (1 / 2 ^ 36) := by norm_num
        _ ≤ 2 ^ j * (1 / 2 ^ 36) := mul_le_mul_of_nonneg_right h35 (by positivity)
    have h1 : s / (1 / 2 ^ j) < (((n + 1) * 2 ^ j : ℤ) : ℚ) - 1 / 2 := by
      push_cast
      rw [div_div_eq_mul_div, div_one]
      have := mul_lt_mul_of_pos_right h hpos
      nlinarith
    have h2 := roundHalfEven_lt _ _ h1
    have h3 : (roundHalfEven (s / (1 / 2 ^ j)) : ℚ) < (((n + 1) * 2 ^ j : ℤ) : ℚ) := by
      exact_mod_cast h2
    rw [mul_one_div, div_lt_iff₀ hpos]
    push_cast at h3
    exact h3

/-- The fraction `float64(nsec)/(60*1e9)` of `Duration.Minutes` for a
remainder `0 ≤ nsec < Minute`: it lies in `[0, 1 - 2 ^ (-36))`. -/
theorem f64div_nsec_bounds (m : ℤ) (h0 : 0 ≤ m) (h1 : m < 60000000000) :
    0 ≤ f64div (f64ofInt m) 60000000000 ∧
      f64div (f64ofInt m) 60000000000 < 1 - 1 / 2 ^ 36 := by
  have hm0 : (0 : ℚ) ≤ (m : ℚ) := by exact_mod_cast h0
  have hm1 : (m : ℚ) ≤ 59999999999 := by
    have : m ≤ 59999999999 := by omega
    exact_mod_cast this
  have habs : |(m : ℚ)| < 2 ^ 53 := by
    rw [abs_of_nonneg hm0]
    calc (m : ℚ) ≤ 59999999999 := hm1
      _ < 2 ^ 53 := by norm_num
  unfold f64div f64ofInt
  rw [f64round_intCast m habs]
  rcases eq_or_lt_of_le h0 with hz | hz
  · rw [← hz]; norm_num [f64round]
  have hq0 : (0 : ℚ) ≤ (m : ℚ) / 60000000000 := by positivity
  have hq1 : (m : ℚ) / 60000000000 ≤ 59999999999 / 60000000000 :=
    div_le_div_of_nonneg_right hm1 (by norm_num)
  have hqabs : |(m : ℚ) / 60000000000| < 2 ^ (0 : ℤ) := by
    rw [abs_of_nonneg hq0]
    calc (m : ℚ) / 60000000000 ≤ 59999999999 / 60000000000 := hq1
      _ < 2 ^ (0 : ℤ) := by norm_num
  constructor
  · have := le_f64round ((m : ℚ) / 60000000000) 0
      (lt_trans (by simpa using hqabs) (by norm_num)) (by simpa using hq0)
    simpa using this
  · have hne : (m : ℚ) / 60000000000 ≠ 0 := by
      have : (0 : ℚ) < (m : ℚ) := by exact_mod_cast hz
      positivity
    have hu := ulp64_le _ 0 hne (by norm_num) hqabs
    have hr := f64round_le_add ((m : ℚ) / 60000000000)
    have hu2 : ulp64 ((m : ℚ) / 60000000000) ≤ 1 / 2 ^ 53 := by
      calc ulp64 ((m : ℚ) / 60000000000) ≤ 2 ^ ((0 : ℤ) - 53) := hu
        _ = 1 / 2 ^ 53 := by norm_num
    calc f64round ((m : ℚ) / 60000000000)
        ≤ (m : ℚ) / 60000000000 + ulp64 ((m : ℚ) / 60000000000) / 2 := hr
      _ ≤ 59999999999 / 60000000000 + (1 / 2 ^ 53) / 2 := by linarith
      _ < 1 - 1 / 2 ^ 36 := by norm_num

theorem lt_roundHalfEven (q : ℚ) (n : ℤ) (h : (n : ℚ) + 1 / 2 < q) : n < roundHalfEven q := by
  have h1 : (n : ℚ) ≤ q := by linarith
  have h2 : n ≤ ⌊q⌋ := Int.le_floor.mpr h1
  have h5 := roundHalfEven_floor_le q
  by_cases h3 : ⌊q⌋ = n
  · have h4 : 1 / 2 < q - (⌊q⌋ : ℚ) := by
      rw [h3]; linarith
    unfold roundHalfEven
    simp only
    rw [if_neg (not_lt.mpr h4.le), if_pos h4]
    omega
  · omega

theorem roundHalfEven_eq_of_near (q : ℚ) (z : ℤ) (h1 : (z : ℚ) - 1 / 2 < q)
    (h2 : q < (z : ℚ) + 1 / 2) : roundHalfEven q = z := by
  have h3 : z - 1 < roundHalfEven q := lt_roundHalfEven q (z - 1) (by push_cast; linarith)
  have h4 : roundHalfEven q < z + 1 := roundHalfEven_lt q (z + 1) (by push_cast; linarith)
  omega

/-- Evaluation of `f64round` at a value of known binary exponent `e`: the
result is `z * 2 ^ (e - 52)` for the integer `z` nearest to the scaled value. -/
theorem f64round_eq_of_near (s : ℚ) (e z : ℤ) (he : -1022 ≤ e) (h1 : 2 ^ e ≤ |s|)
    (h2 : |s| < 2 ^ (e + 1)) (h3 : (z : ℚ) - 1 / 2 < s / 2 ^ (e - 52))
    (h4 : s / 2 ^ (e - 52) < (z : ℚ) + 1 / 2) : f64round s = z * 2 ^ (e - 52) := by
  have hpos : 0 < |s| := lt_of_lt_of_le (by positivity) h1
  have hlog : Int.log 2 |s| = e := by
    apply le_antisymm
    · have hb : 1 < 2 := by norm_num
      have : Int.log 2 |s| < e + 1 :=
        (Int.lt_zpow_iff_log_lt hb hpos).mp (by exact_mod_cast h2)
      omega
    · have hb : 1 < 2 := by norm_num
      exact (Int.zpow_le_iff_le_log hb hpos).mp (by exact_mod_cast h1)
  have hu : ulp64 s = 2 ^ (e - 52) := by
    unfold ulp64
    rw [hlog, max_eq_left he]
  unfold f64round
  rw [if_neg (abs_pos.mp hpos), hu, roundHalfEven_eq_of_near _ z h3 h4]

theorem sub_half_le_roundHalfEven (q : ℚ) : q - 1 / 2 ≤ (roundHalfEven q : ℚ) := by
  have hf : q < (⌊q⌋ : ℚ) + 1 := Int.lt_floor_add_one q
  unfold roundHalfEven
  simp only
  split_ifs with h1 h2 h3
  · linarith
  · push_cast; linarith
  · have : q - (⌊q⌋ : ℚ) = 1 / 2 := le_antisymm (not_lt.mp h2) (not_lt.mp h1)
    linarith
  · push_cast; linarith

/-- The rounding error is at most half a spacing, downwards. -/
theorem sub_le_f64round (q : ℚ) : q - ulp64 q / 2 ≤ f64round q := by
  have hu := ulp64_pos q
  unfold f64round
  split_ifs with h0
  · subst h0; simp only [zero_sub]; linarith
  · have h1 := sub_half_le_roundHalfEven (q / ulp64 q)
    calc q - ulp64 q / 2 = (q / ulp64 q - 1 / 2) * ulp64 q := by field_simp; ring
      _ ≤ (roundHalfEven (q / ulp64 q) : ℚ) * ulp64 q :=
        mul_le_mul_of_nonneg_right h1 hu.le

/-- The absolute rounding error of a value below `2 ^ e` is at most `2 ^ (e - 54)`. -/
theorem abs_f64round_sub_le (q : ℚ) (e : ℤ) (he : -1021 ≤ e) (hq : |q| < 2 ^ e) :
    |f64round q - q| ≤ 2 ^ (e - 54) := by
  by_cases h0 : q = 0
  · subst h0
    have : f64round 0 = 0 := by unfold f64round; simp
    rw [this]; simp only [sub_zero, abs_zero]; positivity
  · have hu := ulp64_le q e h0 he hq
    have h1 := f64round_le_add q
    have h2 := sub_le_f64round q
    have h3 : (2 : ℚ) ^ (e - 53) / 2 = 2 ^ (e - 54) := by
      have : e - 53 = (e - 54) + 1 := by ring
      rw [this, zpow_add_one₀ (by norm_num)]
      ring
    rw [abs_le]
    constructor <;> linarith

/-! ## `Duration.Minutes` followed by `int(...)` -/

/-- The operands of `Duration.Minutes` for a non-negative duration. -/
theorem Minutes_eq_of_nonneg (d : ℤ) (h0 : 0 ≤ d) :
    Duration.Minutes d =
      f64add (f64ofInt (d / Minute)) (f64div (f64ofInt (d % Minute)) 60000000000) := by
  unfold Duration.Minutes
  rw [Int.tdiv_eq_ediv h0 (by decide), Int.tmod_eq_emod h0 (by decide)]

/-- For a positive duration in the range of `Duration`, `int(d.Minutes())` is
the number of whole minutes or one more. -/
theorem f64toInt_Minutes_near (d : ℤ) (h0 : 0 < d) (h1 : d ≤ maxDuration) :
    f64toInt (Duration.Minutes d) = d / Minute ∨
      f64toInt (Duration.Minutes d) = d / Minute + 1 := by
  rw [Minutes_eq_of_nonneg d h0.le]
  have hq0 : 0 ≤ d / Minute := Int.ediv_nonneg h0.le (by decide)
  have hq1 : d / Minute < 2 ^ 28 := by
    apply Int.ediv_lt_of_lt_mul (by decide)
    have h2 : d ≤ (9223372036854775807 : ℤ) := h1
    have h3 : ((2 : ℤ) ^ 28) * Minute = 16106127360000000000 := by decide
    rw [h3]
    omega
  have hr0 : 0 ≤ d % Minute := Int.emod_nonneg d (by decide)
  have hr1 : d % Minute < 60000000000 := Int.emod_lt_of_pos d (by decide)
  obtain ⟨hf0, hf1⟩ := f64div_nsec_bounds (d % Minute) hr0 hr1
  have hc0 : (0 : ℚ) ≤ ((d / Minute : ℤ) : ℚ) := by exact_mod_cast hq0
  have hc1 : ((d / Minute : ℤ) : ℚ) < 2 ^ 28 := by exact_mod_cast hq1
  have hmin : f64ofInt (d / Minute) = ((d / Minute : ℤ) : ℚ) := by
    unfold f64ofInt
    apply f64round_intCast
    rw [abs_of_nonneg hc0]
    exact lt_trans hc1 (by norm_num)
  rw [hmin]
  set r := f64div (f64ofInt (d % Minute)) 60000000000 with hr
  set n : ℤ := d / Minute with hn
  have hpos : (0 : ℚ) < 1 / 2 ^ 36 := by positivity
  have habs : |(n : ℚ) + r| < 2 ^ 53 := by
    rw [abs_of_nonneg (by linarith)]
    have : (2 : ℚ) ^ 28 + 1 < 2 ^ 53 := by norm_num
    linarith
  have hlo : (n : ℚ) ≤ f64add n r := le_f64round _ n habs (by linarith)
  have hhi : f64add n r ≤ ((n + 1 : ℤ) : ℚ) :=
    f64round_le _ (n + 1) habs (by push_cast; linarith)
  have hnn : (0 : ℚ) ≤ f64add n r := le_trans hc0 hlo
  unfold f64toInt
  rw [if_pos hnn]
  have h2 : n ≤ ⌊f64add (n : ℚ) r⌋ := Int.le_floor.mpr hlo
  have h3 : ⌊f64add (n : ℚ) r⌋ ≤ n + 1 := by
    have := Int.floor_le (f64add (n : ℚ) r)
    have h4 : ((⌊f64add (n : ℚ) r⌋ : ℤ) : ℚ) ≤ ((n + 1 : ℤ) : ℚ) := le_trans this hhi
    exact_mod_cast h4
  omega

/-- For a positive duration under `2 ^ 18` minutes (about 182 days),
`int(d.Minutes())` is exactly the number of whole minutes. -/
theorem f64toInt_Minutes_eq (d : ℤ) (h0 : 0 < d) (h1 : d < 2 ^ 18 * Minute) :
    f64toInt (Duration.Minutes d) = d / Minute := by
  rw [Minutes_eq_of_nonneg d h0.le]
  have hq0 : 0 ≤ d / Minute := Int.ediv_nonneg h0.le (by decide)
  have hq1 : d / Minute < 2 ^ 18 := Int.ediv_lt_of_lt_mul (by decide) h1
  have hr0 : 0 ≤ d % Minute := Int.emod_nonneg d (by decide)
  have hr1 : d % Minute < 60000000000 := Int.emod_lt_of_pos d (by decide)
  obtain ⟨hf0, hf1⟩ := f64div_nsec_bounds (d % Minute) hr0 hr1
  have hc0 : (0 : ℚ) ≤ ((d / Minute : ℤ) : ℚ) := by exact_mod_cast hq0
  have hc1 : ((d / Minute : ℤ) : ℚ) + 1 ≤ 2 ^ 18 := by
    have : d / Minute + 1 ≤ 2 ^ 18 := Int.add_one_le_of_lt hq1
    exact_mod_cast this
  have hmin : f64ofInt (d / Minute) = ((d / Minute : ℤ) : ℚ) := by
    unfold f64ofInt
    apply f64round_intCast
    rw [abs_of_nonneg hc0]
    have : (2 : ℚ) ^ 18 < 2 ^ 53 := by norm_num
    linarith
  rw [hmin]
  set r := f64div (f64ofInt (d % Minute)) 60000000000 with hr
  set n : ℤ := d / Minute with hn
  have hpos : (0 : ℚ) < 1 / 2 ^ 36 := by positivity
  have habs : |(n : ℚ) + r| < 2 ^ 18 := by
    rw [abs_of_nonneg (by linarith)]
    linarith
  have hlo : (n : ℚ) ≤ f64add n r :=
    le_f64round _ n (lt_trans habs (by norm_num)) (by linarith)
  have hhi : f64add n r < (n : ℚ) + 1 := f64round_lt_succ _ n habs (by linarith)
  have hnn : (0 : ℚ) ≤ f64add n r := le_trans hc0 hlo
  unfold f64toInt
  rw [if_pos hnn]
  exact Int.floor_eq_iff.mpr ⟨hlo, hhi⟩

/-- A value whose spacing is at most `2 * c` and that stays `c` under the
integer `n + 1` rounds to a binary64 number under `n + 1`. -/
theorem f64round_lt_succ_of_ulp (s : ℚ) (n : ℤ) (c : ℚ) (hc : 0 < c) (hs : |s| < 2 ^ 53)
    (hu : ulp64 s ≤ 2 * c) (h : s < (n : ℚ) + 1 - c) : f64round s < (n : ℚ) + 1 := by
  unfold f64round
  split_ifs with h0
  · rw [h0] at h
    linarith
  · obtain ⟨j, hj⟩ := ulp64_eq_inv_pow s hs
    rw [hj] at hu ⊢
    have hpos : (0 : ℚ) < 2 ^ j := by positivity
    have hhalf : (1 : ℚ) / 2 ≤ 2 ^ j * c := by
      rw [div_le_iff₀ hpos] at hu
      linarith
    have h1 : s / (1 / 2 ^ j) < (((n + 1) * 2 ^ j : ℤ) : ℚ) - 1 / 2 := by
      push_cast
      rw [div_div_eq_mul_div, div_one]
      have := mul_lt_mul_of_pos_right h hpos
      nlinarith
    have h2 := roundHalfEven_lt _ _ h1
    have h3 : (roundHalfEven (s / (1 / 2 ^ j)) : ℚ) < (((n + 1) * 2 ^ j : ℤ) : ℚ) := by
      exact_mod_cast h2
    rw [mul_one_div, div_lt_iff₀ hpos]
    push_cast at h3
    exact h3

/-- The fraction `float64(nsec)/(60*1e9)` exceeds the exact quotient by at most
`2 ^ (-54)`. -/
theorem f64div_nsec_le (m : ℤ) (h0 : 0 ≤ m) (h1 : m < 60000000000) :
    f64div (f64ofInt m) 60000000000 ≤ (m : ℚ) / 60000000000 + 1 / 2 ^ 54 := by
  have hm0 : (0 : ℚ) ≤ (m : ℚ) := by exact_mod_cast h0
  have hm1 : (m : ℚ) < 60000000000 := by exact_mod_cast h1
  have habs : |(m : ℚ)| < 2 ^ 53 := by
    rw [abs_of_nonneg hm0]
    exact lt_trans hm1 (by norm_num)
  unfold f64div f64ofInt
  rw [f64round_intCast m habs]
  have hq0 : (0 : ℚ) ≤ (m : ℚ) / 60000000000 := by positivity
  have hq1 : (m : ℚ) / 60000000000 < 1 := by
    rw [div_lt_one (by norm_num)]; exact hm1
  have e := abs_f64round_sub_le ((m : ℚ) / 60000000000) 0 (by norm_num)
    (by rw [abs_of_nonneg hq0]; simpa using hq1)
  have e' : |f64round ((m : ℚ) / 60000000000) - (m : ℚ) / 60000000000| ≤ 1 / 2 ^ 54 := by
    calc |f64round ((m : ℚ) / 60000000000) - (m : ℚ) / 60000000000|
        ≤ 2 ^ ((0 : ℤ) - 54) := e
      _ = 1 / 2 ^ 54 := by norm_num
  have := (abs_le.mp e').2
  linarith

/-- For a positive duration in the range of `Duration` that is a whole number
of microseconds, `int(d.Minutes())` is exactly the number of whole minutes. -/
theorem f64toInt_Minutes_eq_micro (d : ℤ) (h0 : 0 < d) (h1 : d ≤ maxDuration)
    (hmicro : d % 1000 = 0) : f64toInt (Duration.Minutes d) = d / Minute := by
  rw [Minutes_eq_of_nonneg d h0.le]
  have hM : Minute = 60000000000 := rfl
  have hq0 : 0 ≤ d / Minute := Int.ediv_nonneg h0.le (by decide)
  have hq1 : d / Minute < 2 ^ 28 := by
    apply Int.ediv_lt_of_lt_mul (by decide)
    have h2 : d ≤ (9223372036854775807 : ℤ) := h1
    have h3 : ((2 : ℤ) ^ 28) * Minute = 16106127360000000000 := by decide
    rw [h3]
    omega
  have hr0 : 0 ≤ d % Minute := Int.emod_nonneg d (by decide)
  have hr1 : d % Minute < 60000000000 := Int.emod_lt_of_pos d (by decide)
  have hr2 : d % Minute ≤ 59999999000 := by
    rw [hM] at hr1 ⊢
    omega
  obtain ⟨hf0, _⟩ := f64div_nsec_bounds (d % Minute) hr0 hr1
  have hf1 := f64div_nsec_le (d % Minute) hr0 hr1
  have hr2q : ((d % Minute : ℤ) : ℚ) ≤ 59999999000 := by exact_mod_cast hr2
  have hc0 : (0 : ℚ) ≤ ((d / Minute : ℤ) : ℚ) := by exact_mod_cast hq0
  have hc1 : ((d / Minute : ℤ) : ℚ) + 1 ≤ 2 ^ 28 := by
    have : d / Minute + 1 ≤ 2 ^ 28 := Int.add_one_le_of_lt hq1
    exact_mod_cast this
  have hmin : f64ofInt (d / Minute) = ((d / Minute : ℤ) : ℚ) := by
    unfold f64ofInt
    apply f64round_intCast
    rw [abs_of_nonneg hc0]
    have : (2 : ℚ) ^ 28 < 2 ^ 53 := by norm_num
    linarith
  rw [hmin]
  set r := f64div (f64ofInt (d % Minute)) 60000000000 with hr
  set n : ℤ := d / Minute with hn
  have hrlt : r < 1 - 1 / 2 ^ 26 := by
    have h5 : ((d % Minute : ℤ) : ℚ) / 60000000000 ≤ 59999999000 / 60000000000 :=
      div_le_div_of_nonneg_right hr2q (by norm_num)
    have h6 : (59999999000 : ℚ) / 60000000000 + 1 / 2 ^ 54 < 1 - 1 / 2 ^ 26 := by norm_num
    linarith
  have hpos : (0 : ℚ) < 1 / 2 ^ 26 := by positivity
  have hnn0 : (0 : ℚ) ≤ (n : ℚ) + r := by linarith
  have habs28 : |(n : ℚ) + r| < 2 ^ (28 : ℤ) := by
    rw [abs_of_nonneg hnn0]
    have : (2 : ℚ) ^ (28 : ℤ) = 2 ^ 28 := by norm_num
    rw [this]
    linarith
  have habs : |(n : ℚ) + r| < 2 ^ 53 := lt_trans habs28 (by norm_num)
  have hlo : (n : ℚ) ≤ f64add n r := le_f64round _ n habs (by linarith)
  have hu : ulp64 ((n : ℚ) + r) ≤ 2 * (1 / 2 ^ 26) := by
    by_cases hz : (n : ℚ) + r = 0
    · rw [hz]
      unfold ulp64
      norm_num
    · calc ulp64 ((n : ℚ) + r) ≤ 2 ^ ((28 : ℤ) - 53) := ulp64_le _ 28 hz (by norm_num) habs28
        _ = 2 * (1 / 2 ^ 26) := by norm_num
  have hhi : f64add n r < (n : ℚ) + 1 :=
    f64round_lt_succ_of_ulp _ n (1 / 2 ^ 26) hpos habs hu (by linarith)
  have hnn : (0 : ℚ) ≤ f64add n r := le_trans hc0 hlo
  unfold f64toInt
  rw [if_pos hnn]
  exact Int.floor_eq_iff.mpr ⟨hlo, hhi⟩

/-- The value of `int(d.Minutes())` one nanosecond before the end of minute
`262144`: the binary64 sum rounds up to `262145`. -/
theorem f64toInt_Minutes_rounds_up :
    f64toInt (Duration.Minutes 15728699999999999) = 262145 := by
  have hd : (15728699999999999 : ℤ) / Minute = 262144 := by decide
  have hm : (15728699999999999 : ℤ) % Minute = 59999999999 := by decide
  rw [Minutes_eq_of_nonneg _ (by decide), hd, hm]
  have h1 : f64ofInt 262144 = 262144 := by
    unfold f64ofInt
    have := f64round_intCast 262144 (by norm_num)
    simpa using this
  have h2 : f64ofInt 59999999999 = 59999999999 := by
    unfold f64ofInt
    have := f64round_intCast 59999999999 (by norm_num)
    simpa using this
  have h3 : f64div 59999999999 60000000000 = 9007199254590872 * 2 ^ ((-1 : ℤ) - 52) := by
    unfold f64div
    apply f64round_eq_of_near _ (-1) 9007199254590872 (by norm_num)
    · rw [abs_of_nonneg (by norm_num)]; norm_num
    · rw [abs_of_nonneg (by norm_num)]; norm_num
    · norm_num
    · norm_num
  have h4 : f64add 262144 (9007199254590872 * 2 ^ ((-1 : ℤ) - 52)) = 262145 := by
    unfold f64add
    have := f64round_eq_of_near (262144 + 9007199254590872 * 2 ^ ((-1 : ℤ) - 52)) 18
      4503616807239680 (by norm_num)
      (by rw [abs_of_nonneg (by norm_num)]; norm_num)
      (by rw [abs_of_nonneg (by norm_num)]; norm_num)
      (by norm_num) (by norm_num)
    rw [this]; norm_num
  rw [h1, h2, h3, h4]
  norm_num [f64toInt]

/-! ## Lateness and status (`CalculateLateMinutes`, `CalculateAttendanceStatus`) -/

theorem Time.Sub_nonpos_iff (t u : ℤ) : Time.Sub t u ≤ 0 ↔ t ≤ u := by
  unfold Time.Sub maxDuration minDuration
  split_ifs <;> constructor <;> intro h <;> omega

theorem Time.Sub_eq_of_lt (t u : ℤ) (h0 : u < t) (h1 : t - u ≤ maxDuration) :
    Time.Sub t u = t - u := by
  unfold maxDuration at h1
  unfold Time.Sub maxDuration minDuration
  split_ifs <;> omega

theorem Time.Sub_le_max (t u : ℤ) : Time.Sub t u ≤ maxDuration := by
  unfold Time.Sub maxDuration minDuration
  split_ifs <;> omega

/-- The late minutes when the lesson used is `tl`. -/
theorem CalculateLateMinutes_of_target (stay : Stay) (lesson : Option Lesson) (tl : Lesson)
    (htl : targetLesson stay lesson = some tl) :
    CalculateLateMinutes stay lesson =
      if Time.Sub stay.CreatedAt tl.StartTime ≤ 0 then 0
      else f64toInt (Duration.Minutes (Time.Sub stay.CreatedAt tl.StartTime)) := by
  unfold CalculateLateMinutes
  rw [htl]

/-- The status when the lesson used is `tl`. -/
theorem CalculateAttendanceStatus_of_target (stay : Stay) (lesson : Option Lesson)
    (config : AttendanceConfig) (tl : Lesson) (htl : targetLesson stay lesson = some tl) :
    CalculateAttendanceStatus stay lesson config =
      if Time.Sub stay.CreatedAt tl.StartTime ≤ 0 then AttendanceOnTime
      else if f64toInt (Duration.Minutes (Time.Sub stay.CreatedAt tl.StartTime)) ≤
          config.LateThresholdMinutes then AttendanceLate
      else AttendanceVeryLate := by
  unfold CalculateAttendanceStatus
  rw [htl]

theorem targetLesson_stayAt (t : Int) (l : Lesson) :
    targetLesson (stayAt t) (some l) = some l := rfl

/-- The lateness of a stay opened at `c` for a lesson starting at `s`. -/
theorem lateMinutes_core (c s : ℤ) :
    0 ≤ (if Time.Sub c s ≤ 0 then 0 else f64toInt (Duration.Minutes (Time.Sub c s))) ∧
      (c ≤ s →
        (if Time.Sub c s ≤ 0 then 0 else f64toInt (Duration.Minutes (Time.Sub c s))) = 0) ∧
      (c - s < 2 ^ 18 * Minute →
        (if Time.Sub c s ≤ 0 then 0 else f64toInt (Duration.Minutes (Time.Sub c s))) =
          max 0 ((c - s) / Minute)) ∧
      (c - s ≤ maxDuration → (c - s) % 1000 = 0 →
        (if Time.Sub c s ≤ 0 then 0 else f64toInt (Duration.Minutes (Time.Sub c s))) =
          max 0 ((c - s) / Minute)) ∧
      (c - s ≤ maxDuration →
        (if Time.Sub c s ≤ 0 then 0 else f64toInt (Duration.Minutes (Time.Sub c s))) =
            max 0 ((c - s) / Minute) ∨
          (if Time.Sub c s ≤ 0 then 0 else f64toInt (Duration.Minutes (Time.Sub c s))) =
            max 0 ((c - s) / Minute) + 1) := by
  have hM : (0 : ℤ) < Minute := by decide
  by_cases hle : c ≤ s
  · have hsub : Time.Sub c s ≤ 0 := (Time.Sub_nonpos_iff _ _).mpr hle
    have hdiv : (c - s) / Minute ≤ 0 := by
      have h1 : c - s ≤ 0 := by omega
      exact Int.ediv_le_of_le_mul hM (by simpa using h1)
    rw [if_pos hsub, max_eq_left hdiv]
    exact ⟨le_rfl, fun _ => rfl, fun _ => rfl, fun _ _ => rfl, fun _ => Or.inl rfl⟩
  · have hlt : s < c := not_le.mp hle
    have hsub : ¬ Time.Sub c s ≤ 0 := by
      rw [Time.Sub_nonpos_iff]; exact hle
    have hsubpos : 0 < Time.Sub c s := not_le.mp hsub
    have hdpos : 0 < c - s := by omega
    have hdiv : 0 ≤ (c - s) / Minute := Int.ediv_nonneg hdpos.le hM.le
    rw [if_neg hsub, max_eq_right hdiv]
    refine ⟨?_, fun h => absurd h hle, ?_, ?_, ?_⟩
    · rcases f64toInt_Minutes_near _ hsubpos (Time.Sub_le_max _ _) with h | h
      · rw [h]; exact Int.ediv_nonneg hsubpos.le hM.le
      · rw [h]; exact add_nonneg (Int.ediv_nonneg hsubpos.le hM.le) zero_le_one
    · intro h
      have h2 : c - s ≤ maxDuration := by
        have h3 : (2 : ℤ) ^ 18 * Minute = 15728640000000000 := by decide
        rw [h3] at h
        unfold maxDuration
        omega
      rw [Time.Sub_eq_of_lt _ _ hlt h2]
      exact f64toInt_Minutes_eq _ hdpos h
    · intro h hmicro
      rw [Time.Sub_eq_of_lt _ _ hlt h]
      exact f64toInt_Minutes_eq_micro _ hdpos h hmicro
    · intro h
      rw [Time.Sub_eq_of_lt _ _ hlt h]
      exact f64toInt_Minutes_near _ hdpos h

/-- C1 (counterexample). A stay opened 262144 minutes and 59.999999999 seconds
after the start of the lesson: the whole minutes of the difference are 262144,
but `CalculateLateMinutes` returns 262145, because the binary64 sum in
`Duration.Minutes` rounds up to the next integer. -/
theorem C1_late_minutes_not_always_floor :
    CalculateLateMinutes (stayAt (lesson0900.StartTime + 15728699999999999)) (some lesson0900)
        = 262145 ∧
      max 0 (((stayAt (lesson0900.StartTime + 15728699999999999)).CreatedAt
        - lesson0900.StartTime) / Minute) = 262144 := by
  constructor
  · rw [CalculateLateMinutes_of_target _ _ lesson0900 (targetLesson_stayAt _ _)]
    have h : Time.Sub (stayAt (lesson0900.StartTime + 15728699999999999)).CreatedAt
        lesson0900.StartTime = 15728699999999999 := by decide
    rw [h, if_neg (by decide)]
    exact f64toInt_Minutes_rounds_up
  · decide

/-- C1 (amended). With `tl` the lesson used (`stay.Lesson` if present, else the
argument), `CalculateLateMinutes` is never negative, is 0 whenever the stay was
opened at or before `tl.StartTime`, and equals
`max 0 (floor ((stay.CreatedAt - tl.StartTime) in minutes))` whenever the stay
was opened less than `2 ^ 18` minutes after the start, or the difference fits a
`Duration` and is a whole number of microseconds; for every other difference
that fits a `Duration` it is that floor or the floor plus one. -/
theorem C1_late_minutes (stay : Stay) (lesson : Option Lesson) (tl : Lesson)
    (htl : targetLesson stay lesson = some tl) :
    0 ≤ CalculateLateMinutes stay lesson ∧
      (stay.CreatedAt ≤ tl.StartTime → CalculateLateMinutes stay lesson = 0) ∧
      (stay.CreatedAt - tl.StartTime < 2 ^ 18 * Minute →
        CalculateLateMinutes stay lesson =
          max 0 ((stay.CreatedAt - tl.StartTime) / Minute)) ∧
      (stay.CreatedAt - tl.StartTime ≤ maxDuration →
        (stay.CreatedAt - tl.StartTime) % 1000 = 0 →
        CalculateLateMinutes stay lesson =
          max 0 ((stay.CreatedAt - tl.StartTime) / Minute)) ∧
      (stay.CreatedAt - tl.StartTime ≤ maxDuration →
        CalculateLateMinutes stay lesson =
            max 0 ((stay.CreatedAt - tl.StartTime) / Minute) ∨
          CalculateLateMinutes stay lesson =
            max 0 ((stay.CreatedAt - tl.StartTime) / Minute) + 1) := by
  rw [CalculateLateMinutes_of_target stay lesson tl htl]
  exact lateMinutes_core stay.CreatedAt tl.StartTime

/-- C1 (witness): a stay opened 10 minutes 30 seconds after 09:00. -/
theorem C1_late_minutes_witness :
    CalculateLateMinutes (stayAt (lesson0900.StartTime + 630000000000)) (some lesson0900) =
      max 0 (((stayAt (lesson0900.StartTime + 630000000000)).CreatedAt
        - lesson0900.StartTime) / Minute) :=
  (C1_late_minutes (stayAt (lesson0900.StartTime + 630000000000)) (some lesson0900)
    lesson0900 rfl).2.2.1 (by decide)

/-- C2 (the code at the failing input). A stay opened 30 seconds after the
lesson starts: `CalculateLateMinutes` returns 0, yet `CalculateAttendanceStatus`
returns `late`, not `on_time`, under the default configuration; the record that
`GetTodayAttendance` builds from the two carries `LateMinutes = 0` and
`OnTime = true` beside the status `late`. -/
theorem C2_zero_late_minutes_not_on_time :
    CalculateLateMinutes (stayAt (lesson0900.StartTime + 30000000000)) (some lesson0900) = 0 ∧
      CalculateAttendanceStatus (stayAt (lesson0900.StartTime + 30000000000))
        (some lesson0900) DefaultAttendanceConfig = AttendanceLate ∧
      attendedRecord lesson0900 (stayAt (lesson0900.StartTime + 30000000000))
          DefaultAttendanceConfig =
        { Lesson := lesson0900, AttendanceStatus := AttendanceLate, LateMinutes := 0,
          OnTime := true, EntryTime := some (lesson0900.StartTime + 30000000000),
          ExitTime := none } := by
  have h : Time.Sub (stayAt (lesson0900.StartTime + 30000000000)).CreatedAt
      lesson0900.StartTime = 30000000000 := by decide
  have hm : f64toInt (Duration.Minutes 30000000000) = 0 := by
    rw [f64toInt_Minutes_eq 30000000000 (by decide) (by decide)]
    decide
  have h1 : CalculateLateMinutes (stayAt (lesson0900.StartTime + 30000000000))
      (some lesson0900) = 0 := by
    rw [CalculateLateMinutes_of_target _ _ lesson0900 (targetLesson_stayAt _ _), h,
      if_neg (by decide), hm]
  have h2 : CalculateAttendanceStatus (stayAt (lesson0900.StartTime + 30000000000))
      (some lesson0900) DefaultAttendanceConfig = AttendanceLate := by
    rw [CalculateAttendanceStatus_of_target _ _ _ lesson0900 (targetLesson_stayAt _ _), h,
      if_neg (by decide), hm]
    decide
  refine ⟨h1, h2, ?_⟩
  unfold attendedRecord
  simp only [h1, h2]
  rfl

/-- With `tl` the lesson used: `CalculateAttendanceStatus` returns `on_time`
exactly when the stay was opened at or before `tl.StartTime`, and the late
minutes are then 0; a stay opened after the start whose late minutes are 0 is
classified `late` when `LateThresholdMinutes ≥ 0`. -/
theorem CalculateAttendanceStatus_onTime_iff (stay : Stay) (lesson : Option Lesson)
    (config : AttendanceConfig) (tl : Lesson) (htl : targetLesson stay lesson = some tl) :
    (CalculateAttendanceStatus stay lesson config = AttendanceOnTime ↔
        stay.CreatedAt ≤ tl.StartTime) ∧
      (stay.CreatedAt ≤ tl.StartTime → CalculateLateMinutes stay lesson = 0) ∧
      (tl.StartTime < stay.CreatedAt → CalculateLateMinutes stay lesson = 0 →
        0 ≤ config.LateThresholdMinutes →
        CalculateAttendanceStatus stay lesson config = AttendanceLate) := by
  rw [CalculateAttendanceStatus_of_target stay lesson config tl htl,
    CalculateLateMinutes_of_target stay lesson tl htl]
  have hiff := Time.Sub_nonpos_iff stay.CreatedAt tl.StartTime
  refine ⟨?_, ?_, ?_⟩
  · constructor
    · intro h
      by_contra hc
      rw [if_neg (fun h' => hc (hiff.mp h'))] at h
      split_ifs at h
    · intro h
      rw [if_pos (hiff.mpr h)]
  · intro h
    rw [if_pos (hiff.mpr h)]
  · intro h hz hthr
    have hn : ¬ Time.Sub stay.CreatedAt tl.StartTime ≤ 0 := fun h' => absurd (hiff.mp h') (not_le.mpr h)
    rw [if_neg hn] at hz ⊢
    rw [hz, if_pos hthr]

/-- C3. With `tl` the lesson used and `LateThresholdMinutes ≥ 0`:
`CalculateAttendanceStatus` returns `late` when the late minutes of
`CalculateLateMinutes` are positive and at most the threshold, and `very_late`
when they exceed it. With the default threshold 10, a stay opened exactly at
the start is `on_time`, ten minutes after it `late`, eleven minutes after it
`very_late`. -/
theorem C3_late_and_very_late (stay : Stay) (lesson : Option Lesson)
    (config : AttendanceConfig) (tl : Lesson) (htl : targetLesson stay lesson = some tl)
    (hthr : 0 ≤ config.LateThresholdMinutes) :
    (0 < CalculateLateMinutes stay lesson →
        CalculateLateMinutes stay lesson ≤ config.LateThresholdMinutes →
        CalculateAttendanceStatus stay lesson config = AttendanceLate) ∧
      (config.LateThresholdMinutes < CalculateLateMinutes stay lesson →
        CalculateAttendanceStatus stay lesson config = AttendanceVeryLate) ∧
      (stay.CreatedAt = tl.StartTime →
        CalculateAttendanceStatus stay lesson DefaultAttendanceConfig = AttendanceOnTime) ∧
      (stay.CreatedAt = tl.StartTime + 10 * Minute →
        CalculateAttendanceStatus stay lesson DefaultAttendanceConfig = AttendanceLate) ∧
      (stay.CreatedAt = tl.StartTime + 11 * Minute →
        CalculateAttendanceStatus stay lesson DefaultAttendanceConfig = AttendanceVeryLate) := by
  rw [CalculateAttendanceStatus_of_target stay lesson config tl htl,
    CalculateAttendanceStatus_of_target stay lesson DefaultAttendanceConfig tl htl,
    CalculateLateMinutes_of_target stay lesson tl htl]
  refine ⟨?_, ?_, ?_, ?_, ?_⟩
  · intro hpos hle
    by_cases hs : Time.Sub stay.CreatedAt tl.StartTime ≤ 0
    · rw [if_pos hs] at hpos; exact absurd hpos (lt_irrefl 0)
    · rw [if_neg hs] at hle ⊢
      rw [if_pos hle]
  · intro hgt
    by_cases hs : Time.Sub stay.CreatedAt tl.StartTime ≤ 0
    · rw [if_pos hs] at hgt; exact absurd (lt_of_le_of_lt hthr hgt) (lt_irrefl 0)
    · rw [if_neg hs] at hgt ⊢
      rw [if_neg (not_le.mpr hgt)]
  · intro h
    rw [if_pos ((Time.Sub_nonpos_iff _ _).mpr (le_of_eq h))]
  · intro h
    have hsub : Time.Sub stay.CreatedAt tl.StartTime = 600000000000 := by
      rw [h, Time.Sub_eq_of_lt _ _ (by unfold Minute; omega) (by unfold Minute maxDuration; omega)]
      unfold Minute; omega
    rw [hsub, if_neg (by decide),
      f64toInt_Minutes_eq 600000000000 (by decide) (by decide)]
    decide
  · intro h
    have hsub : Time.Sub stay.CreatedAt tl.StartTime = 660000000000 := by
      rw [h, Time.Sub_eq_of_lt _ _ (by unfold Minute; omega) (by unfold Minute maxDuration; omega)]
      unfold Minute; omega
    rw [hsub, if_neg (by decide),
      f64toInt_Minutes_eq 660000000000 (by decide) (by decide)]
    decide

/-- C3 (witness): opened ten minutes after 09:00, default configuration. -/
theorem C3_late_and_very_late_witness :
    CalculateAttendanceStatus (stayAt (lesson0900.StartTime + 10 * Minute)) (some lesson0900)
      DefaultAttendanceConfig = AttendanceLate :=
  (C3_late_and_very_late (stayAt (lesson0900.StartTime + 10 * Minute)) (some lesson0900)
    DefaultAttendanceConfig lesson0900 rfl (by decide)).2.2.2.1 rfl

/-- C4. `CalculateAttendanceStatus` returns `unknown` if and only if no lesson
is known (`stay.Lesson` is nil and the `lesson` argument is nil), and then
`CalculateLateMinutes` returns 0. -/
theorem C4_unknown_iff_no_lesson (stay : Stay) (lesson : Option Lesson)
    (config : AttendanceConfig) :
    (CalculateAttendanceStatus stay lesson config = AttendanceUnknown ↔
        stay.Lesson = none ∧ lesson = none) ∧
      (stay.Lesson = none ∧ lesson = none → CalculateLateMinutes stay lesson = 0) := by
  constructor
  · constructor
    · intro h
      cases hs : stay.Lesson with
      | some l =>
        have htl : targetLesson stay lesson = some l := by unfold targetLesson; rw [hs]
        rw [CalculateAttendanceStatus_of_target stay lesson config l htl] at h
        split_ifs at h
      | none =>
        cases hl : lesson with
        | some l =>
          have htl : targetLesson stay (some l) = some l := by unfold targetLesson; rw [hs]
          rw [hl, CalculateAttendanceStatus_of_target stay (some l) config l htl] at h
          split_ifs at h
        | none => exact ⟨rfl, rfl⟩
    · rintro ⟨hs, hl⟩
      unfold CalculateAttendanceStatus targetLesson
      rw [hs, hl]
  · rintro ⟨hs, hl⟩
    unfold CalculateLateMinutes targetLesson
    rw [hs, hl]

/-! ## `GetTodayAttendance` -/

/-- The function `CalculateAttendanceStatus` has four possible results. -/
theorem CalculateAttendanceStatus_cases (stay : Stay) (lesson : Option Lesson)
    (config : AttendanceConfig) :
    CalculateAttendanceStatus stay lesson config = AttendanceUnknown ∨
      CalculateAttendanceStatus stay lesson config = AttendanceOnTime ∨
      CalculateAttendanceStatus stay lesson config = AttendanceLate ∨
      CalculateAttendanceStatus stay lesson config = AttendanceVeryLate := by
  unfold CalculateAttendanceStatus
  cases targetLesson stay lesson with
  | none => exact Or.inl rfl
  | some tl =>
    simp only
    split_ifs
    · exact Or.inr (Or.inl rfl)
    · exact Or.inr (Or.inr (Or.inl rfl))
    · exact Or.inr (Or.inr (Or.inr rfl))

theorem CalculateAttendanceStatus_ne_absent (stay : Stay) (lesson : Option Lesson)
    (config : AttendanceConfig) :
    CalculateAttendanceStatus stay lesson config ≠ AttendanceAbsent := by
  rcases CalculateAttendanceStatus_cases stay lesson config with h | h | h | h <;>
    rw [h] <;> decide

/-- The loop body when the lesson's stays were fetched and no stay was selected. -/
theorem lessonStep_of_none (u : AttendanceUsecase) (user : User) (config : AttendanceConfig)
    (acc : List AttendanceRecord × AttendanceSummary) (lesson : Lesson) (stays : List Stay)
    (hq : u.stayServiceGetByLessonID lesson.ID = .ok stays)
    (hsel : selectUserStay u user lesson stays = none) :
    lessonStep u user config acc lesson =
      .ok (acc.1 ++ [absentRecord lesson], { acc.2 with Absent := acc.2.Absent + 1 }) := by
  unfold lessonStep
  rw [hq]
  simp only
  rw [hsel]

/-- The loop body when the lesson's stays were fetched and a stay was selected. -/
theorem lessonStep_of_some (u : AttendanceUsecase) (user : User) (config : AttendanceConfig)
    (acc : List AttendanceRecord × AttendanceSummary) (lesson : Lesson) (stays : List Stay)
    (userStay : Stay) (hq : u.stayServiceGetByLessonID lesson.ID = .ok stays)
    (hsel : selectUserStay u user lesson stays = some userStay) :
    lessonStep u user config acc lesson =
      .ok (acc.1 ++ [attendedRecord lesson userStay config],
        countStatus acc.2 (attendedRecord lesson userStay config).AttendanceStatus) := by
  unfold lessonStep
  rw [hq]
  simp only
  rw [hsel]

/-- C5. `CalculateAttendanceStatus` returns one of `unknown`, `on_time`, `late`,
`very_late` and never `absent`; in the loop of `GetTodayAttendance` the record
appended for a lesson has status `absent` exactly when no stay was found for
the lesson. -/
theorem C5_absent_only_from_caller (stay : Stay) (lesson : Option Lesson)
    (config : AttendanceConfig) (u : AttendanceUsecase) (user : User)
    (acc : List AttendanceRecord × AttendanceSummary) (l : Lesson) :
    (CalculateAttendanceStatus stay lesson config = AttendanceUnknown ∨
        CalculateAttendanceStatus stay lesson config = AttendanceOnTime ∨
        CalculateAttendanceStatus stay lesson config = AttendanceLate ∨
        CalculateAttendanceStatus stay lesson config = AttendanceVeryLate) ∧
      CalculateAttendanceStatus stay lesson config ≠ AttendanceAbsent ∧
      (match u.stayServiceGetByLessonID l.ID with
        | .error e => lessonStep u user config acc l = .error e
        | .ok stays =>
          ∃ r s, lessonStep u user config acc l = .ok (acc.1 ++ [r], s) ∧
            (r.AttendanceStatus = AttendanceAbsent ↔
              selectUserStay u user l stays = none)) := by
  refine ⟨CalculateAttendanceStatus_cases stay lesson config,
    CalculateAttendanceStatus_ne_absent stay lesson config, ?_⟩
  cases hq : u.stayServiceGetByLessonID l.ID with
  | error e =>
    simp only
    unfold lessonStep
    rw [hq]
  | ok stays =>
    simp only
    cases hsel : selectUserStay u user l stays with
    | none =>
      refine ⟨absentRecord l, _, lessonStep_of_none u user config acc l stays hq hsel, ?_⟩
      simp [absentRecord]
    | some userStay =>
      refine ⟨attendedRecord l userStay config, _,
        lessonStep_of_some u user config acc l stays userStay hq hsel, ?_⟩
      constructor
      · intro h
        exact absurd h (CalculateAttendanceStatus_ne_absent userStay (some l) config)
      · intro h
        exact absurd h (by simp)

/-- One iteration keeps `TotalLessons` and raises `OnTime + Late` by at most one,
never lowering `OnTime` or `Late`. -/
theorem lessonStep_counts (u : AttendanceUsecase) (user : User) (config : AttendanceConfig)
    (acc acc1 : List AttendanceRecord × AttendanceSummary) (lesson : Lesson)
    (h : lessonStep u user config acc lesson = .ok acc1) :
    acc1.2.TotalLessons = acc.2.TotalLessons ∧ acc.2.OnTime ≤ acc1.2.OnTime ∧
      acc.2.Late ≤ acc1.2.Late ∧
      acc1.2.OnTime + acc1.2.Late ≤ acc.2.OnTime + acc.2.Late + 1 := by
  cases hq : u.stayServiceGetByLessonID lesson.ID with
  | error e =>
    unfold lessonStep at h
    rw [hq] at h
    simp at h
  | ok stays =>
    cases hsel : selectUserStay u user lesson stays with
    | none =>
      rw [lessonStep_of_none u user config acc lesson stays hq hsel] at h
      have h1 := (Except.ok.inj h).symm
      subst h1
      simp
    | some userStay =>
      rw [lessonStep_of_some u user config acc lesson stays userStay hq hsel] at h
      have h1 := (Except.ok.inj h).symm
      subst h1
      simp only
      unfold countStatus
      split <;> simp <;> omega

/-- The loop keeps `TotalLessons` and raises `OnTime + Late` by at most the
number of lessons, never lowering `OnTime` or `Late`. -/
theorem lessonLoop_counts (u : AttendanceUsecase) (user : User) (config : AttendanceConfig)
    (lessons : List Lesson) :
    ∀ (acc acc1 : List AttendanceRecord × AttendanceSummary),
      lessonLoop u user config lessons acc = .ok acc1 →
      acc1.2.TotalLessons = acc.2.TotalLessons ∧ acc.2.OnTime ≤ acc1.2.OnTime ∧
        acc.2.Late ≤ acc1.2.Late ∧
        acc1.2.OnTime + acc1.2.Late ≤ acc.2.OnTime + acc.2.Late + lessons.length := by
  induction lessons with
  | nil =>
    intro acc acc1 h
    simp only [lessonLoop] at h
    have h1 := (Except.ok.inj h).symm
    subst h1
    simp
  | cons lesson rest ih =>
    intro acc acc1 h
    simp only [lessonLoop] at h
    cases hstep : lessonStep u user config acc lesson with
    | error e => rw [hstep] at h; simp at h
    | ok acc2 =>
      rw [hstep] at h
      simp only at h
      obtain ⟨a1, a2, a3, a4⟩ := lessonStep_counts u user config acc acc2 lesson hstep
      obtain ⟨b1, b2, b3, b4⟩ := ih acc2 acc1 h
      simp only [List.length_cons, Nat.cast_add, Nat.cast_one]
      refine ⟨by omega, by omega, by omega, by omega⟩

/-- The summary of a successful `GetTodayAttendance`: the rate is computed from
its own counters, and `0 ≤ OnTime`, `0 ≤ Late`, `OnTime + Late ≤ TotalLessons`. -/
theorem GetTodayAttendance_summary (u : AttendanceUsecase) (userID : String) (date : Int)
    (records : List AttendanceRecord) (summary : AttendanceSummary)
    (h : GetTodayAttendance u userID date = .ok (records, summary)) :
    summary.AttendanceRate = attendanceRate summary ∧ 0 ≤ summary.OnTime ∧
      0 ≤ summary.Late ∧ summary.OnTime + summary.Late ≤ summary.TotalLessons := by
  unfold GetTodayAttendance at h
  cases hu : u.userServiceGetByID userID with
  | error e => rw [hu] at h; simp at h
  | ok user =>
    rw [hu] at h
    simp only at h
    cases hl : u.lessonServiceGetByUserAndDate userID date with
    | error e => rw [hl] at h; simp at h
    | ok lessons =>
      rw [hl] at h
      simp only at h
      split at h
      · simp at h
      · rename_i recs summary1 hloop
        simp only [Except.ok.injEq, Prod.mk.injEq] at h
        obtain ⟨_, hs⟩ := h
        obtain ⟨c1, c2, c3, c4⟩ := lessonLoop_counts u user DefaultAttendanceConfig lessons _ _ hloop
        simp only at c1 c2 c3 c4
        rw [← hs]
        refine ⟨rfl, c2, c3, ?_⟩
        simp only
        omega

/-- The binary64 rate is within `2 ^ (-45)` of the exact quotient. -/
theorem attendanceRate_accuracy (a t : ℤ) (ha : 0 ≤ a) (hat : a ≤ t) (ht0 : 0 < t)
    (ht : t < 2 ^ 53) :
    |f64mul (f64div (f64ofInt a) (f64ofInt t)) 100 - (a : ℚ) / (t : ℚ) * 100| ≤ 1 / 2 ^ 45 := by
  have hta : ((t : ℤ) : ℚ) < 2 ^ 53 := by exact_mod_cast ht
  have ht0q : (0 : ℚ) < (t : ℚ) := by exact_mod_cast ht0
  have ha0q : (0 : ℚ) ≤ (a : ℚ) := by exact_mod_cast ha
  have hatq : (a : ℚ) ≤ (t : ℚ) := by exact_mod_cast hat
  have h1 : f64ofInt a = a := by
    unfold f64ofInt
    apply f64round_intCast
    rw [abs_of_nonneg ha0q]; linarith
  have h2 : f64ofInt t = t := by
    unfold f64ofInt
    apply f64round_intCast
    rw [abs_of_nonneg ht0q.le]; exact hta
  rw [h1, h2]
  unfold f64div f64mul
  have hx0 : (0 : ℚ) ≤ (a : ℚ) / t := by positivity
  have hx1 : (a : ℚ) / t ≤ 1 := (div_le_one ht0q).mpr hatq
  have e1 := abs_f64round_sub_le ((a : ℚ) / t) 1 (by norm_num)
    (by rw [abs_of_nonneg hx0]; norm_num; linarith)
  have e1' : |f64round ((a : ℚ) / t) - (a : ℚ) / t| ≤ 1 / 2 ^ 53 := by
    calc |f64round ((a : ℚ) / t) - (a : ℚ) / t| ≤ 2 ^ ((1 : ℤ) - 54) := e1
      _ = 1 / 2 ^ 53 := by norm_num
  obtain ⟨e1a, e1b⟩ := abs_le.mp e1'
  have hy0 : (0 : ℚ) ≤ f64round ((a : ℚ) / t) := by
    have := le_f64round ((a : ℚ) / t) 0
      (by rw [abs_of_nonneg hx0]; exact lt_of_le_of_lt hx1 (by norm_num)) (by simpa using hx0)
    simpa using this
  have hy1 : f64round ((a : ℚ) / t) * 100 < 2 ^ (7 : ℤ) := by
    have : f64round ((a : ℚ) / t) ≤ 1 + 1 / 2 ^ 53 := by linarith
    calc f64round ((a : ℚ) / t) * 100 ≤ (1 + 1 / 2 ^ 53) * 100 :=
          mul_le_mul_of_nonneg_right this (by norm_num)
      _ < 2 ^ (7 : ℤ) := by norm_num
  have e2 := abs_f64round_sub_le (f64round ((a : ℚ) / t) * 100) 7 (by norm_num)
    (by rw [abs_of_nonneg (by positivity)]; exact hy1)
  have e2' : |f64round (f64round ((a : ℚ) / t) * 100) - f64round ((a : ℚ) / t) * 100|
      ≤ 1 / 2 ^ 47 := by
    calc |f64round (f64round ((a : ℚ) / t) * 100) - f64round ((a : ℚ) / t) * 100|
        ≤ 2 ^ ((7 : ℤ) - 54) := e2
      _ = 1 / 2 ^ 47 := by norm_num
  obtain ⟨e2a, e2b⟩ := abs_le.mp e2'
  rw [abs_le]
  constructor
  · have : -(1 / 2 ^ 45 : ℚ) ≤ -(1 / 2 ^ 47) - 100 * (1 / 2 ^ 53) := by norm_num
    linarith
  · have : (1 / 2 ^ 47 : ℚ) + 100 * (1 / 2 ^ 53) ≤ 1 / 2 ^ 45 := by norm_num
    linarith

/-- The binary64 value of `2 / 4 * 100` is exactly 50. -/
theorem f64_half_times_hundred :
    f64mul (f64div (f64ofInt 2) (f64ofInt 4)) 100 = 50 := by
  have h2 : f64ofInt 2 = 2 := by
    unfold f64ofInt
    have := f64round_intCast 2 (by norm_num)
    simpa using this
  have h4 : f64ofInt 4 = 4 := by
    unfold f64ofInt
    have := f64round_intCast 4 (by norm_num)
    simpa using this
  have hdiv : f64div 2 4 = 1 / 2 := by
    unfold f64div
    rw [f64round_eq_of_near (2 / 4) (-1) 4503599627370496 (by norm_num)
      (by rw [abs_of_nonneg (by norm_num)]; norm_num)
      (by rw [abs_of_nonneg (by norm_num)]; norm_num)
      (by norm_num) (by norm_num)]
    norm_num
  have hmul : f64mul (1 / 2) 100 = 50 := by
    unfold f64mul
    have := f64round_intCast 50 (by norm_num)
    have h : ((1 : ℚ) / 2 * 100) = ((50 : ℤ) : ℚ) := by norm_num
    rw [h, this]
    norm_num
  rw [h2, h4, hdiv, hmul]

/-- C7. The summary returned by `GetTodayAttendance` has
`AttendanceRate = float64(OnTime + Late) / float64(TotalLessons) * 100`
(the binary64 quotient and product) when `TotalLessons > 0`, which is within
`2 ^ (-45)` of the exact value of `(OnTime + Late) / TotalLessons * 100`, and
`AttendanceRate = 0` when `TotalLessons = 0`; with 4 lessons of which one is on
time and one late, the rate is exactly 50. -/
theorem C7_attendance_rate (u : AttendanceUsecase) (userID : String) (date : Int)
    (records : List AttendanceRecord) (summary : AttendanceSummary)
    (h : GetTodayAttendance u userID date = .ok (records, summary)) :
    (0 < summary.TotalLessons →
        summary.AttendanceRate =
          f64mul (f64div (f64ofInt (summary.OnTime + summary.Late))
            (f64ofInt summary.TotalLessons)) 100) ∧
      (0 < summary.TotalLessons → summary.TotalLessons < 2 ^ 53 →
        |summary.AttendanceRate -
            ((summary.OnTime + summary.Late : ℤ) : ℚ) / (summary.TotalLessons : ℚ) * 100|
          ≤ 1 / 2 ^ 45) ∧
      (summary.TotalLessons = 0 → summary.AttendanceRate = 0) ∧
      (summary.TotalLessons = 4 → summary.OnTime = 1 → summary.Late = 1 →
        summary.AttendanceRate = 50) := by
  obtain ⟨hrate, hon, hlate, hle⟩ := GetTodayAttendance_summary u userID date records summary h
  have key : summary.AttendanceRate =
      if summary.TotalLessons > 0 then
        f64mul (f64div (f64ofInt (summary.OnTime + summary.Late))
          (f64ofInt summary.TotalLessons)) 100
      else 0 := hrate
  refine ⟨?_, ?_, ?_, ?_⟩
  · intro hpos
    rw [key, if_pos hpos]
  · intro hpos hlt
    rw [key, if_pos hpos]
    exact attendanceRate_accuracy _ _ (add_nonneg hon hlate) hle hpos hlt
  · intro hz
    rw [key, if_neg (by omega)]
  · intro h4 h1 h1'
    rw [key, h4, h1, h1', if_pos (by decide)]
    exact f64_half_times_hundred

theorem status_stayR2 :
    CalculateAttendanceStatus stayR2 (some (lessonAt "L2" "R2" 11 0 12 0))
      DefaultAttendanceConfig = AttendanceLate ∧
    CalculateLateMinutes stayR2 (some (lessonAt "L2" "R2" 11 0 12 0)) = 5 := by
  have htl : targetLesson stayR2 (some (lessonAt "L2" "R2" 11 0 12 0)) =
      some (lessonAt "L2" "R2" 11 0 12 0) := rfl
  have h : Time.Sub stayR2.CreatedAt (lessonAt "L2" "R2" 11 0 12 0).StartTime =
      300000000000 := by decide
  have hm : f64toInt (Duration.Minutes 300000000000) = 5 := by
    rw [f64toInt_Minutes_eq 300000000000 (by decide) (by decide)]
    decide
  constructor
  · rw [CalculateAttendanceStatus_of_target _ _ _ _ htl, h, if_neg (by decide), hm]
    decide
  · rw [CalculateLateMinutes_of_target _ _ _ htl, h, if_neg (by decide), hm]

/-- The run of `GetTodayAttendance` for `U1` over the example store. -/
theorem exUsecase_run :
    GetTodayAttendance exUsecase "U1" (clock monday 0 0) =
      .ok (exRecords,
        { TotalLessons := 4, OnTime := 1, Late := 1, Absent := 2,
          AttendanceRate := attendanceRate
            { TotalLessons := 4, OnTime := 1, Late := 1, Absent := 2,
              AttendanceRate := 0 } }) := by
  have hrec1 : attendedRecord lesson0900 stayL1 DefaultAttendanceConfig =
      { Lesson := lesson0900, AttendanceStatus := AttendanceOnTime, LateMinutes := 0,
        OnTime := true, EntryTime := some (clock monday 8 58),
        ExitTime := some (clock monday 10 41) } := by decide
  have hrec2 : attendedRecord (lessonAt "L2" "R2" 11 0 12 0) stayR2 DefaultAttendanceConfig =
      { Lesson := lessonAt "L2" "R2" 11 0 12 0, AttendanceStatus := AttendanceLate,
        LateMinutes := 5, OnTime := false, EntryTime := some (clock monday 11 5),
        ExitTime := none } := by
    unfold attendedRecord
    simp only [status_stayR2.1, status_stayR2.2]
    rfl
  unfold GetTodayAttendance
  have hu : exUsecase.userServiceGetByID "U1" = .ok { ID := "U1" } := rfl
  have hl : exUsecase.lessonServiceGetByUserAndDate "U1" (clock monday 0 0) =
      .ok todayLessons := rfl
  rw [hu]
  simp only
  rw [hl]
  simp only
  unfold todayLessons
  simp only [lessonLoop, List.length_cons, List.length_nil]
  rw [lessonStep_of_some exUsecase { ID := "U1" } DefaultAttendanceConfig _ lesson0900
    [stayL1] stayL1 rfl rfl, hrec1]
  simp only
  rw [lessonStep_of_some exUsecase { ID := "U1" } DefaultAttendanceConfig _
    (lessonAt "L2" "R2" 11 0 12 0) [] stayR2 rfl rfl, hrec2]
  simp only
  rw [lessonStep_of_none exUsecase { ID := "U1" } DefaultAttendanceConfig _
    (lessonAt "L3" "R3" 13 0 14 0) [] rfl rfl]
  simp only
  rw [lessonStep_of_none exUsecase { ID := "U1" } DefaultAttendanceConfig _
    (lessonAt "L4" "R4" 15 0 16 0) [] rfl rfl]
  rfl

/-- C7 (witness): the run for `U1` over the example store, whose four lessons
come out on time, late, absent and absent. -/
theorem C7_attendance_rate_witness :
    ∃ summary, GetTodayAttendance exUsecase "U1" (clock monday 0 0) = .ok (exRecords, summary) ∧
      summary.OnTime = 1 ∧ summary.Late = 1 ∧ summary.Absent = 2 ∧
      summary.AttendanceRate = 50 :=
  ⟨_, exUsecase_run, rfl, rfl, rfl,
    (C7_attendance_rate exUsecase "U1" (clock monday 0 0) exRecords _ exUsecase_run).2.2.2
      rfl rfl rfl⟩

/-- What the `WHERE` clause of `FindMonitoringLessons` computes for a lesson on
the weekday of `now` that does not end before it starts: the closed window
`[StartTime - 10min, EndTime + 5min]`. -/
theorem monitoringSelected_iff (zone now : Int) (l : Lesson)
    (hday : l.DayOfWeek = Time.Weekday zone now) (hle : l.StartTime ≤ l.EndTime) :
    monitoringSelected zone now l = true ↔
      l.StartTime - 10 * Minute ≤ now ∧ now ≤ l.EndTime + 5 * Minute := by
  unfold monitoringSelected Time.Add
  simp only [hday, decide_True, Bool.true_and, Bool.or_eq_true, Bool.and_eq_true,
    decide_eq_true_eq, ge_iff_le]
  unfold Minute
  constructor
  · rintro (⟨h1, h2⟩ | ⟨h1, h2⟩) <;> constructor <;> omega
  · rintro ⟨h1, h2⟩
    left
    constructor <;> omega

/-- C9 (the code at the failing inputs). For the lesson 09:00-10:30 of a
Monday, on that Monday: the selection of `FindMonitoringLessons` already holds
at 08:50 and at 08:54, before 08:55, and no longer holds at 10:36 and 10:39,
before 10:40; it does hold at 08:55 and does not at 10:40. -/
theorem C9_monitoring_window_shifted :
    lesson0900.DayOfWeek = Time.Weekday 0 (clock monday 8 54) ∧
      monitoringSelected 0 (clock monday 8 50) lesson0900 = true ∧
      monitoringSelected 0 (clock monday 8 54) lesson0900 = true ∧
      monitoringSelected 0 (clock monday 8 55) lesson0900 = true ∧
      monitoringSelected 0 (clock monday 10 36) lesson0900 = false ∧
      monitoringSelected 0 (clock monday 10 39) lesson0900 = false ∧
      monitoringSelected 0 (clock monday 10 40) lesson0900 = false ∧
      FindMonitoringLessons [lesson0900] 0 (clock monday 8 54) = [lesson0900] ∧
      FindMonitoringLessons [lesson0900] 0 (clock monday 10 36) = [] := by
  decide

/-- A tick before `monitorStart` (and not after `monitorEnd`) changes nothing:
the loop goes on to the next event with the same state. -/
theorem monitorLoop_tick_before_start (env : MonitorEnv) (lesson : Lesson) (now : Int)
    (rest : List MonitorEvent) (st : MonitorState)
    (h1 : now < lesson.StartTime - 5 * Minute) (h2 : now ≤ lesson.EndTime + 10 * Minute) :
    monitorLoop env lesson (.tick now :: rest) st = monitorLoop env lesson rest st := by
  have ha : Time.After now (Time.Add lesson.EndTime (10 * Minute)) = false := by
    unfold Time.After Time.Add
    simp only [decide_eq_false_iff_not, not_lt]
    exact h2
  have hb : Time.Before now (Time.Add lesson.StartTime (-5 * Minute)) = true := by
    unfold Time.Before Time.Add
    simp only [decide_eq_true_eq]
    omega
  simp only [monitorLoop, ha, hb, Bool.false_eq_true, if_false, if_true]

/-- C10 (the code at the failing input). A monitor for the lesson 09:00-10:30
started at 08:54, before `monitorStart` = 08:55, while the zone of the room
holds an eligible registered device: the immediate check of `Start` queries
the provider, opens a record timestamped 08:54 and adds the user to the
recorded-set, whereas a tick at 08:54 alone would have changed nothing. -/
theorem C10_immediate_check_not_gated :
    clock monday 8 54 < lesson0900.StartTime - 5 * Minute ∧
      (Start exEnv lesson0900 (clock monday 8 54) [] exMonitorState).state =
        { recordedUsers := ["U1"],
          db := { rows := [
                    { ID := 1, UserID := "U1", IsActive := true, RoomID := "R1",
                      SubjectID := "S1", LessonID := some "L1", Description := "",
                      Source := "auto", CreatedAt := clock monday 8 54, LeavedAt := none,
                      Lesson := none }],
                  nextID := 2 },
          activeMonitors := ["L1"],
          zoneQueries := ["Z1"] } ∧
      (monitorLoop exEnv lesson0900 [.tick (clock monday 8 54)] exMonitorState).state =
        exMonitorState := by
  decide

/-! ## The monitor: polls, sessions and eligibility -/

/-- What one `processDevice` call does: it leaves the state as it is, or it
appends one active `auto` record of this lesson for a user not yet recorded and
appends that user to the recorded-set; registry and query trace never change. -/
theorem processDevice_spec (env : MonitorEnv) (lesson : Lesson) (now : Int)
    (st : MonitorState) (deviceID : String) :
    processDevice env lesson now st deviceID = st ∨
      ∃ device, env.deviceServiceGetByDeviceID now deviceID = .ok device ∧
        device.UserID ∉ st.recordedUsers ∧ device.IsAuthenticatedToday now = true ∧
        env.stayCreateFails (autoStay lesson now device.UserID) = false ∧
        processDevice env lesson now st deviceID =
          { st with
            db := { rows := st.db.rows ++
                      [{ autoStay lesson now device.UserID with ID := st.db.nextID }],
                    nextID := st.db.nextID + 1 },
            recordedUsers := st.recordedUsers ++ [device.UserID] } := by
  unfold processDevice
  cases hdev : env.deviceServiceGetByDeviceID now deviceID with
  | error e => exact Or.inl rfl
  | ok device =>
    simp only
    by_cases hrec : st.recordedUsers.contains device.UserID = true
    · rw [if_pos hrec]; exact Or.inl rfl
    · rw [if_neg hrec]
      by_cases hauth : (!device.IsAuthenticatedToday now) = true
      · rw [if_pos hauth]; exact Or.inl rfl
      · rw [if_neg hauth]
        unfold StayService.CreateWithLesson StayRepository.Create
        split_ifs with hfail
        · exact Or.inl rfl
        · refine Or.inr ⟨device, rfl, ?_, ?_, ?_, rfl⟩
          · simpa using hrec
          · simpa using hauth
          · simpa using hfail

/-- The effect of a sequence of `processDevice` calls: records are only
appended, each an active `auto` record of this lesson, and the users of the
appended records are appended, in the same order, to the recorded-set, which
stays free of repetitions. -/
theorem processDevices_spec (env : MonitorEnv) (lesson : Lesson)
    (calls : List (Int × String)) :
    ∀ st : MonitorState, ∃ added : List Stay,
      (processDevices env lesson calls st).db.rows = st.db.rows ++ added ∧
      (processDevices env lesson calls st).recordedUsers =
        st.recordedUsers ++ added.map (fun r => r.UserID) ∧
      (st.recordedUsers.Nodup →
        (st.recordedUsers ++ added.map (fun r => r.UserID)).Nodup) ∧
      (∀ r ∈ added, r.Source = "auto" ∧ r.LessonID = some lesson.ID ∧ r.IsActive = true ∧
        r.RoomID = lesson.RoomID ∧ r.SubjectID = lesson.SubjectID) ∧
      (processDevices env lesson calls st).activeMonitors = st.activeMonitors ∧
      (processDevices env lesson calls st).zoneQueries = st.zoneQueries := by
  induction calls with
  | nil =>
    intro st
    exact ⟨[], by simp [processDevices], by simp [processDevices], by simp,
      by simp, rfl, rfl⟩
  | cons call rest ih =>
    intro st
    have hstep : processDevices env lesson (call :: rest) st =
        processDevices env lesson rest (processDevice env lesson call.1 st call.2) := rfl
    rw [hstep]
    rcases processDevice_spec env lesson call.1 st call.2 with h | ⟨device, _, hnot, _, _, h⟩
    · rw [h]; exact ih st
    · rw [h]
      obtain ⟨added, h1, h2, h3, h4, h5, h6⟩ := ih
        { st with
          db := { rows := st.db.rows ++
                    [{ autoStay lesson call.1 device.UserID with ID := st.db.nextID }],
                  nextID := st.db.nextID + 1 },
          recordedUsers := st.recordedUsers ++ [device.UserID] }
      refine ⟨{ autoStay lesson call.1 device.UserID with ID := st.db.nextID } :: added,
        ?_, ?_, ?_, ?_, h5, h6⟩
      · rw [h1]; simp
      · rw [h2]; simp [autoStay]
      · intro hnd
        have hnd1 : (st.recordedUsers ++ [device.UserID]).Nodup := by
          rw [List.nodup_append]
          refine ⟨hnd, List.nodup_singleton _, ?_⟩
          intro a ha hb
          rw [List.mem_singleton] at hb
          subst hb
          exact hnot ha
        have := h3 hnd1
        simpa [autoStay] using this
      · intro r hr
        rw [List.mem_cons] at hr
        rcases hr with rfl | hr
        · exact ⟨rfl, rfl, rfl, rfl, rfl⟩
        · exact h4 r hr

/-- C13. For every sequence of `processDevice` calls of one monitor session
(starting from the empty recorded-set of `NewLessonMonitor`), whatever devices
are detected and whenever: the store only gains records, all of them `auto`
records of this lesson, and for every user at most one of them. -/
theorem C13_one_auto_record_per_user (env : MonitorEnv) (lesson : Lesson)
    (calls : List (Int × String)) (db : StayStore) (activeMonitors zoneQueries : List String)
    (user : String) :
    ∃ added : List Stay,
      (processDevices env lesson calls
          (NewLessonMonitor db activeMonitors zoneQueries)).db.rows = db.rows ++ added ∧
      (∀ r ∈ added, r.Source = "auto" ∧ r.LessonID = some lesson.ID) ∧
      (added.filter (fun r => r.UserID == user)).length ≤ 1 := by
  obtain ⟨added, h1, _, h3, h4, _, _⟩ :=
    processDevices_spec env lesson calls (NewLessonMonitor db activeMonitors zoneQueries)
  refine ⟨added, h1, fun r hr => ⟨(h4 r hr).1, (h4 r hr).2.1⟩, ?_⟩
  have hnd : (added.map (fun r => r.UserID)).Nodup := by
    have := h3 (by simp [NewLessonMonitor])
    simpa [NewLessonMonitor] using this
  have hc : (added.map (fun r => r.UserID)).count user ≤ 1 :=
    List.nodup_iff_count_le_one.mp hnd user
  rw [List.count, List.countP_map, List.countP_eq_length_filter] at hc
  have heq : added.filter ((fun x => x == user) ∘ fun r => r.UserID) =
      added.filter (fun r => r.UserID == user) := rfl
  rw [heq] at hc
  exact hc

/-- The closing routine issues no presence query and leaves the recorded-set and
the registry alone. -/
theorem finishLesson_frame (env : MonitorEnv) (lesson : Lesson) (now : Int)
    (st : MonitorState) :
    (finishLesson env lesson now st).zoneQueries = st.zoneQueries ∧
      (finishLesson env lesson now st).recordedUsers = st.recordedUsers ∧
      (finishLesson env lesson now st).activeMonitors = st.activeMonitors :=
  ⟨rfl, rfl, rfl⟩

/-- A zone check closes nothing: the rows of the store stay as they are, in
place, and records are at most appended. -/
theorem checkZone_rows (env : MonitorEnv) (lesson : Lesson) (now : Int) (st : MonitorState) :
    ∃ added : List Stay, (checkZone env lesson now st).db.rows = st.db.rows ++ added := by
  unfold checkZone
  cases env.roomServiceGetByID now lesson.RoomID with
  | error e => exact ⟨[], by simp⟩
  | ok room =>
    simp only
    split_ifs
    · exact ⟨[], by simp⟩
    · cases env.mistClientGetZoneClients now env.mistClientSiteID room.MistZoneID with
      | error e => exact ⟨[], by simp⟩
      | ok clients =>
        obtain ⟨sdkClients, wirelessClients⟩ := clients
        simp only
        obtain ⟨added, h, _⟩ := processDevices_spec env lesson
          ((sdkClients ++ wirelessClients).map (fun d => (now, d)))
          { st with zoneQueries := st.zoneQueries ++ [room.MistZoneID] }
        refine ⟨added, ?_⟩
        have hfold : ∀ (l : List String) (s : MonitorState),
            l.foldl (processDevice env lesson now) s =
              processDevices env lesson (l.map (fun d => (now, d))) s := by
          intro l
          induction l with
          | nil => intro s; rfl
          | cons d rest ih => intro s; simp only [List.foldl_cons, List.map_cons]; rw [ih]; rfl
        rw [hfold]
        exact h

/-- C11 (counterexample). A tick at exactly `monitorEnd` = 10:40 for the lesson
09:00-10:30, with `U1` recorded and the record open: the monitor polls the zone
(one query of `Z1`), does not return and the record stays open, whereas the
closing routine would have closed it. -/
theorem C11_tick_at_monitor_end_polls :
    clock monday 10 40 = lesson0900.EndTime + 10 * Minute ∧
      monitorLoop exEnv lesson0900 [.tick (clock monday 10 40)] exRecordedState =
        { state := { exRecordedState with zoneQueries := ["Z1"] }, returned := false } ∧
      (finishLesson exEnv lesson0900 (clock monday 10 40) exRecordedState).db.rows =
        [{ autoRow (clock monday 8 56) with
           IsActive := false, LeavedAt := some (clock monday 10 40) }] := by
  decide

/-- C11 (amended). On every tick with `now > lesson.EndTime + 10min` the monitor
runs `finishLesson` and returns, without a presence query; on every tick with
`monitorStart ≤ now ≤ monitorEnd`, the instant `monitorEnd` included, it runs
`checkZone`, which leaves the existing records as they are, and goes on to the
next event. -/
theorem C11_tick_closes_or_polls (env : MonitorEnv) (lesson : Lesson) (now : Int)
    (rest : List MonitorEvent) (st : MonitorState) :
    (lesson.EndTime + 10 * Minute < now →
        monitorLoop env lesson (.tick now :: rest) st =
          { state := finishLesson env lesson now st, returned := true } ∧
        (finishLesson env lesson now st).zoneQueries = st.zoneQueries) ∧
      (lesson.StartTime - 5 * Minute ≤ now → now ≤ lesson.EndTime + 10 * Minute →
        monitorLoop env lesson (.tick now :: rest) st =
          monitorLoop env lesson rest (checkZone env lesson now st) ∧
        ∃ added : List Stay, (checkZone env lesson now st).db.rows = st.db.rows ++ added) := by
  constructor
  · intro h
    have ha : Time.After now (Time.Add lesson.EndTime (10 * Minute)) = true := by
      unfold Time.After Time.Add
      simp only [decide_eq_true_eq]
      exact h
    refine ⟨?_, rfl⟩
    simp only [monitorLoop, ha, if_true]
  · intro h1 h2
    have ha : Time.After now (Time.Add lesson.EndTime (10 * Minute)) = false := by
      unfold Time.After Time.Add
      simp only [decide_eq_false_iff_not, not_lt]
      exact h2
    have hb : Time.Before now (Time.Add lesson.StartTime (-5 * Minute)) = false := by
      unfold Time.Before Time.Add
      simp only [decide_eq_false_iff_not, not_lt]
      omega
    refine ⟨?_, checkZone_rows env lesson now st⟩
    simp only [monitorLoop, ha, hb, Bool.false_eq_true, if_false]

/-- C12 (the code at the failing input). A monitor for the lesson 09:00-10:30
started at 09:00 records `U1`; when the stop signal arrives, `Start` returns
and removes the monitor from the registry, but the record of `U1` is still
open (`IsActive = true`, no `LeavedAt`): `finishLesson`, which would have
closed it, is not run on this path. -/
theorem C12_stop_leaves_records_open :
    Start exEnv lesson0900 (clock monday 9 0) [.stop] exMonitorState =
        { state := { recordedUsers := ["U1"],
                     db := { rows := [autoRow (clock monday 9 0)], nextID := 2 },
                     activeMonitors := [], zoneQueries := ["Z1"] },
          returned := true } ∧
      (autoRow (clock monday 9 0)).IsActive = true ∧
      (autoRow (clock monday 9 0)).LeavedAt = none ∧
      (finishLesson exEnv lesson0900 (clock monday 9 1)
          (checkZone exEnv lesson0900 (clock monday 9 0) exMonitorState)).db.rows =
        [{ autoRow (clock monday 9 0) with
           IsActive := false, LeavedAt := some (clock monday 9 1) }] := by
  decide

/-- The stop signal ends the loop at once, with the state as it is. -/
theorem monitorLoop_stop (env : MonitorEnv) (lesson : Lesson) (rest : List MonitorEvent)
    (st : MonitorState) :
    monitorLoop env lesson (.stop :: rest) st = { state := st, returned := true } := by
  simp only [monitorLoop]

/-- The days compared by `IsAuthenticatedToday` are the days in UTC. -/
theorem Time.Truncate_day_le_iff (a n : Int) :
    (Time.Truncate a (24 * Hour) = Time.Truncate n (24 * Hour) ∨
        Time.Truncate n (24 * Hour) < Time.Truncate a (24 * Hour)) ↔
      Time.Day 0 n ≤ Time.Day 0 a := by
  unfold Time.Truncate Time.Day Hour Second
  rw [if_neg (by decide), if_neg (by decide)]
  omega

/-- The value of `IsAuthenticatedToday`. -/
theorem IsAuthenticatedToday_iff (d : Device) (now : Int) :
    d.IsAuthenticatedToday now = true ↔
      d.IsActive = true ∧ Time.Day 0 now ≤ Time.Day 0 d.LastAuthenticated := by
  unfold Device.IsAuthenticatedToday
  cases hact : d.IsActive with
  | false => simp
  | true =>
    simp only [Bool.not_true, Bool.false_eq_true, if_false, Bool.or_eq_true, decide_eq_true_eq,
      true_and]
    unfold Time.After
    simp only [decide_eq_true_eq]
    exact Time.Truncate_day_le_iff d.LastAuthenticated now

/-- C14 (counterexample). Three active devices. One was last authenticated at
08:00 of the next day: at 08:54 `IsAuthenticatedToday` returns true, although
the authentication does not fall on the current calendar day, in UTC or nine
hours east of it. On a clock nine hours east of UTC, one was authenticated at
08:00 of the Monday and is refused at 09:30 of the same Monday, and one was
authenticated at 10:00 of the Sunday and is accepted at 08:30 of the
Monday. -/
theorem C14_not_the_current_calendar_day :
    (exFutureDevice.IsAuthenticatedToday (clock monday 8 54) = true ∧
        exFutureDevice.IsActive = true ∧
        Time.Day 0 exFutureDevice.LastAuthenticated ≠ Time.Day 0 (clock monday 8 54) ∧
        Time.Day 32400 exFutureDevice.LastAuthenticated ≠ Time.Day 32400 (clock monday 8 54)) ∧
      (exEarlyDevice.IsAuthenticatedToday (clock monday 0 30) = false ∧
        exEarlyDevice.IsActive = true ∧
        Time.Day 32400 exEarlyDevice.LastAuthenticated = Time.Day 32400 (clock monday 0 30)) ∧
      (exSundayDevice.IsAuthenticatedToday (clock (monday - 1) 23 30) = true ∧
        Time.Day 32400 exSundayDevice.LastAuthenticated <
          Time.Day 32400 (clock (monday - 1) 23 30)) := by
  decide

/-- C14 (amended). `IsAuthenticatedToday` returns false whenever `IsActive` is
false, and `processDevice` then changes nothing. For a location `zone` seconds
east of UTC and two instants whose calendar days in that location differ from
their UTC days by the same number of days (always so when the location is
UTC): `IsAuthenticatedToday` returns true if and only if `IsActive` is true and
`LastAuthenticated` falls on the current calendar day or on a later one, and
`processDevice` changes nothing, so creates no record, for a detected device
that was last authenticated on a previous calendar day. -/
theorem C14_eligibility (zone : Int) (d : Device) (now : Int) (env : MonitorEnv)
    (lesson : Lesson) (st : MonitorState) (deviceID : String) :
    (d.IsActive = false → d.IsAuthenticatedToday now = false) ∧
      (env.deviceServiceGetByDeviceID now deviceID = .ok d → d.IsActive = false →
        processDevice env lesson now st deviceID = st) ∧
      (Time.Day zone now - Time.Day 0 now =
          Time.Day zone d.LastAuthenticated - Time.Day 0 d.LastAuthenticated →
        (d.IsAuthenticatedToday now = true ↔
          d.IsActive = true ∧ Time.Day zone now ≤ Time.Day zone d.LastAuthenticated) ∧
        (env.deviceServiceGetByDeviceID now deviceID = .ok d →
          Time.Day zone d.LastAuthenticated < Time.Day zone now →
          processDevice env lesson now st deviceID = st)) := by
  have hskip : env.deviceServiceGetByDeviceID now deviceID = .ok d →
      d.IsAuthenticatedToday now = false → processDevice env lesson now st deviceID = st := by
    intro hdev hno
    rcases processDevice_spec env lesson now st deviceID with h | ⟨device, hd, _, hauth, _, _⟩
    · exact h
    · rw [hdev] at hd
      have hdd : d = device := Except.ok.inj hd
      subst hdd
      rw [hno] at hauth
      exact absurd hauth (by decide)
  have hinactive : d.IsActive = false → d.IsAuthenticatedToday now = false := by
    intro h
    cases hv : d.IsAuthenticatedToday now with
    | false => rfl
    | true =>
      have := ((IsAuthenticatedToday_iff d now).mp hv).1
      rw [h] at this
      exact absurd this (by decide)
  refine ⟨hinactive, fun hdev h => hskip hdev (hinactive h), ?_⟩
  intro hshift
  have hiff : d.IsAuthenticatedToday now = true ↔
      d.IsActive = true ∧ Time.Day zone now ≤ Time.Day zone d.LastAuthenticated := by
    rw [IsAuthenticatedToday_iff]
    constructor
    · rintro ⟨ha, hd⟩
      exact ⟨ha, by omega⟩
    · rintro ⟨ha, hd⟩
      exact ⟨ha, by omega⟩
  refine ⟨hiff, ?_⟩
  intro hdev hprev
  apply hskip hdev
  cases hv : d.IsAuthenticatedToday now with
  | false => rfl
  | true =>
    have := (hiff.mp hv).2
    omega

/-- C14 (witness): on a clock nine hours east of UTC, the device authenticated
at 08:00 of the Monday is accepted at 08:50 of the same Monday. -/
theorem C14_eligibility_witness :
    exEarlyDevice.IsAuthenticatedToday (clock (monday - 1) 23 50) = true :=
  ((C14_eligibility 32400 exEarlyDevice (clock (monday - 1) 23 50) exEnv lesson0900
    exMonitorState "AA-BB").2.2 (by decide)).1.mpr ⟨rfl, by decide⟩

/-- C18 (the code at the failing input). `U1` has one open record, a manual
stay begun at 08:30; at 09:00 the monitor of `L1` detects the device of `U1`.
After `processDevice` the user has two open records: the manual stay is
untouched and the new `auto` record is open beside it. -/
theorem C18_second_open_record :
    (activeStaysOf "U1" exManualStore).length = 1 ∧
      (processDevice exEnv lesson0900 (clock monday 9 0)
          (NewLessonMonitor exManualStore ["L1"] []) "AA-BB").db.rows =
        [stayAt (clock monday 8 30), { autoStay lesson0900 (clock monday 9 0) "U1" with ID := 2 }] ∧
      (activeStaysOf "U1"
          (processDevice exEnv lesson0900 (clock monday 9 0)
            (NewLessonMonitor exManualStore ["L1"] []) "AA-BB").db).length = 2 := by
  decide

/-! ## The scheduler registry (`checkAndStartMonitors`) -/

theorem syncMapLoad_eq_none_iff (key : String) (entries : List (String × MonitorRef)) :
    syncMapLoad key entries = none ↔ key ∉ entries.map Prod.fst := by
  unfold syncMapLoad
  rw [Option.map_eq_none', List.find?_eq_none]
  simp only [beq_iff_eq, List.mem_map, Prod.exists, exists_and_right, exists_eq_right,
    not_exists, Prod.forall]
  constructor
  · intro h m hm
    exact h key m hm rfl
  · intro h k m hm hk
    subst hk
    exact h m hm

theorem syncMapDelete_of_not_mem (key : String) (entries : List (String × MonitorRef))
    (h : key ∉ entries.map Prod.fst) : syncMapDelete key entries = entries := by
  unfold syncMapDelete
  rw [List.filter_eq_self]
  intro e he
  simp only [bne_iff_ne, ne_eq]
  intro hk
  exact h (List.mem_map.mpr ⟨e, he, hk⟩)

/-- The `Range` pass over the entries `visited`: the monitors of the visited
entries that are not live are stopped, in order, and the entries under their
keys are deleted; nothing is created or started. -/
theorem stopFold_spec (ids : List String) :
    ∀ (visited : List (String × MonitorRef)) (s : SchedulerState),
      (visited.foldl (stopIfNotLive ids) s).stopCalls =
          s.stopCalls ++ (visited.filter (fun e => !ids.contains e.1)).map Prod.snd ∧
        (visited.foldl (stopIfNotLive ids) s).activeMonitors =
          s.activeMonitors.filter
            (fun x => ids.contains x.1 || !(visited.map Prod.fst).contains x.1) ∧
        (visited.foldl (stopIfNotLive ids) s).created = s.created ∧
        (visited.foldl (stopIfNotLive ids) s).startCalls = s.startCalls := by
  intro visited
  induction visited with
  | nil =>
    intro s
    refine ⟨by simp, ?_, rfl, rfl⟩
    simp
  | cons e rest ih =>
    intro s
    simp only [List.foldl_cons]
    obtain ⟨h1, h2, h3, h4⟩ := ih (stopIfNotLive ids s e)
    rw [h1, h2, h3, h4]
    by_cases hmem : e.1 ∈ ids
    · have hs : stopIfNotLive ids s e = s := by
        unfold stopIfNotLive
        simp [hmem]
      rw [hs]
      refine ⟨?_, ?_, rfl, rfl⟩
      · simp [List.filter_cons, hmem]
      · apply List.filter_congr
        intro x _
        by_cases hx : x.1 = e.1
        · have : x.1 ∈ ids := by rw [hx]; exact hmem
          simp [this]
        · have hb : (x.1 == e.1) = false := by simpa using hx
          simp [hb]
    · have hs : stopIfNotLive ids s e =
          { s with stopCalls := s.stopCalls ++ [e.2],
                   activeMonitors := syncMapDelete e.1 s.activeMonitors } := by
        unfold stopIfNotLive
        simp [hmem]
      rw [hs]
      refine ⟨?_, ?_, rfl, rfl⟩
      · simp [List.filter_cons, hmem]
      · simp only [syncMapDelete, List.filter_filter]
        apply List.filter_congr
        intro x _
        by_cases hx : x.1 = e.1
        · have : x.1 ∉ ids := by rw [hx]; exact hmem
          have hb : (x.1 == e.1) = true := by simpa using hx
          have hb2 : (x.1 != e.1) = false := by simp [bne, hb]
          simp [this, hb, hb2]
        · have hb : (x.1 == e.1) = false := by simpa using hx
          have hb2 : (x.1 != e.1) = true := by simp [bne, hb]
          simp [hb, hb2]

/-- The creation loop over `lessons`: entries are only appended, one new
started monitor for each lesson id that has no entry yet, never two for one id. -/
theorem startFold_spec :
    ∀ (lessons : List Lesson) (s : SchedulerState),
      ∃ created : List MonitorRef,
        (lessons.foldl startIfNew s).activeMonitors =
            s.activeMonitors ++ created.map (fun m => (m.lesson.ID, m)) ∧
          (lessons.foldl startIfNew s).startCalls = s.startCalls ++ created ∧
          (lessons.foldl startIfNew s).stopCalls = s.stopCalls ∧
          (lessons.foldl startIfNew s).created = s.created + created.length ∧
          (∀ m ∈ created, s.created ≤ m.serial ∧ m.lesson ∈ lessons ∧
            m.lesson.ID ∉ s.activeMonitors.map Prod.fst) ∧
          (created.map (fun m => m.lesson.ID)).Nodup ∧
          (∀ l ∈ lessons, l.ID ∈ (lessons.foldl startIfNew s).activeMonitors.map Prod.fst) := by
  intro lessons
  induction lessons with
  | nil =>
    intro s
    exact ⟨[], by simp, by simp, rfl, by simp, by simp, by simp, by simp⟩
  | cons l rest ih =>
    intro s
    simp only [List.foldl_cons]
    cases hload : syncMapLoad l.ID s.activeMonitors with
    | some m0 =>
      have hs : startIfNew s l = s := by
        unfold startIfNew
        rw [hload]
      rw [hs]
      obtain ⟨created, h1, h2, h3, h4, h5, h6, h7⟩ := ih s
      refine ⟨created, h1, h2, h3, h4, ?_, h6, ?_⟩
      · intro m hm
        exact ⟨(h5 m hm).1, List.mem_cons_of_mem _ (h5 m hm).2.1, (h5 m hm).2.2⟩
      · intro l' hl'
        rw [List.mem_cons] at hl'
        rcases hl' with rfl | hl'
        · have hin : l'.ID ∈ s.activeMonitors.map Prod.fst := by
            by_contra hc
            rw [(syncMapLoad_eq_none_iff _ _).mpr hc] at hload
            exact absurd hload (by simp)
          rw [h1, List.map_append]
          exact List.mem_append_left _ hin
        · exact h7 l' hl'
    | none =>
      have hnot : l.ID ∉ s.activeMonitors.map Prod.fst := (syncMapLoad_eq_none_iff _ _).mp hload
      have hs : startIfNew s l =
          { s with created := s.created + 1,
                   activeMonitors := s.activeMonitors ++ [(l.ID, { serial := s.created, lesson := l })],
                   startCalls := s.startCalls ++ [{ serial := s.created, lesson := l }] } := by
        unfold startIfNew
        rw [hload]
        simp only [syncMapStore, syncMapDelete_of_not_mem _ _ hnot]
      rw [hs]
      obtain ⟨created, h1, h2, h3, h4, h5, h6, h7⟩ := ih
        { s with created := s.created + 1,
                 activeMonitors := s.activeMonitors ++ [(l.ID, { serial := s.created, lesson := l })],
                 startCalls := s.startCalls ++ [{ serial := s.created, lesson := l }] }
      refine ⟨{ serial := s.created, lesson := l } :: created, ?_, ?_, h3, ?_, ?_, ?_, ?_⟩
      · rw [h1]; simp
      · rw [h2]; simp
      · rw [h4]; simp only [List.length_cons]; omega
      · intro m hm
        rw [List.mem_cons] at hm
        rcases hm with rfl | hm
        · exact ⟨le_rfl, List.mem_cons_self _ _, hnot⟩
        · obtain ⟨a, b, c⟩ := h5 m hm
          refine ⟨by simp only at a; omega, List.mem_cons_of_mem _ b, ?_⟩
          intro hc
          apply c
          simp only [List.map_append, List.mem_append]
          exact Or.inl hc
      · simp only [List.map_cons, List.nodup_cons]
        refine ⟨?_, h6⟩
        intro hc
        obtain ⟨m, hm, hmid⟩ := List.mem_map.mp hc
        apply (h5 m hm).2.2
        simp only [List.map_append, List.mem_append, List.map_cons, List.map_nil,
          List.mem_singleton]
        exact Or.inr hmid
      · intro l' hl'
        rw [List.mem_cons] at hl'
        rcases hl' with rfl | hl'
        · rw [h1]
          simp
        · exact h7 l' hl'

/-- One tick with a successful timetable query, in terms of the two passes:
the entries kept are those with a live key, in place; the monitors stopped are
those of the other entries; the entries appended are new started monitors, one
for each live id without an entry. -/
theorem checkAndStartMonitors_spec (getMonitoringLessons : Int → Except Error (List Lesson))
    (now : Int) (s : SchedulerState) (lessons : List Lesson)
    (hq : getMonitoringLessons now = .ok lessons) :
    ∃ created : List MonitorRef,
      (checkAndStartMonitors getMonitoringLessons now s).activeMonitors =
          s.activeMonitors.filter (fun e => (lessons.map (fun l => l.ID)).contains e.1) ++
            created.map (fun m => (m.lesson.ID, m)) ∧
        (checkAndStartMonitors getMonitoringLessons now s).stopCalls =
          s.stopCalls ++ (s.activeMonitors.filter
            (fun e => !(lessons.map (fun l => l.ID)).contains e.1)).map Prod.snd ∧
        (checkAndStartMonitors getMonitoringLessons now s).startCalls =
          s.startCalls ++ created ∧
        (checkAndStartMonitors getMonitoringLessons now s).created =
          s.created + created.length ∧
        (∀ m ∈ created, s.created ≤ m.serial ∧ m.lesson ∈ lessons ∧
          m.lesson.ID ∉ s.activeMonitors.map Prod.fst) ∧
        (created.map (fun m => m.lesson.ID)).Nodup ∧
        (∀ l ∈ lessons, l.ID ∈
          (checkAndStartMonitors getMonitoringLessons now s).activeMonitors.map Prod.fst) := by
  unfold checkAndStartMonitors
  rw [hq]
  simp only
  obtain ⟨a1, a2, a3, a4⟩ := stopFold_spec (lessons.map (fun l => l.ID)) s.activeMonitors s
  have a2' : (s.activeMonitors.foldl (stopIfNotLive (lessons.map (fun l => l.ID))) s).activeMonitors
      = s.activeMonitors.filter (fun e => (lessons.map (fun l => l.ID)).contains e.1) := by
    rw [a2]
    apply List.filter_congr
    intro x hx
    have : x.1 ∈ s.activeMonitors.map Prod.fst := List.mem_map.mpr ⟨x, hx, rfl⟩
    simp [this]
  obtain ⟨created, b1, b2, b3, b4, b5, b6, b7⟩ := startFold_spec lessons
    (s.activeMonitors.foldl (stopIfNotLive (lessons.map (fun l => l.ID))) s)
  refine ⟨created, ?_, ?_, ?_, ?_, ?_, b6, b7⟩
  · rw [b1, a2']
  · rw [b3, a1]
  · rw [b2, a4]
  · rw [b4, a3]
  · intro m hm
    obtain ⟨c1, c2, c3⟩ := b5 m hm
    refine ⟨by rw [a3] at c1; exact c1, c2, ?_⟩
    intro hin
    apply c3
    rw [a2']
    obtain ⟨e, he, hek⟩ := List.mem_map.mp hin
    refine List.mem_map.mpr ⟨e, ?_, hek⟩
    rw [List.mem_filter]
    refine ⟨he, ?_⟩
    have : m.lesson.ID ∈ lessons.map (fun l => l.ID) := List.mem_map.mpr ⟨m.lesson, c2, rfl⟩
    simpa [hek] using this

/-- C15. For every registry and every list of live lessons that the timetable
query returns, after `checkAndStartMonitors` the lesson ids registered are
exactly the ids of the live lessons: the monitors stopped are those registered
under an id that is not live, and their entries are gone; the entries under a
live id are kept as they are; every live id that had no entry has a new
monitor, registered and started. -/
theorem C15_registry_equals_live (getMonitoringLessons : Int → Except Error (List Lesson))
    (now : Int) (s : SchedulerState) (lessons : List Lesson)
    (hq : getMonitoringLessons now = .ok lessons) :
    (∀ id, id ∈ (checkAndStartMonitors getMonitoringLessons now s).activeMonitors.map Prod.fst ↔
        id ∈ lessons.map (fun l => l.ID)) ∧
      (checkAndStartMonitors getMonitoringLessons now s).stopCalls =
        s.stopCalls ++ (s.activeMonitors.filter
          (fun e => !(lessons.map (fun l => l.ID)).contains e.1)).map Prod.snd ∧
      (∀ e ∈ s.activeMonitors, e.1 ∉ lessons.map (fun l => l.ID) →
        e.1 ∉ (checkAndStartMonitors getMonitoringLessons now s).activeMonitors.map Prod.fst) ∧
      (∀ e ∈ s.activeMonitors, e.1 ∈ lessons.map (fun l => l.ID) →
        e ∈ (checkAndStartMonitors getMonitoringLessons now s).activeMonitors) ∧
      (∃ created : List MonitorRef,
        (checkAndStartMonitors getMonitoringLessons now s).startCalls =
          s.startCalls ++ created ∧
        (∀ m ∈ created, s.created ≤ m.serial ∧
          m.lesson.ID ∉ s.activeMonitors.map Prod.fst ∧
          (m.lesson.ID, m) ∈ (checkAndStartMonitors getMonitoringLessons now s).activeMonitors) ∧
        (∀ l ∈ lessons, l.ID ∉ s.activeMonitors.map Prod.fst →
          ∃ m ∈ created, m.lesson.ID = l.ID)) := by
  obtain ⟨created, h1, h2, h3, _, h5, _, h7⟩ :=
    checkAndStartMonitors_spec getMonitoringLessons now s lessons hq
  have hkeys : ∀ id,
      id ∈ (checkAndStartMonitors getMonitoringLessons now s).activeMonitors.map Prod.fst ↔
        id ∈ lessons.map (fun l => l.ID) := by
    intro id
    constructor
    · intro hid
      rw [h1, List.map_append, List.mem_append] at hid
      rcases hid with hid | hid
      · obtain ⟨e, he, hek⟩ := List.mem_map.mp hid
        rw [List.mem_filter] at he
        have := he.2
        rw [← hek]
        simpa using this
      · rw [List.map_map] at hid
        obtain ⟨m, hm, hmk⟩ := List.mem_map.mp hid
        rw [← hmk]
        exact List.mem_map.mpr ⟨m.lesson, (h5 m hm).2.1, rfl⟩
    · intro hid
      obtain ⟨l, hl, hlk⟩ := List.mem_map.mp hid
      rw [← hlk]
      exact h7 l hl
  refine ⟨hkeys, h2, ?_, ?_, created, h3, ?_, ?_⟩
  · intro e _ hnot hin
    exact hnot ((hkeys e.1).mp hin)
  · intro e he hlive
    rw [h1, List.mem_append]
    left
    rw [List.mem_filter]
    exact ⟨he, by simpa using hlive⟩
  · intro m hm
    refine ⟨(h5 m hm).1, (h5 m hm).2.2, ?_⟩
    rw [h1, List.mem_append]
    right
    exact List.mem_map.mpr ⟨m, hm, rfl⟩
  · intro l hl hnot
    have hin := h7 l hl
    rw [h1, List.map_append, List.mem_append] at hin
    rcases hin with hin | hin
    · exfalso
      obtain ⟨e, he, hek⟩ := List.mem_map.mp hin
      rw [List.mem_filter] at he
      exact hnot (List.mem_map.mpr ⟨e, he.1, hek⟩)
    · rw [List.map_map] at hin
      obtain ⟨m, hm, hmk⟩ := List.mem_map.mp hin
      exact ⟨m, hm, hmk⟩

/-- C15 (witness): the registry holds a monitor for `L1`; the live lessons are
`L2` only. Afterwards `L1` is not registered and `L2` is, and the monitor
stopped is that of `L1`. -/
theorem C15_registry_equals_live_witness :
    ("L1" ∈ (checkAndStartMonitors (fun _ => .ok [lessonAt "L2" "R2" 11 0 12 0])
          (clock monday 10 56) exSchedulerState).activeMonitors.map Prod.fst ↔
        "L1" ∈ [lessonAt "L2" "R2" 11 0 12 0].map (fun l => l.ID)) ∧
      ("L2" ∈ (checkAndStartMonitors (fun _ => .ok [lessonAt "L2" "R2" 11 0 12 0])
          (clock monday 10 56) exSchedulerState).activeMonitors.map Prod.fst ↔
        "L2" ∈ [lessonAt "L2" "R2" 11 0 12 0].map (fun l => l.ID)) ∧
      (checkAndStartMonitors (fun _ => .ok [lessonAt "L2" "R2" 11 0 12 0])
          (clock monday 10 56) exSchedulerState).stopCalls =
        exSchedulerState.stopCalls ++ (exSchedulerState.activeMonitors.filter
          (fun e => !([lessonAt "L2" "R2" 11 0 12 0].map (fun l => l.ID)).contains e.1)).map
            Prod.snd :=
  ⟨(C15_registry_equals_live (fun _ => .ok [lessonAt "L2" "R2" 11 0 12 0])
      (clock monday 10 56) exSchedulerState [lessonAt "L2" "R2" 11 0 12 0] rfl).1 "L1",
    (C15_registry_equals_live (fun _ => .ok [lessonAt "L2" "R2" 11 0 12 0])
      (clock monday 10 56) exSchedulerState [lessonAt "L2" "R2" 11 0 12 0] rfl).1 "L2",
    (C15_registry_equals_live (fun _ => .ok [lessonAt "L2" "R2" 11 0 12 0])
      (clock monday 10 56) exSchedulerState [lessonAt "L2" "R2" 11 0 12 0] rfl).2.1⟩

/-- One tick keeps the keys of the registry free of repetitions. -/
theorem checkAndStartMonitors_nodup (getMonitoringLessons : Int → Except Error (List Lesson))
    (now : Int) (s : SchedulerState) (hs : (s.activeMonitors.map Prod.fst).Nodup) :
    ((checkAndStartMonitors getMonitoringLessons now s).activeMonitors.map Prod.fst).Nodup := by
  cases hq : getMonitoringLessons now with
  | error e =>
    have : checkAndStartMonitors getMonitoringLessons now s = s := by
      unfold checkAndStartMonitors
      rw [hq]
    rw [this]
    exact hs
  | ok lessons =>
    obtain ⟨created, h1, _, _, _, h5, h6, _⟩ :=
      checkAndStartMonitors_spec getMonitoringLessons now s lessons hq
    rw [h1, List.map_append, List.map_map, List.nodup_append]
    refine ⟨?_, h6, ?_⟩
    · exact hs.sublist ((List.filter_sublist _).map Prod.fst)
    · intro k hk1 hk2
      obtain ⟨e, he, hek⟩ := List.mem_map.mp hk1
      obtain ⟨m, hm, hmk⟩ := List.mem_map.mp hk2
      apply (h5 m hm).2.2
      simp only [Function.comp] at hmk
      rw [hmk, ← hek]
      exact List.mem_map.mpr ⟨e, (List.mem_filter.mp he).1, rfl⟩

/-- Every sequence of ticks and removals keeps the keys free of repetitions. -/
theorem runScheduler_nodup (getMonitoringLessons : Int → Except Error (List Lesson))
    (events : List SchedulerEvent) :
    ∀ s : SchedulerState, (s.activeMonitors.map Prod.fst).Nodup →
      ((runScheduler getMonitoringLessons events s).activeMonitors.map Prod.fst).Nodup := by
  induction events with
  | nil => intro s hs; exact hs
  | cons ev rest ih =>
    intro s hs
    cases ev with
    | tick now =>
      simp only [runScheduler]
      exact ih _ (checkAndStartMonitors_nodup getMonitoringLessons now s hs)
    | removed lessonID =>
      simp only [runScheduler]
      apply ih
      unfold removeMonitor syncMapDelete
      exact hs.sublist ((List.filter_sublist _).map Prod.fst)

/-- C16. In every tick of `checkAndStartMonitors` the monitors created have
pairwise different lesson ids, also when the list of live lessons repeats an
id, and none of them has an id that was already registered; hence a tick keeps
the registry free of repeated ids, and after any sequence of ticks and
self-removals, starting from the empty registry, no lesson id is registered
twice. -/
theorem C16_one_monitor_per_lesson (getMonitoringLessons : Int → Except Error (List Lesson))
    (now : Int) (s : SchedulerState) (events : List SchedulerEvent) :
    (∃ created : List MonitorRef,
        (checkAndStartMonitors getMonitoringLessons now s).startCalls =
          s.startCalls ++ created ∧
        (checkAndStartMonitors getMonitoringLessons now s).created =
          s.created + created.length ∧
        (created.map (fun m => m.lesson.ID)).Nodup ∧
        ∀ m ∈ created, m.lesson.ID ∉ s.activeMonitors.map Prod.fst) ∧
      ((s.activeMonitors.map Prod.fst).Nodup →
        ((checkAndStartMonitors getMonitoringLessons now s).activeMonitors.map Prod.fst).Nodup) ∧
      ((runScheduler getMonitoringLessons events NewLessonScheduler).activeMonitors.map
        Prod.fst).Nodup := by
  refine ⟨?_, checkAndStartMonitors_nodup getMonitoringLessons now s,
    runScheduler_nodup getMonitoringLessons events NewLessonScheduler (by simp [NewLessonScheduler])⟩
  cases hq : getMonitoringLessons now with
  | error e =>
    have : checkAndStartMonitors getMonitoringLessons now s = s := by
      unfold checkAndStartMonitors
      rw [hq]
    rw [this]
    exact ⟨[], by simp, by simp, by simp, by simp⟩
  | ok lessons =>
    obtain ⟨created, _, _, h3, h4, h5, h6, _⟩ :=
      checkAndStartMonitors_spec getMonitoringLessons now s lessons hq
    exact ⟨created, h3, h4, h6, fun m hm => (h5 m hm).2.2⟩

/-- C17. If `GetMonitoringLessons` fails, `checkAndStartMonitors` leaves the
registry and the traces of `Stop` and `Start` calls as they are: nothing is
stopped, removed, created or started in that tick. -/
theorem C17_failed_query_changes_nothing
    (getMonitoringLessons : Int → Except Error (List Lesson)) (now : Int)
    (s : SchedulerState) (e : Error) (hq : getMonitoringLessons now = .error e) :
    checkAndStartMonitors getMonitoringLessons now s = s := by
  unfold checkAndStartMonitors
  rw [hq]

/-- C17 (witness): a failing timetable query over a registry that holds `L1`. -/
theorem C17_failed_query_changes_nothing_witness :
    checkAndStartMonitors exFailingTimetable (clock monday 9 0) exSchedulerState =
      exSchedulerState :=
  C17_failed_query_changes_nothing exFailingTimetable (clock monday 9 0) exSchedulerState
    "connection refused" rfl

/-! ## `CreateManualStay` and `runDailyBatch` -/

theorem firstRow_eq_none (p : Stay → Bool) (rows : List Stay) (h : firstRow p rows = none) :
    ∀ r ∈ rows, p r = false := by
  unfold firstRow at h
  rw [List.argmin_eq_none] at h
  intro r hr
  by_contra hp
  have : r ∈ rows.filter p := List.mem_filter.mpr ⟨hr, by simpa using hp⟩
  rw [h] at this
  exact absurd this (List.not_mem_nil r)

theorem firstRow_eq_some (p : Stay → Bool) (rows : List Stay) (s : Stay)
    (h : firstRow p rows = some s) : s ∈ rows ∧ p s = true := by
  unfold firstRow at h
  have := List.argmin_mem h
  exact List.mem_filter.mp this

/-- What `closePreviousStay` does when neither the lookup nor the update fails:
without an open record of the user the store is unchanged; otherwise every row
that has the key of the record found is overwritten by the closed record. -/
theorem closePreviousStay_ok (env : ManualStayEnv) (leftAt : Int) (userID : String)
    (db : StayStore) (hquery : env.stayQueryFails userID = false)
    (hupdate : ∀ s, env.stayUpdateFails s = false) :
    ((∀ r ∈ db.rows, (r.UserID == userID && r.IsActive) = false) ∧
        closePreviousStay env leftAt userID db = db) ∨
      ∃ prev ∈ db.rows, prev.UserID = userID ∧ prev.IsActive = true ∧
        closePreviousStay env leftAt userID db =
          { db with rows := db.rows.map (fun r =>
              if r.ID = prev.ID then
                { prev with IsActive := false, LeavedAt := some leftAt }
              else r) } := by
  unfold closePreviousStay StayService.GetActiveByUserID StayRepository.FindActiveByUserID
  rw [hquery]
  simp only [Bool.false_eq_true, if_false]
  cases hfirst : firstRow (fun s => s.UserID == userID && s.IsActive) db.rows with
  | none =>
    left
    exact ⟨firstRow_eq_none _ _ hfirst, rfl⟩
  | some prev =>
    right
    obtain ⟨hmem, hp⟩ := firstRow_eq_some _ _ _ hfirst
    simp only [Bool.and_eq_true, beq_iff_eq] at hp
    refine ⟨prev, hmem, hp.1, hp.2, ?_⟩
    simp only
    unfold StayService.Update StayRepository.Update
    rw [hupdate]
    simp only [Bool.false_eq_true, if_false]

/-- The previous stay is left as it is when the lookup fails, when it finds
nothing, and when the update of the record found fails. -/
theorem closePreviousStay_unchanged (env : ManualStayEnv) (leftAt : Int) (userID : String)
    (db : StayStore)
    (h : env.stayQueryFails userID = true ∨
      ∀ prev, firstRow (fun s => s.UserID == userID && s.IsActive) db.rows = some prev →
        env.stayUpdateFails { prev with IsActive := false, LeavedAt := some leftAt } = true) :
    closePreviousStay env leftAt userID db = db := by
  unfold closePreviousStay StayService.GetActiveByUserID StayRepository.FindActiveByUserID
  by_cases hq : env.stayQueryFails userID = true
  · rw [if_pos hq]
  · rw [if_neg hq]
    rcases h with h | h
    · exact absurd h hq
    · cases hfirst : firstRow (fun s => s.UserID == userID && s.IsActive) db.rows with
      | none => rfl
      | some prev =>
        have hu := h prev hfirst
        simp only
        unfold StayService.Update StayRepository.Update
        have hu1 : env.stayUpdateFails
            { ({ prev with IsActive := false, LeavedAt := some leftAt } : Stay) with
              SubjectID := ({ prev with IsActive := false, LeavedAt := some leftAt } : Stay).SubjectID,
              Description :=
                ({ prev with IsActive := false, LeavedAt := some leftAt } : Stay).Description } =
            true := hu
        rw [if_pos hu1]

/-- What `closePreviousStay` does when the lookup does not fail and the update
of the record it finds does not fail: without an open record of the user the
store is unchanged; otherwise every row that has the key of the record found is
overwritten by the closed record. -/
theorem closePreviousStay_found (env : ManualStayEnv) (leftAt : Int) (userID : String)
    (db : StayStore) (hquery : env.stayQueryFails userID = false)
    (hupdate : ∀ prev ∈ db.rows, prev.UserID = userID → prev.IsActive = true →
      env.stayUpdateFails { prev with IsActive := false, LeavedAt := some leftAt } = false) :
    ((∀ r ∈ db.rows, (r.UserID == userID && r.IsActive) = false) ∧
        closePreviousStay env leftAt userID db = db) ∨
      ∃ prev ∈ db.rows, prev.UserID = userID ∧ prev.IsActive = true ∧
        closePreviousStay env leftAt userID db =
          { db with rows := db.rows.map (fun r =>
              if r.ID = prev.ID then
                { prev with IsActive := false, LeavedAt := some leftAt }
              else r) } := by
  unfold closePreviousStay StayService.GetActiveByUserID StayRepository.FindActiveByUserID
  rw [hquery]
  simp only [Bool.false_eq_true, if_false]
  cases hfirst : firstRow (fun s => s.UserID == userID && s.IsActive) db.rows with
  | none =>
    left
    exact ⟨firstRow_eq_none _ _ hfirst, rfl⟩
  | some prev =>
    right
    obtain ⟨hmem, hp⟩ := firstRow_eq_some _ _ _ hfirst
    simp only [Bool.and_eq_true, beq_iff_eq] at hp
    refine ⟨prev, hmem, hp.1, hp.2, ?_⟩
    have hu := hupdate prev hmem hp.1 hp.2
    simp only
    unfold StayService.Update StayRepository.Update
    have hu1 : env.stayUpdateFails
        { ({ prev with IsActive := false, LeavedAt := some leftAt } : Stay) with
          SubjectID := ({ prev with IsActive := false, LeavedAt := some leftAt } : Stay).SubjectID,
          Description :=
            ({ prev with IsActive := false, LeavedAt := some leftAt } : Stay).Description } =
        false := hu
    rw [hu1]
    simp only [Bool.false_eq_true, if_false]

/-- C19 (counterexample). `U1` has one open record, a manual stay begun at
08:30, and asks to enter room `R2` at 09:00. When the update of a stay reports
an error, the call answers 200 and creates the new record, but the previous
record is still open in the store, so the user has two open records; the same
happens when the lookup of the open record reports an error. -/
theorem C19_error_leaves_previous_open :
    CreateManualStay exManualEnvUpdateFails (clock monday 9 0) (clock monday 9 0) exRequest
        exManualStore =
      (200, { rows := [stayAt (clock monday 8 30),
                       { manualStay exManualEnvUpdateFails (clock monday 9 0) exRequest with
                         ID := 2 }],
              nextID := 3 }) ∧
      (stayAt (clock monday 8 30)).IsActive = true ∧
      (stayAt (clock monday 8 30)).LeavedAt = none ∧
      (activeStaysOf "U1" (CreateManualStay exManualEnvUpdateFails (clock monday 9 0)
        (clock monday 9 0) exRequest exManualStore).2).length = 2 ∧
      CreateManualStay exManualEnvQueryFails (clock monday 9 0) (clock monday 9 0) exRequest
        exManualStore =
      (200, { rows := [stayAt (clock monday 8 30),
                       { manualStay exManualEnvQueryFails (clock monday 9 0) exRequest with
                         ID := 2 }],
              nextID := 3 }) ∧
      (activeStaysOf "U1" (CreateManualStay exManualEnvQueryFails (clock monday 9 0)
        (clock monday 9 0) exRequest exManualStore).2).length = 2 := by
  decide

/-- C19 (amended). For a valid request whose new record is created, and a store
in which the user has at most one open record. When the lookup of the open
record does not fail and the update of the record it finds does not fail,
`CreateManualStay` answers 200, the user's only open record afterwards is the
new `manual` record, and the record that was open before is in the store with
`IsActive = false` and `LeavedAt` set. When the lookup fails, or the update of
the previous record fails, `CreateManualStay` answers 200 all the same and the
store is the old one with the new open record appended: the previous record
stays in it as it was, open. -/
theorem C19_manual_stay_closes_previous (env : ManualStayEnv) (leftAt now : Int)
    (request : ManualStayRequest) (db : StayStore)
    (hvalid : request.UserID ≠ "" ∧ request.RoomID ≠ "" ∧ request.SubjectID ≠ "")
    (hone : ∀ r1 ∈ db.rows, ∀ r2 ∈ db.rows, r1.UserID = request.UserID → r1.IsActive = true →
      r2.UserID = request.UserID → r2.IsActive = true → r1 = r2)
    (hcreate : env.stayCreateFails (manualStay env now request) = false) :
    (env.stayQueryFails request.UserID = false →
      (∀ prev ∈ db.rows, prev.UserID = request.UserID → prev.IsActive = true →
        env.stayUpdateFails { prev with IsActive := false, LeavedAt := some leftAt } = false) →
      (CreateManualStay env leftAt now request db).1 = 200 ∧
        (manualStay env now request).Source = "manual" ∧
        { manualStay env now request with ID := db.nextID } ∈
          (CreateManualStay env leftAt now request db).2.rows ∧
        (∀ r ∈ (CreateManualStay env leftAt now request db).2.rows,
          r.UserID = request.UserID → r.IsActive = true →
          r = { manualStay env now request with ID := db.nextID }) ∧
        (∀ prev ∈ db.rows, prev.UserID = request.UserID → prev.IsActive = true →
          { prev with IsActive := false, LeavedAt := some leftAt } ∈
            (CreateManualStay env leftAt now request db).2.rows)) ∧
      (∀ prev ∈ db.rows, prev.UserID = request.UserID → prev.IsActive = true →
        (env.stayQueryFails request.UserID = true ∨
          env.stayUpdateFails { prev with IsActive := false, LeavedAt := some leftAt } = true) →
        CreateManualStay env leftAt now request db =
            (200, { rows := db.rows ++ [{ manualStay env now request with ID := db.nextID }],
                    nextID := db.nextID + 1 }) ∧
          prev ∈ (CreateManualStay env leftAt now request db).2.rows ∧
          { manualStay env now request with ID := db.nextID } ∈
            (CreateManualStay env leftAt now request db).2.rows ∧
          (manualStay env now request).IsActive = true) := by
  have hres : CreateManualStay env leftAt now request db =
      (200, { rows := (closePreviousStay env leftAt request.UserID db).rows ++
                [{ manualStay env now request with
                   ID := (closePreviousStay env leftAt request.UserID db).nextID }],
              nextID := (closePreviousStay env leftAt request.UserID db).nextID + 1 }) := by
    unfold CreateManualStay
    rw [if_neg (by
      rintro (h | h | h)
      · exact hvalid.1 h
      · exact hvalid.2.1 h
      · exact hvalid.2.2 h)]
    simp only
    unfold StayService.CreateWithLesson StayRepository.Create
    rw [hcreate]
    simp only [Bool.false_eq_true, if_false]
  constructor
  · intro hquery hupdate
    rw [hres]
    refine ⟨rfl, rfl, ?_⟩
    rcases closePreviousStay_found env leftAt request.UserID db hquery hupdate with
      ⟨hnone, hdb⟩ | ⟨prev0, hmem0, hu0, ha0, hdb⟩
    · rw [hdb]
      refine ⟨by simp, ?_, ?_⟩
      · intro r hr hu ha
        simp only [List.mem_append, List.mem_singleton] at hr
        rcases hr with hr | hr
        · have := hnone r hr
          rw [hu, ha] at this
          simp at this
        · exact hr
      · intro prev hprev hu ha
        have := hnone prev hprev
        rw [hu, ha] at this
        simp at this
    · rw [hdb]
      refine ⟨by simp, ?_, ?_⟩
      · intro r hr hu ha
        simp only [List.mem_append, List.mem_singleton, List.mem_map] at hr
        rcases hr with ⟨r0, hr0, hf⟩ | hr
        · exfalso
          by_cases hid : r0.ID = prev0.ID
          · rw [if_pos hid] at hf
            rw [← hf] at ha
            simp at ha
          · rw [if_neg hid] at hf
            subst hf
            have := hone r0 hr0 prev0 hmem0 hu ha hu0 ha0
            exact hid (by rw [this])
        · exact hr
      · intro prev hprev hu ha
        have hpe : prev = prev0 := hone prev hprev prev0 hmem0 hu ha hu0 ha0
        subst hpe
        simp only [List.mem_append, List.mem_singleton, List.mem_map]
        left
        exact ⟨prev, hprev, by simp⟩
  · intro prev hprev hu ha hfail
    have hsame : closePreviousStay env leftAt request.UserID db = db := by
      apply closePreviousStay_unchanged
      rcases hfail with hq | hupd
      · exact Or.inl hq
      · right
        intro p hp
        obtain ⟨hpm, hpp⟩ := firstRow_eq_some _ _ _ hp
        simp only [Bool.and_eq_true, beq_iff_eq] at hpp
        have hpe : p = prev := hone p hpm prev hprev hpp.1 hpp.2 hu ha
        rw [hpe]
        exact hupd
    rw [hres, hsame]
    refine ⟨rfl, ?_, ?_, rfl⟩
    · simp only [List.mem_append, List.mem_singleton]
      exact Or.inl hprev
    · simp

/-- C19 (witness): `U1`, whose manual stay begun at 08:30 is open, enters room
`R2` at 09:00 and nothing fails. -/
theorem C19_manual_stay_closes_previous_witness :
    { stayAt (clock monday 8 30) with IsActive := false, LeavedAt := some (clock monday 9 0) } ∈
      (CreateManualStay exManualEnv (clock monday 9 0) (clock monday 9 0) exRequest
        exManualStore).2.rows :=
  ((C19_manual_stay_closes_previous exManualEnv (clock monday 9 0) (clock monday 9 0)
    exRequest exManualStore (by decide)
    (by
      intro r1 h1 r2 h2 _ _ _ _
      simp only [exManualStore, List.mem_singleton] at h1 h2
      rw [h1, h2])
    rfl).1 rfl (fun _ _ _ _ => rfl)).2.2.2.2 (stayAt (clock monday 8 30))
    (by simp [exManualStore]) rfl rfl

/-- The loop of `runDailyBatch` calls `DeactivateAllForOrg` for each
organization of the list, in order, whatever the calls report. -/
theorem deactivateFold_calls {σ : Type} (env : DailyBatchEnv σ) (orgs : List Organization) :
    ∀ acc : DailyBatchState σ × Nat,
      (orgs.foldl (deactivateOrg env) acc).1.deactivateCalls =
        acc.1.deactivateCalls ++ orgs.map (fun o => o.ID) := by
  induction orgs with
  | nil => intro acc; simp
  | cons org rest ih =>
    intro acc
    simp only [List.foldl_cons, List.map_cons]
    rw [ih]
    have : (deactivateOrg env acc org).1.deactivateCalls = acc.1.deactivateCalls ++ [org.ID] := by
      unfold deactivateOrg
      simp only
      split
      · rfl
      · split <;> rfl
    rw [this]
    simp

/-- The loop of `runDailyBatch` hands the device store from one call of
`DeactivateAllForOrg` to the next, whatever the calls report. -/
theorem deactivateFold_db {σ : Type} (env : DailyBatchEnv σ) (orgs : List Organization) :
    ∀ acc : DailyBatchState σ × Nat,
      (orgs.foldl (deactivateOrg env) acc).1.db =
        orgs.foldl (fun db org => (env.deviceServiceDeactivateAllForOrg db org.ID).1)
          acc.1.db := by
  induction orgs with
  | nil => intro acc; rfl
  | cons org rest ih =>
    intro acc
    simp only [List.foldl_cons]
    rw [ih]
    have : (deactivateOrg env acc org).1.db =
        (env.deviceServiceDeactivateAllForOrg acc.1.db org.ID).1 := by
      unfold deactivateOrg
      simp only
      split
      · rfl
      · split <;> rfl
    rw [this]

/-- C20. When `GetAll` returns the organizations, `runDailyBatch` calls
`DeactivateAllForOrg` exactly once for each of them, in list order, whatever
each call reports: the trace of the calls is the list of their ids, and the
device store afterwards is the one obtained by applying `DeactivateAllForOrg`
for each organization in turn, every call working on the store left by the
call before it. When `GetAll` fails, nothing is called and the state is
unchanged. With two organizations of which the first call fails, the second
organization is deactivated all the same. -/
theorem C20_daily_batch_calls {σ : Type} (env : DailyBatchEnv σ) (s : DailyBatchState σ) :
    (∀ organizations, env.organizationServiceGetAll s.db = .ok organizations →
        (runDailyBatch env s).deactivateCalls =
          s.deactivateCalls ++ organizations.map (fun o => o.ID) ∧
        (runDailyBatch env s).db =
          organizations.foldl
            (fun db org => (env.deviceServiceDeactivateAllForOrg db org.ID).1) s.db) ∧
      (∀ e, env.organizationServiceGetAll s.db = .error e → runDailyBatch env s = s) ∧
      (runDailyBatch exBatchEnvFirstFails { db := [], deactivateCalls := [] }).db = ["O2"] ∧
      (runDailyBatch exBatchEnvFirstFails { db := [], deactivateCalls := [] }).deactivateCalls =
        ["O1", "O2"] := by
  refine ⟨?_, ?_, by decide, by decide⟩
  · intro organizations h
    unfold runDailyBatch
    rw [h]
    exact ⟨deactivateFold_calls env organizations (s, 0),
      deactivateFold_db env organizations (s, 0)⟩
  · intro e h
    unfold runDailyBatch
    rw [h]

/-! ## `processDevice`, `checkZone` and `finishLesson` -/

/-- C22. For a detected device that is registered, eligible and whose user is
not yet in the recorded-set, `processDevice` is one call of `CreateWithLesson`
on a stay with the device's user, the lesson's room, subject and id,
`Source = "auto"`, `IsActive = true`, `CreatedAt = now` and no `LeavedAt`: when
the create succeeds, that row is appended to the store under a fresh key and
exactly that user is appended to the recorded-set; when it fails, the state is
unchanged, so a later call for the same device behaves as on the state before. -/
theorem C22_eligible_device_recorded (env : MonitorEnv) (lesson : Lesson) (now : Int)
    (st : MonitorState) (deviceID : String) (device : Device)
    (hdev : env.deviceServiceGetByDeviceID now deviceID = .ok device)
    (helig : device.IsAuthenticatedToday now = true)
    (hnew : device.UserID ∉ st.recordedUsers) :
    processDevice env lesson now st deviceID =
        (match StayService.CreateWithLesson env.stayCreateFails st.db
            { ID := 0, UserID := device.UserID, IsActive := true, RoomID := lesson.RoomID,
              SubjectID := lesson.SubjectID, LessonID := some lesson.ID, Description := "",
              Source := "auto", CreatedAt := now, LeavedAt := none, Lesson := none } with
          | .error _ => st
          | .ok db1 => { st with db := db1, recordedUsers := st.recordedUsers ++ [device.UserID] }) ∧
      (env.stayCreateFails
            { ID := 0, UserID := device.UserID, IsActive := true, RoomID := lesson.RoomID,
              SubjectID := lesson.SubjectID, LessonID := some lesson.ID, Description := "",
              Source := "auto", CreatedAt := now, LeavedAt := none, Lesson := none } = false →
        processDevice env lesson now st deviceID =
          { st with
            db := { rows := st.db.rows ++
                      [{ ID := st.db.nextID, UserID := device.UserID, IsActive := true,
                         RoomID := lesson.RoomID, SubjectID := lesson.SubjectID,
                         LessonID := some lesson.ID, Description := "", Source := "auto",
                         CreatedAt := now, LeavedAt := none, Lesson := none }],
                    nextID := st.db.nextID + 1 },
            recordedUsers := st.recordedUsers ++ [device.UserID] }) ∧
      (env.stayCreateFails
            { ID := 0, UserID := device.UserID, IsActive := true, RoomID := lesson.RoomID,
              SubjectID := lesson.SubjectID, LessonID := some lesson.ID, Description := "",
              Source := "auto", CreatedAt := now, LeavedAt := none, Lesson := none } = true →
        processDevice env lesson now st deviceID = st ∧
        ∀ later : Int, processDevice env lesson later
            (processDevice env lesson now st deviceID) deviceID =
          processDevice env lesson later st deviceID) := by
  have hrec : st.recordedUsers.contains device.UserID = false := by
    simpa using hnew
  have hmain : processDevice env lesson now st deviceID =
      (match StayService.CreateWithLesson env.stayCreateFails st.db
          (autoStay lesson now device.UserID) with
        | .error _ => st
        | .ok db1 => { st with db := db1, recordedUsers := st.recordedUsers ++ [device.UserID] }) := by
    unfold processDevice
    rw [hdev]
    simp only [hrec, helig, Bool.false_eq_true, if_false, Bool.not_true]
  refine ⟨hmain, ?_, ?_⟩
  · intro hok
    rw [hmain]
    unfold StayService.CreateWithLesson StayRepository.Create
    have hok1 : env.stayCreateFails (autoStay lesson now device.UserID) = false := hok
    rw [if_neg (by simp [hok1])]
    rfl
  · intro hfail
    have hfail1 : env.stayCreateFails (autoStay lesson now device.UserID) = true := hfail
    have hst : processDevice env lesson now st deviceID = st := by
      rw [hmain]
      unfold StayService.CreateWithLesson StayRepository.Create
      rw [if_pos hfail1]
    refine ⟨hst, ?_⟩
    intro later
    rw [hst]

/-- C22 (witness): the monitor of `L1` detects the device of `U1` at 09:00 with
an empty recorded-set and an empty store. -/
theorem C22_eligible_device_recorded_witness :
    processDevice exEnv lesson0900 (clock monday 9 0) exMonitorState "AA-BB" =
      { recordedUsers := ["U1"],
        db := { rows := [autoRow (clock monday 9 0)], nextID := 2 },
        activeMonitors := ["L1"], zoneQueries := [] } :=
  (C22_eligible_device_recorded exEnv lesson0900 (clock monday 9 0) exMonitorState "AA-BB"
    { ID := "D1", UserID := "U1", DeviceID := "AA:BB", IsActive := true,
      LastAuthenticated := clock monday 8 0 } rfl (by decide) (by decide)).2.1 rfl

/-- C23. The method `processDevice` leaves the whole state, occupancy store
and recorded-set included, unchanged when the detected device id resolves to no
registered device, and when the device's user is already in the recorded-set,
whether or not the device is eligible. -/
theorem C23_unregistered_or_recorded_skipped (env : MonitorEnv) (lesson : Lesson) (now : Int)
    (st : MonitorState) (deviceID : String) :
    (∀ e, env.deviceServiceGetByDeviceID now deviceID = .error e →
        processDevice env lesson now st deviceID = st) ∧
      (∀ device, env.deviceServiceGetByDeviceID now deviceID = .ok device →
        device.UserID ∈ st.recordedUsers →
        processDevice env lesson now st deviceID = st) := by
  constructor
  · intro e he
    unfold processDevice
    rw [he]
  · intro device hdev hrec
    have hc : st.recordedUsers.contains device.UserID = true := by simpa using hrec
    unfold processDevice
    rw [hdev]
    simp only [hc, if_true]

/-- C24. The method `checkZone` leaves the state unchanged when the room lookup
fails and when the room's `MistZoneID` is empty; when the presence provider
returns an error, the store and the recorded-set are unchanged; otherwise it
applies `processDevice` once to every returned device id, the SDK clients first
and then the wireless clients, in order. -/
theorem C24_check_zone (env : MonitorEnv) (lesson : Lesson) (now : Int) (st : MonitorState) :
    (∀ e, env.roomServiceGetByID now lesson.RoomID = .error e →
        checkZone env lesson now st = st) ∧
      (∀ room, env.roomServiceGetByID now lesson.RoomID = .ok room → room.MistZoneID = "" →
        checkZone env lesson now st = st) ∧
      (∀ room e, env.roomServiceGetByID now lesson.RoomID = .ok room → room.MistZoneID ≠ "" →
        env.mistClientGetZoneClients now env.mistClientSiteID room.MistZoneID = .error e →
        (checkZone env lesson now st).db = st.db ∧
        (checkZone env lesson now st).recordedUsers = st.recordedUsers) ∧
      (∀ room sdkClients wirelessClients,
        env.roomServiceGetByID now lesson.RoomID = .ok room → room.MistZoneID ≠ "" →
        env.mistClientGetZoneClients now env.mistClientSiteID room.MistZoneID =
          .ok (sdkClients, wirelessClients) →
        checkZone env lesson now st =
          wirelessClients.foldl (processDevice env lesson now)
            (sdkClients.foldl (processDevice env lesson now)
              { st with zoneQueries := st.zoneQueries ++ [room.MistZoneID] })) := by
  refine ⟨?_, ?_, ?_, ?_⟩
  · intro e he
    unfold checkZone
    rw [he]
  · intro room hroom hz
    unfold checkZone
    rw [hroom]
    simp only [hz, if_true]
  · intro room e hroom hz hq
    unfold checkZone
    rw [hroom]
    simp only [hz, if_false, hq]
    exact ⟨trivial, trivial⟩
  · intro room sdkClients wirelessClients hroom hz hq
    unfold checkZone
    rw [hroom]
    simp only [hz, if_false, hq, List.foldl_append]

theorem filter_map_of_fixed (p : Stay → Bool) (g : Stay → Stay) (rows : List Stay)
    (h1 : ∀ r ∈ rows, p (g r) = p r) (h2 : ∀ r ∈ rows, p r = true → g r = r) :
    (rows.map g).filter p = rows.filter p := by
  induction rows with
  | nil => rfl
  | cons r rest ih =>
    have ih1 := ih (fun x hx => h1 x (List.mem_cons_of_mem _ hx))
      (fun x hx => h2 x (List.mem_cons_of_mem _ hx))
    have hr1 := h1 r (List.mem_cons_self _ _)
    have hr2 := h2 r (List.mem_cons_self _ _)
    simp only [List.map_cons, List.filter_cons, hr1]
    by_cases hp : p r = true
    · rw [if_pos hp, if_pos hp, ih1, hr2 hp]
    · rw [if_neg hp, if_neg hp, ih1]

/-- One iteration of the loop of `finishLesson`, for the user `u`, over a store
whose keys are distinct. -/
theorem finishUser_rows (env : MonitorEnv) (lesson : Lesson) (now : Int) (db : StayStore)
    (u : String) (hids : (db.rows.map (fun r => r.ID)).Nodup) :
    finishUser env lesson now db u =
      { db with rows := db.rows.map (fun r =>
          if r.UserID = u ∧ finishCloses env lesson now db.rows r = true then
            { r with IsActive := false, LeavedAt := some now }
          else r) } := by
  have hid : ∀ (c : Stay → Prop) [DecidablePred c], (∀ r ∈ db.rows, ¬ c r) →
      db = { db with rows := db.rows.map (fun r =>
        if c r then { r with IsActive := false, LeavedAt := some now } else r) } := by
    intro c _ hc
    have : db.rows.map (fun r =>
        if c r then { r with IsActive := false, LeavedAt := some now } else r) = db.rows := by
      conv_rhs => rw [← List.map_id db.rows]
      apply List.map_congr_left
      intro r hr
      rw [if_neg (hc r hr)]
      rfl
    rw [this]
  unfold finishUser StayService.GetActiveByUserAndLesson StayRepository.FindActiveByUserAndLesson
  by_cases hq : env.stayQueryFails u = true
  · rw [if_pos hq]
    simp only
    apply hid
    rintro r _ ⟨hu, hc⟩
    subst hu
    unfold finishCloses at hc
    rw [hq] at hc
    simp at hc
  · rw [if_neg hq]
    cases hfirst : firstRow (fun s => s.UserID == u && s.LessonID == some lesson.ID &&
        s.IsActive) db.rows with
    | none =>
      simp only
      apply hid
      rintro r _ ⟨hu, hc⟩
      subst hu
      unfold finishCloses at hc
      rw [hfirst] at hc
      simp at hc
    | some s =>
      simp only
      unfold StayService.Update StayRepository.Update
      obtain ⟨hsmem, hsp⟩ := firstRow_eq_some _ _ _ hfirst
      simp only [Bool.and_eq_true, beq_iff_eq, and_assoc] at hsp
      by_cases hupd : env.stayUpdateFails { s with IsActive := false, LeavedAt := some now } = true
      · rw [if_pos hupd]
        simp only
        apply hid
        rintro r _ ⟨hu, hc⟩
        subst hu
        unfold finishCloses at hc
        rw [hfirst] at hc
        simp only [Bool.and_eq_true, Bool.not_eq_true', decide_eq_true_eq, Option.some.injEq]
          at hc
        obtain ⟨⟨_, hrs⟩, hnf⟩ := hc
        subst hrs
        rw [hupd] at hnf
        exact absurd hnf (by decide)
      · rw [if_neg hupd]
        simp only [Except.ok.injEq]
        congr 1
        apply List.map_congr_left
        intro r hr
        by_cases hrid : r.ID = s.ID
        · have hrs : r = s := List.inj_on_of_nodup_map hids hr hsmem hrid
          subst hrs
          have hc : r.UserID = u ∧ finishCloses env lesson now db.rows r = true := by
            refine ⟨hsp.1, ?_⟩
            have hu := hsp.1
            subst hu
            unfold finishCloses
            rw [hfirst]
            simp only [Bool.and_eq_true, Bool.not_eq_true', decide_eq_true_eq]
            exact ⟨⟨by simpa using hq, trivial⟩, by simpa using hupd⟩
          rw [if_pos hc]
          simp
        · have hc : ¬ (r.UserID = u ∧ finishCloses env lesson now db.rows r = true) := by
            rintro ⟨hu, hc⟩
            subst hu
            unfold finishCloses at hc
            rw [hfirst] at hc
            simp only [Bool.and_eq_true, Bool.not_eq_true', decide_eq_true_eq, Option.some.injEq]
              at hc
            exact hrid (by rw [hc.1.2])
          rw [if_neg hc]
          simp [hrid]


theorem finishCloses_congr (env : MonitorEnv) (lesson : Lesson) (now : Int)
    (rows1 rows2 : List Stay) (r : Stay)
    (h : firstRow (fun s => s.UserID == r.UserID && s.LessonID == some lesson.ID &&
        s.IsActive) rows1 =
      firstRow (fun s => s.UserID == r.UserID && s.LessonID == some lesson.ID &&
        s.IsActive) rows2) :
    finishCloses env lesson now rows1 r = finishCloses env lesson now rows2 r := by
  unfold finishCloses
  rw [h]

/-- The lookup of another user's record is not affected by an iteration. -/
theorem finishCloses_after_other (env : MonitorEnv) (lesson : Lesson) (now : Int)
    (rows : List Stay) (u : String) (r : Stay) (hne : r.UserID ≠ u) :
    finishCloses env lesson now (rows.map (fun x =>
        if x.UserID = u ∧ finishCloses env lesson now rows x = true then
          { x with IsActive := false, LeavedAt := some now }
        else x)) r = finishCloses env lesson now rows r := by
  have hf : firstRow (fun s => s.UserID == r.UserID && s.LessonID == some lesson.ID &&
        s.IsActive) (rows.map (fun x =>
        if x.UserID = u ∧ finishCloses env lesson now rows x = true then
          { x with IsActive := false, LeavedAt := some now }
        else x)) =
      firstRow (fun s => s.UserID == r.UserID && s.LessonID == some lesson.ID &&
        s.IsActive) rows := by
    unfold firstRow
    rw [filter_map_of_fixed]
    · intro x _
      by_cases hc : x.UserID = u ∧ finishCloses env lesson now rows x = true
      · rw [if_pos hc]
        have hx : (x.UserID == r.UserID) = false := by
          rw [hc.1]
          simpa using fun h => hne h.symm
        simp [hx]
      · rw [if_neg hc]
    · intro x _ hp
      simp only [Bool.and_eq_true, beq_iff_eq] at hp
      have hc : ¬ (x.UserID = u ∧ finishCloses env lesson now rows x = true) := by
        rintro ⟨hu, _⟩
        exact hne (by rw [← hp.1.1, hu])
      rw [if_neg hc]
  exact finishCloses_congr env lesson now _ _ r hf

/-- The loop of `finishLesson` over distinct users and a store with distinct
keys: the rows it closes are those that `finishCloses` tells, for the users of
the list. -/
theorem finishFold_rows (env : MonitorEnv) (lesson : Lesson) (now : Int)
    (users : List String) :
    ∀ db : StayStore, (db.rows.map (fun r => r.ID)).Nodup → users.Nodup →
      users.foldl (finishUser env lesson now) db =
        { db with rows := db.rows.map (fun r =>
            if r.UserID ∈ users ∧ finishCloses env lesson now db.rows r = true then
              { r with IsActive := false, LeavedAt := some now }
            else r) } := by
  induction users with
  | nil =>
    intro db _ _
    simp
  | cons u rest ih =>
    intro db hids hnd
    obtain ⟨hu, hnd1⟩ := List.nodup_cons.mp hnd
    rw [List.foldl_cons, finishUser_rows env lesson now db u hids]
    have hids1 : ((db.rows.map (fun x =>
        if x.UserID = u ∧ finishCloses env lesson now db.rows x = true then
          { x with IsActive := false, LeavedAt := some now }
        else x)).map (fun r => r.ID)).Nodup := by
      rw [List.map_map]
      have : db.rows.map ((fun r => r.ID) ∘ fun x =>
          if x.UserID = u ∧ finishCloses env lesson now db.rows x = true then
            { x with IsActive := false, LeavedAt := some now }
          else x) = db.rows.map (fun r => r.ID) := by
        apply List.map_congr_left
        intro x _
        simp only [Function.comp]
        split_ifs <;> rfl
      rw [this]
      exact hids
    rw [ih _ hids1 hnd1]
    simp only [List.map_map]
    congr 1
    apply List.map_congr_left
    intro r hr
    simp only [Function.comp]
    by_cases hc : r.UserID = u ∧ finishCloses env lesson now db.rows r = true
    · rw [if_pos hc]
      have h1 : ¬ (r.UserID ∈ rest ∧ finishCloses env lesson now (db.rows.map (fun x =>
          if x.UserID = u ∧ finishCloses env lesson now db.rows x = true then
            { x with IsActive := false, LeavedAt := some now }
          else x)) { r with IsActive := false, LeavedAt := some now } = true) := by
        rintro ⟨hm, _⟩
        rw [hc.1] at hm
        exact hu hm
      rw [if_neg h1]
      rw [if_pos ⟨by rw [hc.1]; exact List.mem_cons_self _ _, hc.2⟩]
    · rw [if_neg hc]
      by_cases hm : r.UserID ∈ rest
      · have hne : r.UserID ≠ u := fun h => hu (h ▸ hm)
        rw [finishCloses_after_other env lesson now db.rows u r hne]
        by_cases hf : finishCloses env lesson now db.rows r = true
        · rw [if_pos ⟨hm, hf⟩, if_pos ⟨List.mem_cons_of_mem _ hm, hf⟩]
        · rw [if_neg (fun h => hf h.2), if_neg (fun h => hf h.2)]
      · rw [if_neg (fun h => hm h.1)]
        have h2 : ¬ (r.UserID ∈ u :: rest ∧ finishCloses env lesson now db.rows r = true) := by
          rintro ⟨hmem, hf⟩
          rw [List.mem_cons] at hmem
          rcases hmem with h | h
          · exact hc ⟨h, hf⟩
          · exact hm h
        rw [if_neg h2]

/-- C25. Over a store with distinct keys and a recorded-set without
repetitions, `finishLesson` leaves the store as it was except that, for every
recorded user whose active record of the lesson is found and whose update
succeeds, that record is saved with `IsActive = false` and `LeavedAt = now`,
every other field kept (`SubjectID` and `Description` included). This holds for
each such user whatever happens to the lookups and updates of the other users;
the rows of users outside the recorded-set are unchanged, and no row is added
or removed. -/
theorem C25_finish_lesson (env : MonitorEnv) (lesson : Lesson) (now : Int) (st : MonitorState)
    (hids : (st.db.rows.map (fun r => r.ID)).Nodup) (hrec : st.recordedUsers.Nodup) :
    (finishLesson env lesson now st).db.rows =
        st.db.rows.map (fun r =>
          if r.UserID ∈ st.recordedUsers ∧ finishCloses env lesson now st.db.rows r = true then
            { r with IsActive := false, LeavedAt := some now }
          else r) ∧
      (∀ u ∈ st.recordedUsers, ∀ s,
        StayService.GetActiveByUserAndLesson env.stayQueryFails st.db u lesson.ID = .ok s →
        env.stayUpdateFails { s with IsActive := false, LeavedAt := some now } = false →
        s ∈ st.db.rows ∧
        { ID := s.ID, UserID := s.UserID, IsActive := false, RoomID := s.RoomID,
          SubjectID := s.SubjectID, LessonID := s.LessonID, Description := s.Description,
          Source := s.Source, CreatedAt := s.CreatedAt, LeavedAt := some now,
          Lesson := s.Lesson } ∈ (finishLesson env lesson now st).db.rows ∧
        s ∉ (finishLesson env lesson now st).db.rows) ∧
      (∀ r ∈ st.db.rows, r.UserID ∉ st.recordedUsers →
        r ∈ (finishLesson env lesson now st).db.rows) ∧
      (finishLesson env lesson now st).db.rows.length = st.db.rows.length ∧
      (finishLesson env lesson now st).recordedUsers = st.recordedUsers := by
  have hrows : (finishLesson env lesson now st).db.rows =
      st.db.rows.map (fun r =>
        if r.UserID ∈ st.recordedUsers ∧ finishCloses env lesson now st.db.rows r = true then
          { r with IsActive := false, LeavedAt := some now }
        else r) := by
    unfold finishLesson
    simp only
    rw [finishFold_rows env lesson now st.recordedUsers st.db hids hrec]
  refine ⟨hrows, ?_, ?_, ?_, rfl⟩
  · intro u hu s hget hupd
    unfold StayService.GetActiveByUserAndLesson StayRepository.FindActiveByUserAndLesson at hget
    by_cases hq : env.stayQueryFails u = true
    · rw [if_pos hq] at hget
      simp at hget
    · rw [if_neg hq] at hget
      cases hfirst : firstRow (fun x => x.UserID == u && x.LessonID == some lesson.ID &&
          x.IsActive) st.db.rows with
      | none => rw [hfirst] at hget; simp at hget
      | some s1 =>
        rw [hfirst] at hget
        have hs : s1 = s := Except.ok.inj hget
        subst hs
        obtain ⟨hsmem, hsp⟩ := firstRow_eq_some _ _ _ hfirst
        simp only [Bool.and_eq_true, beq_iff_eq, and_assoc] at hsp
        have hsu := hsp.1
        subst hsu
        have hc : s1.UserID ∈ st.recordedUsers ∧
            finishCloses env lesson now st.db.rows s1 = true := by
          refine ⟨hu, ?_⟩
          unfold finishCloses
          rw [hfirst]
          simp only [Bool.and_eq_true, Bool.not_eq_true', decide_eq_true_eq]
          exact ⟨⟨by simpa using hq, trivial⟩, hupd⟩
        refine ⟨hsmem, ?_, ?_⟩
        · rw [hrows, List.mem_map]
          exact ⟨s1, hsmem, by rw [if_pos hc]⟩
        · intro hin
          rw [hrows, List.mem_map] at hin
          obtain ⟨x, hx, hxe⟩ := hin
          by_cases hcx : x.UserID ∈ st.recordedUsers ∧
              finishCloses env lesson now st.db.rows x = true
          · rw [if_pos hcx] at hxe
            have hact := hsp.2.2
            rw [← hxe] at hact
            exact absurd hact (by simp)
          · rw [if_neg hcx] at hxe
            subst hxe
            exact absurd hc hcx
  · intro r hr hnot
    rw [hrows, List.mem_map]
    exact ⟨r, hr, by rw [if_neg (fun h => hnot h.1)]⟩
  · rw [hrows, List.length_map]

/-- C25 (witness): the monitor of `L1` has recorded `U2` and `U1`; saving the
record of `U2` fails, the record of `U1` is closed all the same, and the record
of `U3`, who is not in the recorded-set, is untouched. -/
theorem C25_finish_lesson_witness :
    (finishLesson exEnvU2Fails lesson0900 (clock monday 10 41) exThreeRows).db.rows =
      [{ autoRow (clock monday 8 56) with
         IsActive := false, LeavedAt := some (clock monday 10 41) },
       { autoStay lesson0900 (clock monday 8 57) "U2" with ID := 2 },
       { autoStay lesson0900 (clock monday 8 40) "U3" with ID := 3 }] :=
  (C25_finish_lesson exEnvU2Fails lesson0900 (clock monday 10 41) exThreeRows
    (by decide) (by decide)).1.trans (by decide)

/-! ## The records and the summary of `GetTodayAttendance` -/

/-- The lesson used for a stay of the loop of `GetTodayAttendance`: the stay's
own lesson when it is loaded, else the lesson of the iteration. -/
theorem targetLesson_some (s : Stay) (l : Lesson) :
    targetLesson s (some l) = some (match s.Lesson with | some own => own | none => l) := by
  unfold targetLesson
  cases s.Lesson <;> rfl

/-- The status of the record of an attended lesson is `on_time`, `late` or
`very_late`. -/
theorem attendedRecord_status (l : Lesson) (s : Stay) (config : AttendanceConfig) :
    (attendedRecord l s config).AttendanceStatus = AttendanceOnTime ∨
      (attendedRecord l s config).AttendanceStatus = AttendanceLate ∨
      (attendedRecord l s config).AttendanceStatus = AttendanceVeryLate := by
  have h : (attendedRecord l s config).AttendanceStatus =
      CalculateAttendanceStatus s (some l) config := rfl
  rw [h, CalculateAttendanceStatus_of_target s (some l) config _ (targetLesson_some s l)]
  split_ifs
  · exact Or.inl rfl
  · exact Or.inr (Or.inl rfl)
  · exact Or.inr (Or.inr rfl)

/-- What a successful iteration of the loop appends and counts. -/
theorem lessonStep_ok (u : AttendanceUsecase) (user : User) (config : AttendanceConfig)
    (acc acc1 : List AttendanceRecord × AttendanceSummary) (lesson : Lesson)
    (h : lessonStep u user config acc lesson = .ok acc1) :
    ∃ stays, u.stayServiceGetByLessonID lesson.ID = .ok stays ∧
      ((selectUserStay u user lesson stays = none ∧
          acc1 = (acc.1 ++ [absentRecord lesson], { acc.2 with Absent := acc.2.Absent + 1 })) ∨
        ∃ s, selectUserStay u user lesson stays = some s ∧
          acc1 = (acc.1 ++ [attendedRecord lesson s config],
            countStatus acc.2 (attendedRecord lesson s config).AttendanceStatus)) := by
  cases hq : u.stayServiceGetByLessonID lesson.ID with
  | error e =>
    unfold lessonStep at h
    rw [hq] at h
    simp at h
  | ok stays =>
    refine ⟨stays, rfl, ?_⟩
    cases hsel : selectUserStay u user lesson stays with
    | none =>
      rw [lessonStep_of_none u user config acc lesson stays hq hsel] at h
      exact Or.inl ⟨rfl, (Except.ok.inj h).symm⟩
    | some s =>
      rw [lessonStep_of_some u user config acc lesson stays s hq hsel] at h
      exact Or.inr ⟨s, rfl, (Except.ok.inj h).symm⟩

/-- The records of a successful loop: one per lesson, in the order of the
lessons, each the absent record of its lesson or the attended record of its
lesson and of the stay selected for it. -/
theorem lessonLoop_records (u : AttendanceUsecase) (user : User) (config : AttendanceConfig)
    (lessons : List Lesson) :
    ∀ (acc acc1 : List AttendanceRecord × AttendanceSummary),
      lessonLoop u user config lessons acc = .ok acc1 →
      ∃ recs, acc1.1 = acc.1 ++ recs ∧
        List.Forall₂ (fun l r => ∃ stays, u.stayServiceGetByLessonID l.ID = .ok stays ∧
          ((selectUserStay u user l stays = none ∧ r = absentRecord l) ∨
            ∃ s, selectUserStay u user l stays = some s ∧ r = attendedRecord l s config))
          lessons recs := by
  induction lessons with
  | nil =>
    intro acc acc1 h
    simp only [lessonLoop] at h
    have h1 := (Except.ok.inj h).symm
    subst h1
    exact ⟨[], by simp, List.Forall₂.nil⟩
  | cons lesson rest ih =>
    intro acc acc1 h
    simp only [lessonLoop] at h
    cases hstep : lessonStep u user config acc lesson with
    | error e => rw [hstep] at h; simp at h
    | ok acc2 =>
      rw [hstep] at h
      simp only at h
      obtain ⟨recs, hrecs, hall⟩ := ih acc2 acc1 h
      obtain ⟨stays, hq, hcase⟩ := lessonStep_ok u user config acc acc2 lesson hstep
      rcases hcase with ⟨hsel, hacc⟩ | ⟨s, hsel, hacc⟩
      · refine ⟨absentRecord lesson :: recs, ?_, List.Forall₂.cons ⟨stays, hq, Or.inl ⟨hsel, rfl⟩⟩ hall⟩
        rw [hrecs, hacc]
        simp
      · refine ⟨attendedRecord lesson s config :: recs, ?_,
          List.Forall₂.cons ⟨stays, hq, Or.inr ⟨s, hsel, rfl⟩⟩ hall⟩
        rw [hrecs, hacc]
        simp

/-- The tally of a successful loop: each counter grows by the number of
appended records of its statuses, and no appended record is `unknown`. -/
theorem lessonLoop_tally (u : AttendanceUsecase) (user : User) (config : AttendanceConfig)
    (lessons : List Lesson) :
    ∀ (acc acc1 : List AttendanceRecord × AttendanceSummary),
      lessonLoop u user config lessons acc = .ok acc1 →
      ∃ recs, acc1.1 = acc.1 ++ recs ∧ recs.length = lessons.length ∧
        acc1.2.TotalLessons = acc.2.TotalLessons ∧
        acc1.2.OnTime = acc.2.OnTime +
          (recs.countP (fun r => r.AttendanceStatus == AttendanceOnTime) : Nat) ∧
        acc1.2.Late = acc.2.Late +
          (recs.countP (fun r => r.AttendanceStatus == AttendanceLate ||
            r.AttendanceStatus == AttendanceVeryLate) : Nat) ∧
        acc1.2.Absent = acc.2.Absent +
          (recs.countP (fun r => r.AttendanceStatus == AttendanceAbsent) : Nat) ∧
        (∀ r ∈ recs, r.AttendanceStatus ≠ AttendanceUnknown) ∧
        (recs.countP (fun r => r.AttendanceStatus == AttendanceOnTime) +
          recs.countP (fun r => r.AttendanceStatus == AttendanceLate ||
            r.AttendanceStatus == AttendanceVeryLate) +
          recs.countP (fun r => r.AttendanceStatus == AttendanceAbsent) = recs.length) := by
  induction lessons with
  | nil =>
    intro acc acc1 h
    simp only [lessonLoop] at h
    have h1 := (Except.ok.inj h).symm
    subst h1
    exact ⟨[], by simp, rfl, rfl, by simp, by simp, by simp, by simp, by simp⟩
  | cons lesson rest ih =>
    intro acc acc1 h
    simp only [lessonLoop] at h
    cases hstep : lessonStep u user config acc lesson with
    | error e => rw [hstep] at h; simp at h
    | ok acc2 =>
      rw [hstep] at h
      simp only at h
      obtain ⟨recs, hrecs, hlen, ht, hon, hlate, habs, hunk, hsum⟩ := ih acc2 acc1 h
      obtain ⟨stays, hq, hcase⟩ := lessonStep_ok u user config acc acc2 lesson hstep
      rcases hcase with ⟨hsel, hacc⟩ | ⟨s, hsel, hacc⟩
      · refine ⟨absentRecord lesson :: recs, ?_, ?_, ?_, ?_, ?_, ?_, ?_, ?_⟩
        · rw [hrecs, hacc]; simp
        · simp [hlen]
        · rw [ht, hacc]
        · rw [hon, hacc]; simp [absentRecord]
        · rw [hlate, hacc]; simp [absentRecord]
        · rw [habs, hacc]; simp [absentRecord]; ring
        · intro r hr
          rw [List.mem_cons] at hr
          rcases hr with rfl | hr
          · simp [absentRecord]
          · exact hunk r hr
        · simp [absentRecord]; omega
      · have hst := attendedRecord_status lesson s config
        refine ⟨attendedRecord lesson s config :: recs, ?_, ?_, ?_, ?_, ?_, ?_, ?_, ?_⟩
        · rw [hrecs, hacc]; simp
        · simp [hlen]
        · rw [ht, hacc]
          rcases hst with h1 | h1 | h1 <;> rw [h1] <;> rfl
        · rw [hon, hacc]
          rcases hst with h1 | h1 | h1 <;> simp [h1, countStatus]
          ring
        · rw [hlate, hacc]
          rcases hst with h1 | h1 | h1 <;> simp [h1, countStatus] <;> ring
        · rw [habs, hacc]
          rcases hst with h1 | h1 | h1 <;> simp [h1, countStatus]
        · intro r hr
          rw [List.mem_cons] at hr
          rcases hr with rfl | hr
          · rcases hst with h1 | h1 | h1 <;> rw [h1] <;> decide
          · exact hunk r hr
        · rcases hst with h1 | h1 | h1 <;> simp [h1] <;> omega


/-- The parts of a successful `GetTodayAttendance`. -/
theorem GetTodayAttendance_ok (u : AttendanceUsecase) (userID : String) (date : Int)
    (records : List AttendanceRecord) (summary : AttendanceSummary)
    (h : GetTodayAttendance u userID date = .ok (records, summary)) :
    ∃ user lessons summary1, u.userServiceGetByID userID = .ok user ∧
      u.lessonServiceGetByUserAndDate userID date = .ok lessons ∧
      lessonLoop u user DefaultAttendanceConfig lessons
        ([], { TotalLessons := lessons.length, OnTime := 0, Late := 0, Absent := 0,
               AttendanceRate := 0 }) = .ok (records, summary1) ∧
      summary = { summary1 with AttendanceRate := attendanceRate summary1 } := by
  unfold GetTodayAttendance at h
  cases hu : u.userServiceGetByID userID with
  | error e => rw [hu] at h; simp at h
  | ok user =>
    rw [hu] at h
    simp only at h
    cases hl : u.lessonServiceGetByUserAndDate userID date with
    | error e => rw [hl] at h; simp at h
    | ok lessons =>
      rw [hl] at h
      simp only at h
      split at h
      · simp at h
      · rename_i recs summary1 hloop
        simp only [Except.ok.injEq, Prod.mk.injEq] at h
        obtain ⟨hr, hs⟩ := h
        subst hr
        exact ⟨user, lessons, summary1, rfl, rfl, hloop, hs.symm⟩

theorem Forall₂_mem_right {α β : Type} (R : α → β → Prop) (l1 : List α) (l2 : List β)
    (h : List.Forall₂ R l1 l2) : ∀ b ∈ l2, ∃ a ∈ l1, R a b := by
  induction h with
  | nil => intro b hb; simp at hb
  | cons hab _ ih =>
    intro b hb
    rw [List.mem_cons] at hb
    rcases hb with rfl | hb
    · exact ⟨_, List.mem_cons_self _ _, hab⟩
    · obtain ⟨a, ha, hr⟩ := ih b hb
      exact ⟨a, List.mem_cons_of_mem _ ha, hr⟩

/-- C26 (the code at the failing input). `U1` has no stay linked to the lesson
`L5` (10:40-12:10, room `R1`); the fallback finds the stay recorded at 10:35 in
`R1` for the lesson `L1`, which starts at 09:00 and is loaded with the stay.
The record reports `L5` and the entry time 10:35, five minutes before `L5`
starts, yet `LateMinutes` is 95 and the status `very_late`: both are measured
from the start of `L1`. The same stay without a lesson loaded gives, for `L5`,
`LateMinutes = 0` and `on_time`, measured from the start of `L5`. -/
theorem C26_fallback_stay_of_other_lesson :
    GetTodayAttendance exUsecaseLinked "U1" (clock monday 0 0) =
        .ok ([{ Lesson := lessonAt "L5" "R1" 10 40 12 10,
                AttendanceStatus := AttendanceVeryLate, LateMinutes := 95, OnTime := false,
                EntryTime := some (clock monday 10 35), ExitTime := none }],
          { TotalLessons := 1, OnTime := 0, Late := 1, Absent := 0,
            AttendanceRate := attendanceRate
              { TotalLessons := 1, OnTime := 0, Late := 1, Absent := 0,
                AttendanceRate := 0 } }) ∧
      max 0 ((clock monday 10 35 - (lessonAt "L5" "R1" 10 40 12 10).StartTime) / Minute) = 0 ∧
      max 0 ((clock monday 10 35 - lesson0900.StartTime) / Minute) = 95 ∧
      attendedRecord (lessonAt "L5" "R1" 10 40 12 10) { stayLinked with Lesson := none }
          DefaultAttendanceConfig =
        { Lesson := lessonAt "L5" "R1" 10 40 12 10, AttendanceStatus := AttendanceOnTime,
          LateMinutes := 0, OnTime := true, EntryTime := some (clock monday 10 35),
          ExitTime := none } := by
  have htl : targetLesson stayLinked (some (lessonAt "L5" "R1" 10 40 12 10)) =
      some lesson0900 := rfl
  have hsub : Time.Sub stayLinked.CreatedAt lesson0900.StartTime = 5700000000000 := by decide
  have hm : f64toInt (Duration.Minutes 5700000000000) = 95 := by
    rw [f64toInt_Minutes_eq 5700000000000 (by decide) (by decide)]
    decide
  have hrec : attendedRecord (lessonAt "L5" "R1" 10 40 12 10) stayLinked
      DefaultAttendanceConfig =
      { Lesson := lessonAt "L5" "R1" 10 40 12 10, AttendanceStatus := AttendanceVeryLate,
        LateMinutes := 95, OnTime := false, EntryTime := some (clock monday 10 35),
        ExitTime := none } := by
    have h1 : CalculateAttendanceStatus stayLinked (some (lessonAt "L5" "R1" 10 40 12 10))
        DefaultAttendanceConfig = AttendanceVeryLate := by
      rw [CalculateAttendanceStatus_of_target _ _ _ _ htl, hsub, if_neg (by decide), hm]
      decide
    have h2 : CalculateLateMinutes stayLinked (some (lessonAt "L5" "R1" 10 40 12 10)) = 95 := by
      rw [CalculateLateMinutes_of_target _ _ _ htl, hsub, if_neg (by decide), hm]
    unfold attendedRecord
    simp only [h1, h2]
    rfl
  have hfree : attendedRecord (lessonAt "L5" "R1" 10 40 12 10)
      { stayLinked with Lesson := none } DefaultAttendanceConfig =
      { Lesson := lessonAt "L5" "R1" 10 40 12 10, AttendanceStatus := AttendanceOnTime,
        LateMinutes := 0, OnTime := true, EntryTime := some (clock monday 10 35),
        ExitTime := none } := by
    have htl0 : targetLesson { stayLinked with Lesson := none }
        (some (lessonAt "L5" "R1" 10 40 12 10)) = some (lessonAt "L5" "R1" 10 40 12 10) := rfl
    have h1 : CalculateAttendanceStatus { stayLinked with Lesson := none }
        (some (lessonAt "L5" "R1" 10 40 12 10)) DefaultAttendanceConfig = AttendanceOnTime := by
      rw [CalculateAttendanceStatus_of_target _ _ _ _ htl0, if_pos (by decide)]
    have h2 : CalculateLateMinutes { stayLinked with Lesson := none }
        (some (lessonAt "L5" "R1" 10 40 12 10)) = 0 := by
      rw [CalculateLateMinutes_of_target _ _ _ htl0, if_pos (by decide)]
    unfold attendedRecord
    simp only [h1, h2]
    rfl
  refine ⟨?_, by decide, by decide, hfree⟩
  unfold GetTodayAttendance
  have hu : exUsecaseLinked.userServiceGetByID "U1" = .ok { ID := "U1" } := rfl
  have hl : exUsecaseLinked.lessonServiceGetByUserAndDate "U1" (clock monday 0 0) =
      .ok [lessonAt "L5" "R1" 10 40 12 10] := rfl
  rw [hu]
  simp only
  rw [hl]
  simp only [lessonLoop, List.length_cons, List.length_nil]
  rw [lessonStep_of_some exUsecaseLinked { ID := "U1" } DefaultAttendanceConfig _
    (lessonAt "L5" "R1" 10 40 12 10) [] stayLinked rfl rfl, hrec]
  rfl

/-- The reference of the lateness in `GetTodayAttendance`: every record that is
not `absent` comes from the stay `s` selected for the lesson that the record
reports; `EntryTime` is the open time of `s`, and `LateMinutes` and the status
are computed from that open time relative to the start time of `ref`, the
lesson loaded with `s` when there is one and the reported lesson otherwise. -/
theorem GetTodayAttendance_lateness_reference (u : AttendanceUsecase) (userID : String) (date : Int)
    (records : List AttendanceRecord) (summary : AttendanceSummary)
    (h : GetTodayAttendance u userID date = .ok (records, summary)) :
    ∀ r ∈ records, r.AttendanceStatus ≠ AttendanceAbsent →
      ∃ user stays s ref, u.userServiceGetByID userID = .ok user ∧
        u.stayServiceGetByLessonID r.Lesson.ID = .ok stays ∧
        selectUserStay u user r.Lesson stays = some s ∧
        r.EntryTime = some s.CreatedAt ∧
        targetLesson s (some r.Lesson) = some ref ∧
        (s.Lesson = none → ref = r.Lesson) ∧
        (∀ own, s.Lesson = some own → ref = own) ∧
        0 ≤ r.LateMinutes ∧
        (s.CreatedAt ≤ ref.StartTime →
          r.LateMinutes = 0 ∧ r.AttendanceStatus = AttendanceOnTime) ∧
        (ref.StartTime < s.CreatedAt →
          r.AttendanceStatus =
            if r.LateMinutes ≤ 10 then AttendanceLate else AttendanceVeryLate) ∧
        (s.CreatedAt - ref.StartTime < 2 ^ 18 * Minute →
          r.LateMinutes = max 0 ((s.CreatedAt - ref.StartTime) / Minute)) ∧
        (s.CreatedAt - ref.StartTime ≤ maxDuration →
          (s.CreatedAt - ref.StartTime) % 1000 = 0 →
          r.LateMinutes = max 0 ((s.CreatedAt - ref.StartTime) / Minute)) := by
  obtain ⟨user, lessons, summary1, hu, _, hloop, _⟩ :=
    GetTodayAttendance_ok u userID date records summary h
  obtain ⟨recs, hrecs, hall⟩ := lessonLoop_records u user DefaultAttendanceConfig lessons _ _ hloop
  simp only [List.nil_append] at hrecs
  subst hrecs
  intro r hr hna
  obtain ⟨l, _, stays, hq, hcase⟩ := Forall₂_mem_right _ _ _ hall r hr
  rcases hcase with ⟨_, hrabs⟩ | ⟨s, hsel, hratt⟩
  · rw [hrabs] at hna
    exact absurd rfl hna
  · have hl : r.Lesson = l := by rw [hratt]; rfl
    have htl := targetLesson_some s l
    have hlate : r.LateMinutes = CalculateLateMinutes s (some l) := by rw [hratt]; rfl
    have hstat : r.AttendanceStatus =
        CalculateAttendanceStatus s (some l) DefaultAttendanceConfig := by rw [hratt]; rfl
    rw [CalculateLateMinutes_of_target s (some l) _ htl] at hlate
    rw [CalculateAttendanceStatus_of_target s (some l) _ _ htl] at hstat
    obtain ⟨c0, c1, c2, c3, _⟩ := lateMinutes_core s.CreatedAt
      (match s.Lesson with | some own => own | none => l).StartTime
    rw [hl]
    refine ⟨user, stays, s, _, hu, hq, hsel, by rw [hratt]; rfl, htl, ?_, ?_, ?_, ?_, ?_, ?_, ?_⟩
    · intro hn; rw [hn]
    · intro own ho; rw [ho]
    · rw [hlate]; exact c0
    · intro hle
      have hsub := (Time.Sub_nonpos_iff _ _).mpr hle
      rw [hlate, hstat, if_pos hsub, if_pos hsub]
      exact ⟨rfl, rfl⟩
    · intro hlt
      have hsub : ¬ Time.Sub s.CreatedAt
          (match s.Lesson with | some own => own | none => l).StartTime ≤ 0 := by
        rw [Time.Sub_nonpos_iff]; omega
      rw [hlate, hstat, if_neg hsub, if_neg hsub]
      rfl
    · intro hb; rw [hlate]; exact c2 hb
    · intro hb hmicro; rw [hlate]; exact c3 hb hmicro

/-- C28. For every successful `GetTodayAttendance`: `TotalLessons` is the
number of lessons of the day, which is the number of records; `OnTime` is the
number of records with status `on_time`, `Late` the number with status `late`
or `very_late`, `Absent` the number with status `absent`;
`OnTime + Late + Absent = TotalLessons`; and no record has status `unknown`. -/
theorem C28_summary_partition (u : AttendanceUsecase) (userID : String) (date : Int)
    (records : List AttendanceRecord) (summary : AttendanceSummary)
    (h : GetTodayAttendance u userID date = .ok (records, summary)) :
    ∃ lessons, u.lessonServiceGetByUserAndDate userID date = .ok lessons ∧
      summary.TotalLessons = lessons.length ∧
      records.length = lessons.length ∧
      summary.OnTime =
        (records.countP (fun r => r.AttendanceStatus == AttendanceOnTime) : Nat) ∧
      summary.Late =
        (records.countP (fun r => r.AttendanceStatus == AttendanceLate ||
          r.AttendanceStatus == AttendanceVeryLate) : Nat) ∧
      summary.Absent =
        (records.countP (fun r => r.AttendanceStatus == AttendanceAbsent) : Nat) ∧
      summary.OnTime + summary.Late + summary.Absent = summary.TotalLessons ∧
      ∀ r ∈ records, r.AttendanceStatus ≠ AttendanceUnknown := by
  obtain ⟨user, lessons, summary1, _, hl, hloop, hs⟩ :=
    GetTodayAttendance_ok u userID date records summary h
  obtain ⟨recs, hrecs, hlen, ht, hon, hlate, habs, hunk, hsum⟩ :=
    lessonLoop_tally u user DefaultAttendanceConfig lessons _ _ hloop
  simp only [List.nil_append] at hrecs
  subst hrecs
  simp only [zero_add] at ht hon hlate habs
  subst hs
  refine ⟨lessons, hl, ht, hlen, hon, hlate, habs, ?_, hunk⟩
  simp only
  rw [hon, hlate, habs, ht]
  rw [← hlen, ← hsum]
  push_cast
  ring

/-- C28 (witness): the run for `U1` over the example store, with one lesson on
time, one late and two absent. -/
theorem C28_summary_partition_witness :
    ∃ summary, GetTodayAttendance exUsecase "U1" (clock monday 0 0) = .ok (exRecords, summary) ∧
      summary.OnTime + summary.Late + summary.Absent = 4 ∧ summary.TotalLessons = 4 := by
  refine ⟨_, exUsecase_run, ?_, rfl⟩
  obtain ⟨_, _, _, _, _, _, _, hsum, _⟩ :=
    C28_summary_partition exUsecase "U1" (clock monday 0 0) exRecords _ exUsecase_run
  exact hsum

/-- C29. For every successful `GetTodayAttendance`, under every language
version `go1.N` with which the sources compile (`N ≥ 22`, see
`moduleMinGoMinor`): there is exactly one record per lesson of the day, and the
lessons read through the records are the lessons of the day, in the same order
(the i-th record's `Lesson` is the i-th lesson, not the last lesson of the
loop). -/
theorem C29_records_follow_lessons (goMinor : Nat) (hgo : moduleMinGoMinor ≤ goMinor)
    (u : AttendanceUsecase) (userID : String) (date : Int)
    (records : List AttendanceRecord) (summary : AttendanceSummary)
    (h : GetTodayAttendance u userID date = .ok (records, summary)) :
    ∃ lessons, u.lessonServiceGetByUserAndDate userID date = .ok lessons ∧
      records.length = lessons.length ∧
      readLessons (loopVarOf goMinor) lessons records = lessons := by
  have hsem : loopVarOf goMinor = .perIteration := by
    have h22 : 22 ≤ goMinor := hgo
    unfold loopVarOf
    rw [if_pos h22]
  rw [hsem]
  obtain ⟨user, lessons, summary1, _, hl, hloop, _⟩ :=
    GetTodayAttendance_ok u userID date records summary h
  obtain ⟨recs, hrecs, hall⟩ := lessonLoop_records u user DefaultAttendanceConfig lessons _ _ hloop
  simp only [List.nil_append] at hrecs
  subst hrecs
  refine ⟨lessons, hl, hall.length_eq.symm, ?_⟩
  have h2 : List.Forall₂ (fun l r => l = r.Lesson) lessons records := by
    refine List.Forall₂.imp ?_ hall
    rintro l r ⟨stays, _, ⟨_, hr⟩ | ⟨s, _, hr⟩⟩ <;> rw [hr] <;> rfl
  have h3 : List.Forall₂ Eq lessons (records.map (fun r => r.Lesson)) :=
    List.forall₂_map_right_iff.mpr h2
  rw [List.forall₂_eq_eq_eq] at h3
  exact h3.symm

/-- C29 (witness): the run for `U1` over the example store and its four
lessons, under go1.22. -/
theorem C29_records_follow_lessons_witness :
    readLessons (loopVarOf 22) todayLessons exRecords = todayLessons := by
  obtain ⟨lessons, hl, _, hr⟩ :=
    C29_records_follow_lessons 22 (by decide) exUsecase "U1" (clock monday 0 0) exRecords _
      exUsecase_run
  have h1 : exUsecase.lessonServiceGetByUserAndDate "U1" (clock monday 0 0) =
      .ok todayLessons := rfl
  rw [h1] at hl
  have h2 := Except.ok.inj hl
  subst h2
  exact hr

/-- With one variable for the whole loop, every pointer reads the last lesson. -/
theorem readLessons_perLoop (lessons : List Lesson) (records : List AttendanceRecord)
    (last : Lesson) (hlast : lessons.getLast? = some last) :
    readLessons .perLoop lessons records = List.replicate records.length last := by
  unfold readLessons
  simp only [hlast]
  induction records with
  | nil => rfl
  | cons r rest ih => simp [List.replicate_succ, ih]

/-! ## Monotonicity of the lateness -/

/-- Rounding to the nearest integer is monotone. -/
theorem roundHalfEven_mono (q1 q2 : ℚ) (h : q1 ≤ q2) : roundHalfEven q1 ≤ roundHalfEven q2 := by
  by_contra hlt
  have hlt1 : roundHalfEven q2 + 1 ≤ roundHalfEven q1 := by omega
  have hq : ((roundHalfEven q2 + 1 : ℤ) : ℚ) ≤ (roundHalfEven q1 : ℚ) := by exact_mod_cast hlt1
  push_cast at hq
  have h1 := roundHalfEven_le_add_half q1
  have h2 := sub_half_le_roundHalfEven q2
  have heq : q1 = q2 := by linarith
  rw [heq] at hlt
  exact hlt le_rfl

/-- The exponent used for the spacing around `q`. -/
theorem ulp64_eq (q : ℚ) : ulp64 q = 2 ^ (max (Int.log 2 |q|) (-1022) - 52) := rfl

/-- The function `f64round` is monotone on the non-negative rationals. -/
theorem f64round_mono (q1 q2 : ℚ) (h0 : 0 ≤ q1) (h : q1 ≤ q2) : f64round q1 ≤ f64round q2 := by
  have hb : 1 < 2 := by norm_num
  have hnonneg : ∀ q : ℚ, 0 ≤ q → 0 ≤ f64round q := by
    intro q hq
    unfold f64round
    split_ifs
    · exact le_rfl
    · have hu := ulp64_pos q
      have : (0 : ℤ) ≤ roundHalfEven (q / ulp64 q) :=
        le_roundHalfEven _ 0 (by push_cast; positivity)
      have h1 : (0 : ℚ) ≤ (roundHalfEven (q / ulp64 q) : ℚ) := by exact_mod_cast this
      positivity
  rcases eq_or_lt_of_le h0 with hz | hpos1
  · rw [← hz]
    have : f64round 0 = 0 := by unfold f64round; simp
    rw [this]
    exact hnonneg q2 (le_trans h0 h)
  · have hpos2 : 0 < q2 := lt_of_lt_of_le hpos1 h
    have hlog : Int.log 2 q1 ≤ Int.log 2 q2 := Int.log_mono_right hpos1 h
    have hu1 := ulp64_pos q1
    have hu2 := ulp64_pos q2
    have hr1 : f64round q1 = (roundHalfEven (q1 / ulp64 q1) : ℚ) * ulp64 q1 := by
      unfold f64round; rw [if_neg hpos1.ne']
    have hr2 : f64round q2 = (roundHalfEven (q2 / ulp64 q2) : ℚ) * ulp64 q2 := by
      unfold f64round; rw [if_neg hpos2.ne']
    by_cases he : max (Int.log 2 q1) (-1022) = max (Int.log 2 q2) (-1022)
    · have hu : ulp64 q1 = ulp64 q2 := by
        rw [ulp64_eq, ulp64_eq, abs_of_pos hpos1, abs_of_pos hpos2, he]
      rw [hr1, hr2, hu]
      have hdiv : q1 / ulp64 q2 ≤ q2 / ulp64 q2 := div_le_div_of_nonneg_right h hu2.le
      have := roundHalfEven_mono _ _ hdiv
      have h1 : (roundHalfEven (q1 / ulp64 q2) : ℚ) ≤ (roundHalfEven (q2 / ulp64 q2) : ℚ) := by
        exact_mod_cast this
      exact mul_le_mul_of_nonneg_right h1 hu2.le
    · have hlt : max (Int.log 2 q1) (-1022) < max (Int.log 2 q2) (-1022) := by
        have : max (Int.log 2 q1) (-1022) ≤ max (Int.log 2 q2) (-1022) :=
          max_le_max hlog le_rfl
        omega
      have hE2 : max (Int.log 2 q2) (-1022) = Int.log 2 q2 := by
        rcases le_total (Int.log 2 q2) (-1022) with hle | hle
        · rw [max_eq_right hle] at hlt
          have : (-1022 : ℤ) ≤ max (Int.log 2 q1) (-1022) := le_max_right _ _
          omega
        · exact max_eq_left hle
      set E1 := max (Int.log 2 q1) (-1022) with hE1def
      set E2 := Int.log 2 q2 with hE2def
      rw [hE2] at hlt
      have hu1e : ulp64 q1 = 2 ^ (E1 - 52) := by
        rw [ulp64_eq, abs_of_pos hpos1]
      have hu2e : ulp64 q2 = 2 ^ (E2 - 52) := by
        rw [ulp64_eq, abs_of_pos hpos2, hE2]
      -- the lower value rounds to at most `2 ^ (E1 + 1)`
      have hq1lt : q1 < 2 ^ (E1 + 1) := by
        have h1 : q1 < (2 : ℚ) ^ (Int.log 2 q1 + 1) := by
          have := Int.lt_zpow_succ_log_self hb q1
          exact_mod_cast this
        have h2 : (2 : ℚ) ^ (Int.log 2 q1 + 1) ≤ 2 ^ (E1 + 1) :=
          zpow_le_zpow_right₀ (by norm_num) (by have := le_max_left (Int.log 2 q1) (-1022); omega)
        exact lt_of_lt_of_le h1 h2
      have hs1 : q1 / ulp64 q1 ≤ ((2 ^ 53 : ℤ) : ℚ) := by
        rw [hu1e, div_le_iff₀ (by positivity)]
        have : ((2 ^ 53 : ℤ) : ℚ) * 2 ^ (E1 - 52) = 2 ^ (E1 + 1) := by
          push_cast
          rw [show (E1 + 1 : ℤ) = 53 + (E1 - 52) by ring, zpow_add₀ (by norm_num)]
          norm_num
        rw [this]
        exact hq1lt.le
      have hup : f64round q1 ≤ 2 ^ (E1 + 1) := by
        rw [hr1]
        have := roundHalfEven_le _ _ hs1
        have h1 : (roundHalfEven (q1 / ulp64 q1) : ℚ) ≤ ((2 ^ 53 : ℤ) : ℚ) := by exact_mod_cast this
        calc (roundHalfEven (q1 / ulp64 q1) : ℚ) * ulp64 q1
            ≤ ((2 ^ 53 : ℤ) : ℚ) * ulp64 q1 := mul_le_mul_of_nonneg_right h1 hu1.le
          _ = 2 ^ (E1 + 1) := by
            rw [hu1e]
            push_cast
            rw [show (E1 + 1 : ℤ) = 53 + (E1 - 52) by ring, zpow_add₀ (by norm_num)]
            norm_num
      -- the upper value rounds to at least `2 ^ E2`
      have hq2ge : (2 : ℚ) ^ E2 ≤ q2 := by
        have := Int.zpow_log_le_self hb hpos2
        exact_mod_cast this
      have hs2 : ((2 ^ 52 : ℤ) : ℚ) ≤ q2 / ulp64 q2 := by
        rw [hu2e, le_div_iff₀ (by positivity)]
        have : ((2 ^ 52 : ℤ) : ℚ) * 2 ^ (E2 - 52) = 2 ^ E2 := by
          push_cast
          rw [show (E2 : ℤ) = 52 + (E2 - 52) by ring, zpow_add₀ (by norm_num)]
          norm_num
        rw [this]
        exact hq2ge
      have hlo : (2 : ℚ) ^ E2 ≤ f64round q2 := by
        rw [hr2]
        have := le_roundHalfEven _ _ hs2
        have h1 : ((2 ^ 52 : ℤ) : ℚ) ≤ (roundHalfEven (q2 / ulp64 q2) : ℚ) := by exact_mod_cast this
        calc (2 : ℚ) ^ E2 = ((2 ^ 52 : ℤ) : ℚ) * ulp64 q2 := by
              rw [hu2e]
              push_cast
              rw [show (E2 : ℤ) = 52 + (E2 - 52) by ring, zpow_add₀ (by norm_num)]
              norm_num
          _ ≤ (roundHalfEven (q2 / ulp64 q2) : ℚ) * ulp64 q2 :=
            mul_le_mul_of_nonneg_right h1 hu2.le
      have hmid : (2 : ℚ) ^ (E1 + 1) ≤ 2 ^ E2 := zpow_le_zpow_right₀ (by norm_num) (by omega)
      linarith


/-- The method `Duration.Minutes` is monotone on the non-negative durations. -/
theorem Minutes_mono (d1 d2 : ℤ) (h0 : 0 ≤ d1) (h : d1 ≤ d2) (h2 : d2 ≤ maxDuration) :
    Duration.Minutes d1 ≤ Duration.Minutes d2 := by
  have hM : (0 : ℤ) < Minute := by decide
  have hbound : ∀ d : ℤ, 0 ≤ d → d ≤ maxDuration →
      f64ofInt (d / Minute) = ((d / Minute : ℤ) : ℚ) ∧ (0 : ℚ) ≤ ((d / Minute : ℤ) : ℚ) ∧
      f64ofInt (d % Minute) = ((d % Minute : ℤ) : ℚ) ∧ (0 : ℚ) ≤ ((d % Minute : ℤ) : ℚ) := by
    intro d hd0 hd1
    have hq0 : 0 ≤ d / Minute := Int.ediv_nonneg hd0 hM.le
    have hq1 : d / Minute < 2 ^ 28 := by
      apply Int.ediv_lt_of_lt_mul hM
      have h2 : d ≤ (9223372036854775807 : ℤ) := hd1
      have h3 : ((2 : ℤ) ^ 28) * Minute = 16106127360000000000 := by decide
      rw [h3]
      omega
    have hr0 : 0 ≤ d % Minute := Int.emod_nonneg d hM.ne'
    have hr1 : d % Minute < 60000000000 := Int.emod_lt_of_pos d hM
    have hc0 : (0 : ℚ) ≤ ((d / Minute : ℤ) : ℚ) := by exact_mod_cast hq0
    have hc1 : ((d / Minute : ℤ) : ℚ) < 2 ^ 28 := by exact_mod_cast hq1
    have hd0' : (0 : ℚ) ≤ ((d % Minute : ℤ) : ℚ) := by exact_mod_cast hr0
    have hd1' : ((d % Minute : ℤ) : ℚ) < 60000000000 := by exact_mod_cast hr1
    refine ⟨?_, hc0, ?_, hd0'⟩
    · unfold f64ofInt
      apply f64round_intCast
      rw [abs_of_nonneg hc0]
      exact lt_trans hc1 (by norm_num)
    · unfold f64ofInt
      apply f64round_intCast
      rw [abs_of_nonneg hd0']
      exact lt_trans hd1' (by norm_num)
  have h1max : d1 ≤ maxDuration := le_trans h h2
  obtain ⟨a1, a2, a3, a4⟩ := hbound d1 h0 h1max
  obtain ⟨b1, b2, b3, b4⟩ := hbound d2 (le_trans h0 h) h2
  obtain ⟨r1lo, r1hi⟩ := f64div_nsec_bounds (d1 % Minute) (Int.emod_nonneg d1 hM.ne')
    (Int.emod_lt_of_pos d1 hM)
  obtain ⟨r2lo, r2hi⟩ := f64div_nsec_bounds (d2 % Minute) (Int.emod_nonneg d2 hM.ne')
    (Int.emod_lt_of_pos d2 hM)
  rw [Minutes_eq_of_nonneg d1 h0, Minutes_eq_of_nonneg d2 (le_trans h0 h)]
  unfold f64add
  apply f64round_mono
  · rw [a1]; linarith
  · rw [a1, b1]
    have hdiv : d1 / Minute ≤ d2 / Minute := Int.ediv_le_ediv hM h
    rcases eq_or_lt_of_le hdiv with heq | hlt
    · rw [heq]
      have hmod : d1 % Minute ≤ d2 % Minute := by
        have e1 := Int.emod_add_ediv d1 Minute
        have e2 := Int.emod_add_ediv d2 Minute
        rw [heq] at e1
        omega
      have hr : f64div (f64ofInt (d1 % Minute)) 60000000000 ≤
          f64div (f64ofInt (d2 % Minute)) 60000000000 := by
        unfold f64div
        rw [a3, b3]
        apply f64round_mono
        · positivity
        · apply div_le_div_of_nonneg_right _ (by norm_num)
          exact_mod_cast hmod
      linarith
    · have hsucc : d1 / Minute + 1 ≤ d2 / Minute := hlt
      have hq : ((d1 / Minute : ℤ) : ℚ) + 1 ≤ ((d2 / Minute : ℤ) : ℚ) := by exact_mod_cast hsucc
      have : f64div (f64ofInt (d1 % Minute)) 60000000000 < 1 := by
        have : (0 : ℚ) < 1 / 2 ^ 36 := by positivity
        linarith
      linarith

theorem Time.Sub_mono (t1 t2 u : ℤ) (h : t1 ≤ t2) : Time.Sub t1 u ≤ Time.Sub t2 u := by
  unfold Time.Sub maxDuration minDuration
  split_ifs <;> omega

/-- The lateness computed from a difference is monotone in the difference. -/
theorem lateOf_mono (D1 D2 : ℤ) (h : D1 ≤ D2) (h2 : D2 ≤ maxDuration) (hpos : 0 < D1) :
    f64toInt (Duration.Minutes D1) ≤ f64toInt (Duration.Minutes D2) := by
  have hm := Minutes_mono D1 D2 hpos.le h h2
  have hnn : ∀ D : ℤ, 0 < D → D ≤ maxDuration → (0 : ℚ) ≤ Duration.Minutes D := by
    intro D hD0 hD1
    have := Minutes_mono 0 D le_rfl hD0.le hD1
    have hz : Duration.Minutes 0 = 0 := by
      rw [Minutes_eq_of_nonneg 0 le_rfl]
      have e1 : (0 : ℤ) / Minute = 0 := by decide
      have e2 : (0 : ℤ) % Minute = 0 := by decide
      rw [e1, e2]
      unfold f64add f64div f64ofInt f64round
      simp
    rw [hz] at this
    exact this
  unfold f64toInt
  rw [if_pos (hnn D1 hpos (le_trans h h2)), if_pos (hnn D2 (lt_of_lt_of_le hpos h) h2)]
  exact Int.floor_le_floor hm

/-- C30. For two stays measured against the same known lesson `tl`, the first
opened no later than the second: `CalculateLateMinutes` of the first is at most
that of the second, and the status of the second is never better than that of
the first in the order `on_time < late < very_late` (both statuses are among
these three; if the second is `on_time` so is the first, and if the first is
`very_late` so is the second). This holds for every configuration. -/
theorem C30_status_monotone (stay1 stay2 : Stay) (lesson : Option Lesson)
    (config : AttendanceConfig) (tl : Lesson)
    (h1 : targetLesson stay1 lesson = some tl) (h2 : targetLesson stay2 lesson = some tl)
    (hle : stay1.CreatedAt ≤ stay2.CreatedAt) :
    CalculateLateMinutes stay1 lesson ≤ CalculateLateMinutes stay2 lesson ∧
      (CalculateAttendanceStatus stay2 lesson config = AttendanceOnTime →
        CalculateAttendanceStatus stay1 lesson config = AttendanceOnTime) ∧
      (CalculateAttendanceStatus stay1 lesson config = AttendanceVeryLate →
        CalculateAttendanceStatus stay2 lesson config = AttendanceVeryLate) ∧
      (CalculateAttendanceStatus stay1 lesson config = AttendanceOnTime ∨
        CalculateAttendanceStatus stay1 lesson config = AttendanceLate ∨
        CalculateAttendanceStatus stay1 lesson config = AttendanceVeryLate) ∧
      (CalculateAttendanceStatus stay2 lesson config = AttendanceOnTime ∨
        CalculateAttendanceStatus stay2 lesson config = AttendanceLate ∨
        CalculateAttendanceStatus stay2 lesson config = AttendanceVeryLate) := by
  have hsub := Time.Sub_mono stay1.CreatedAt stay2.CreatedAt tl.StartTime hle
  have hmax := Time.Sub_le_max stay2.CreatedAt tl.StartTime
  rw [CalculateLateMinutes_of_target stay1 lesson tl h1,
    CalculateLateMinutes_of_target stay2 lesson tl h2,
    CalculateAttendanceStatus_of_target stay1 lesson config tl h1,
    CalculateAttendanceStatus_of_target stay2 lesson config tl h2]
  set D1 := Time.Sub stay1.CreatedAt tl.StartTime
  set D2 := Time.Sub stay2.CreatedAt tl.StartTime
  have hcore := (lateMinutes_core stay2.CreatedAt tl.StartTime).1
  by_cases hD1 : D1 ≤ 0
  · rw [if_pos hD1, if_pos hD1]
    refine ⟨hcore, fun _ => rfl, fun h => absurd h (by decide), Or.inl rfl, ?_⟩
    split_ifs
    · exact Or.inl rfl
    · exact Or.inr (Or.inl rfl)
    · exact Or.inr (Or.inr rfl)
  · have hD2 : ¬ D2 ≤ 0 := by omega
    have hmono := lateOf_mono D1 D2 hsub hmax (by omega)
    rw [if_neg hD1, if_neg hD1, if_neg hD2, if_neg hD2]
    refine ⟨hmono, ?_, ?_, ?_, ?_⟩
    · intro h
      split_ifs at h
    · intro h
      split_ifs at h with hthr
      rw [if_neg (by omega)]
    · split_ifs
      · exact Or.inr (Or.inl rfl)
      · exact Or.inr (Or.inr rfl)
    · split_ifs
      · exact Or.inr (Or.inl rfl)
      · exact Or.inr (Or.inr rfl)

/-- C30 (witness): stays opened 5 and 12 minutes after 09:00. -/
theorem C30_status_monotone_witness :
    CalculateLateMinutes (stayAt (lesson0900.StartTime + 5 * Minute)) (some lesson0900) ≤
      CalculateLateMinutes (stayAt (lesson0900.StartTime + 12 * Minute)) (some lesson0900) :=
  (C30_status_monotone (stayAt (lesson0900.StartTime + 5 * Minute))
    (stayAt (lesson0900.StartTime + 12 * Minute)) (some lesson0900) DefaultAttendanceConfig
    lesson0900 rfl rfl (by decide)).1

/-! ## `DailyBatchScheduler.Start` -/

theorem dailyBatchLoop_runs {σ : Type} (env : DailyBatchEnv σ) (events : List DailyBatchEvent) :
    ∀ r : DailyBatchRun σ, r.runs ≤ (dailyBatchLoop env events r).runs := by
  induction events with
  | nil => intro r; exact le_rfl
  | cons e rest ih =>
    intro r
    cases e with
    | stop => exact le_rfl
    | tick =>
      simp only [dailyBatchLoop]
      exact le_trans (Nat.le_succ _)
        (ih { r with state := runDailyBatch env r.state, runs := r.runs + 1 })

/-- C21 (the code at the failing input). When `Stop` has been called during the
initial wait, the first event of the `select` is the stop signal; `Start` has
by then made one run of the batch, whatever the later events: with the
organization `O1` the run has called `DeactivateAllForOrg` for it. In general
`Start` makes at least one run for every sequence of events. -/
theorem C21_stop_during_wait_still_runs {σ : Type} (env : DailyBatchEnv σ)
    (events : List DailyBatchEvent) (s : DailyBatchState σ) :
    (DailyBatchScheduler.Start env (.stop :: events) s).runs = 1 ∧
      (DailyBatchScheduler.Start env (.stop :: events) s).returned = true ∧
      (DailyBatchScheduler.Start env (.stop :: events) s).state.deactivateCalls =
        (runDailyBatch env s).deactivateCalls ∧
      1 ≤ (DailyBatchScheduler.Start env events s).runs ∧
      (DailyBatchScheduler.Start exBatchEnv [.stop]
        { db := 0, deactivateCalls := [] }).state.deactivateCalls = ["O1"] ∧
      (DailyBatchScheduler.Start exBatchEnv [.stop] { db := 0, deactivateCalls := [] }).state.db
        = 1 := by
  refine ⟨rfl, rfl, rfl, ?_, by decide, by decide⟩
  exact dailyBatchLoop_runs env events
    { state := runDailyBatch env s, runs := 1, returned := false }

theorem cycles_core (D : Int) :
    ∀ (n1 d1 n2r n2 d2 n3 d3 n4r n4 d4 y m1 y1 m2 y2 m3 y3 : Int),
      n1 = D / 146097 → d1 = D - 146097 * n1 → n2r = d1 / 36524 → n2 = n2r - n2r / 4 →
      d2 = d1 - 36524 * n2 → n3 = d2 / 1461 → d3 = d2 - 1461 * n3 → n4r = d3 / 365 →
      n4 = n4r - n4r / 4 → d4 = d3 - 365 * n4 → y = 400 * n1 + 100 * n2 + 4 * n3 + n4 →
      m1 = y / 400 → y1 = y - 400 * m1 → m2 = y1 / 100 → y2 = y1 - 100 * m2 →
      m3 = y2 / 4 → y3 = y2 - 4 * m3 →
      146097 * m1 + 36524 * m2 + 1461 * m3 + 365 * y3 = D - d4 ∧ 0 ≤ d4 ∧ d4 ≤ 365 ∧
        (¬ ((y + 1) % 4 = 0 ∧ ((y + 1) % 100 ≠ 0 ∨ (y + 1) % 400 = 0)) → d4 ≤ 364) := by
  intro n1 d1 n2r n2 d2 n3 d3 n4r n4 d4 y m1 y1 m2 y2 m3 y3 h1 h2 h3 h4 h5 h6 h7 h8 h9 h10 h11
    h12 h13 h14 h15 h16 h17
  have a1 : 0 ≤ d1 ∧ d1 < 146097 := by omega
  have a2 : 0 ≤ n2 ∧ n2 ≤ 3 := by omega
  have a3 : 0 ≤ d2 ∧ d2 ≤ 36524 := by omega
  have a4 : 0 ≤ n3 ∧ n3 ≤ 24 := by omega
  have a5 : 0 ≤ d3 ∧ d3 ≤ 1460 := by omega
  have a6 : 0 ≤ n4 ∧ n4 ≤ 3 := by omega
  have a7 : 0 ≤ d4 ∧ d4 ≤ 365 := by omega
  have b1 : m1 = n1 := by omega
  have b2 : m2 = n2 := by omega
  have b3 : m3 = n3 := by omega
  have b4 : y3 = n4 := by omega
  refine ⟨by omega, a7.1, a7.2, ?_⟩
  intro hleap
  omega


theorem isLeap_iff (year : Int) :
    isLeap year = true ↔ year % 4 = 0 ∧ (year % 100 ≠ 0 ∨ year % 400 = 0) := by
  unfold isLeap
  simp only [Bool.and_eq_true, Bool.or_eq_true, decide_eq_true_eq]

/-- The year and the day of the year that `absDate` computes: the day of the
year is counted from the first day of the year, and stays within the year. -/
theorem absYearDay_spec (abs : Int) :
    daysSinceEpoch (absYearDay abs).1 = abs / secondsPerDay - (absYearDay abs).2 ∧
      0 ≤ (absYearDay abs).2 ∧ (absYearDay abs).2 ≤ 365 ∧
      (¬ isLeap (absYearDay abs).1 = true → (absYearDay abs).2 ≤ 364) := by
  rw [isLeap_iff]
  unfold absYearDay daysSinceEpoch daysPer400Years daysPer100Years daysPer4Years
    absoluteZeroYear
  simp only []
  generalize abs / secondsPerDay = D
  have e1 : (365 * 400 + 97 : ℤ) = 146097 := by norm_num
  have e2 : (365 * 100 + 24 : ℤ) = 36524 := by norm_num
  have e3 : (365 * 4 + 1 : ℤ) = 1461 := by norm_num
  rw [e1, e2, e3]
  generalize hn1 : D / 146097 = n1
  generalize hd1 : D - 146097 * n1 = d1
  generalize hn2r : d1 / 36524 = n2r
  generalize hn2 : n2r - n2r / 4 = n2
  generalize hd2 : d1 - 36524 * n2 = d2
  generalize hn3 : d2 / 1461 = n3
  generalize hd3 : d2 - 1461 * n3 = d3
  generalize hn4r : d3 / 365 = n4r
  generalize hn4 : n4r - n4r / 4 = n4
  generalize hd4 : d3 - 365 * n4 = d4
  have hy : 400 * n1 + 100 * n2 + 4 * n3 + n4 + -292277022399 - -292277022399 =
      400 * n1 + 100 * n2 + 4 * n3 + n4 := by ring
  rw [hy]
  generalize hyy : 400 * n1 + 100 * n2 + 4 * n3 + n4 = y
  generalize hm1 : y / 400 = m1
  generalize hy1 : y - 400 * m1 = y1
  generalize hm2 : y1 / 100 = m2
  generalize hy2 : y1 - 100 * m2 = y2
  generalize hm3 : y2 / 4 = m3
  generalize hy3 : y2 - 4 * m3 = y3
  obtain ⟨h1, h2, h3, h4⟩ := cycles_core D n1 d1 n2r n2 d2 n3 d3 n4r n4 d4 y m1 y1 m2 y2 m3 y3
    hn1.symm hd1.symm hn2r.symm hn2.symm hd2.symm hn3.symm hd3.symm hn4r.symm hn4.symm
    hd4.symm hyy.symm hm1.symm hy1.symm hm2.symm hy2.symm hm3.symm hy3.symm
  refine ⟨h1, h2, h3, ?_⟩
  intro hl
  apply h4
  omega

/-- The month and the day that `absDate` computes, put back together: the
days before the month, the leap day when it has passed, and the day of the
month give the day of the year. -/
theorem absDate_spec (abs : Int) :
    (absDate abs).1 = (absYearDay abs).1 ∧
      1 ≤ (absDate abs).2.1 ∧ (absDate abs).2.1 ≤ 12 ∧ 1 ≤ (absDate abs).2.2.1 ∧
      daysBefore.getD ((absDate abs).2.1 - 1).toNat 0 +
          (if isLeap (absDate abs).1 = true ∧ (absDate abs).2.1 ≥ 3 then 1 else 0) +
          ((absDate abs).2.2.1 - 1) = (absYearDay abs).2 := by
  obtain ⟨_, h0, h1, h2⟩ := absYearDay_spec abs
  unfold absDate
  generalize (absYearDay abs).1 = year at *
  generalize (absYearDay abs).2 = yday at *
  simp only []
  have e59 : (31 + 29 - 1 : ℤ) = 59 := by norm_num
  rw [e59]
  by_cases hleap : isLeap year = true
  · simp only [hleap, true_and]
    by_cases h59 : yday = 59
    · subst h59
      simp [hleap, daysBefore]
    · rw [if_neg h59]
      by_cases hgt : yday > 59
      · simp only [if_pos hgt]
        have hk : (yday - 1) / 31 = 1 ∨ (yday - 1) / 31 = 2 ∨ (yday - 1) / 31 = 3 ∨
            (yday - 1) / 31 = 4 ∨ (yday - 1) / 31 = 5 ∨ (yday - 1) / 31 = 6 ∨
            (yday - 1) / 31 = 7 ∨ (yday - 1) / 31 = 8 ∨ (yday - 1) / 31 = 9 ∨
            (yday - 1) / 31 = 10 ∨ (yday - 1) / 31 = 11 := by omega
        rcases hk with hk | hk | hk | hk | hk | hk | hk | hk | hk | hk | hk <;>
          rw [hk] <;> split_ifs <;> simp [daysBefore, hleap] at * <;> omega
      · simp only [if_neg hgt]
        have hk : yday / 31 = 0 ∨ yday / 31 = 1 := by omega
        rcases hk with hk | hk <;>
          rw [hk] <;> split_ifs <;> simp [daysBefore, hleap] at * <;> omega
  · have h364 := h2 hleap
    simp only [hleap, Bool.false_eq_true, false_and, if_false]
    have hk : yday / 31 = 0 ∨ yday / 31 = 1 ∨ yday / 31 = 2 ∨ yday / 31 = 3 ∨
        yday / 31 = 4 ∨ yday / 31 = 5 ∨ yday / 31 = 6 ∨ yday / 31 = 7 ∨ yday / 31 = 8 ∨
        yday / 31 = 9 ∨ yday / 31 = 10 ∨ yday / 31 = 11 := by omega
    rcases hk with hk | hk | hk | hk | hk | hk | hk | hk | hk | hk | hk | hk <;>
      rw [hk] <;> split_ifs <;> simp [daysBefore, hleap] at * <;> omega

theorem norm_of_range (hi lo base : Int) (h0 : 0 ≤ lo) (h1 : lo < base) :
    norm hi lo base = (hi, lo) := by
  unfold norm
  simp only [if_neg (not_lt.mpr h0), ge_iff_le, if_neg (not_le.mpr h1)]

/-- The function `time.Date` at midnight of a day given by a month within
`1..12` and any day number: the days since the absolute zero, turned into an
instant of the location. -/
theorem Date_midnight (year month day zone : Int) (h1 : 1 ≤ month) (h2 : month ≤ 12) :
    Time.Date year month day 0 0 0 0 zone =
      ((daysSinceEpoch year + daysBefore.getD (month - 1).toNat 0 +
          (if isLeap year = true ∧ month ≥ 3 then 1 else 0) + (day - 1)) * secondsPerDay +
        absoluteToInternal - zone) * Second := by
  have n1 := norm_of_range year (month - 1) 12 (by omega) (by omega)
  have n2 := norm_of_range 0 0 1000000000 le_rfl (by norm_num)
  have n3 := norm_of_range 0 0 60 le_rfl (by norm_num)
  have n4 := norm_of_range day 0 24 le_rfl (by norm_num)
  unfold Time.Date
  simp only [n1, n2, n3, n4, sub_add_cancel]
  unfold internalToUnix
  split_ifs <;> ring

/-- The instant `nextMidnight` is the start of the next day of the location. -/
theorem nextMidnight_eq (zone now : Int) :
    nextMidnight zone now = (Time.Day zone now + 1) * (24 * Hour) - zone * Second := by
  unfold nextMidnight Time.date
  simp only []
  obtain ⟨hy, hm1, hm2, _, hsum⟩ := absDate_spec (Time.abs zone now)
  obtain ⟨hd, _, _, _⟩ := absYearDay_spec (Time.abs zone now)
  rw [Date_midnight _ _ _ _ hm1 hm2]
  have hdays : daysSinceEpoch (absDate (Time.abs zone now)).1 +
      daysBefore.getD ((absDate (Time.abs zone now)).2.1 - 1).toNat 0 +
      (if isLeap (absDate (Time.abs zone now)).1 = true ∧ (absDate (Time.abs zone now)).2.1 ≥ 3
        then 1 else 0) +
      ((absDate (Time.abs zone now)).2.2.1 + 1 - 1) = Time.abs zone now / secondsPerDay + 1 := by
    rw [hy] at hsum ⊢
    omega
  rw [hdays]
  simp only [Time.abs, Time.Day, internalToUnix, unixToInternal, internalToAbsolute,
    absoluteToInternal,
    secondsPerDay, Hour, Second]
  omega

/-- C27. In a location with a fixed offset of `zone` seconds, the
`initialDelay` of `DailyBatchScheduler.Start` is `nextMidnight - now`, where
`nextMidnight = time.Date(year, month, day + 1, 0, 0, 0, 0, loc)` is the start
of the calendar day after the day of `now` in that location, for every date
(month and year ends included); `0 < initialDelay ≤ 24h`, and `now +
initialDelay` falls on the next day with hour, minute, second and nanosecond
equal to zero. At 23:30 of 2025-12-31 in a zone nine hours east of UTC the
delay is 30 minutes and leads to 2026-01-01. -/
theorem C27_initial_delay (zone now : Int) :
    initialDelay zone now = nextMidnight zone now - now ∧
      nextMidnight zone now = (Time.Day zone now + 1) * (24 * Hour) - zone * Second ∧
      0 < initialDelay zone now ∧ initialDelay zone now ≤ 24 * Hour ∧
      Time.Day zone (now + initialDelay zone now) = Time.Day zone now + 1 ∧
      Time.Clock zone (now + initialDelay zone now) = (0, 0, 0) ∧
      Time.Nanosecond (now + initialDelay zone now) = 0 ∧
      (Time.date 32400 (clock 739615 14 30)).1 = 2025 ∧
      (Time.date 32400 (clock 739615 14 30)).2.1 = 12 ∧
      (Time.date 32400 (clock 739615 14 30)).2.2.1 = 31 ∧
      initialDelay 32400 (clock 739615 14 30) = 30 * Minute ∧
      (Time.date 32400 (nextMidnight 32400 (clock 739615 14 30))).1 = 2026 ∧
      (Time.date 32400 (nextMidnight 32400 (clock 739615 14 30))).2.1 = 1 ∧
      (Time.date 32400 (nextMidnight 32400 (clock 739615 14 30))).2.2.1 = 1 := by
  have hnext := nextMidnight_eq zone now
  have hbounds : 0 < nextMidnight zone now - now ∧ nextMidnight zone now - now ≤ 24 * Hour := by
    rw [hnext]
    unfold Time.Day Hour Second
    omega
  have hdelay : initialDelay zone now = nextMidnight zone now - now := by
    unfold initialDelay Time.Sub maxDuration minDuration
    have h24 : (24 : ℤ) * Hour = 86400000000000 := by decide
    rw [h24] at hbounds
    split_ifs <;> omega
  have hsum : now + initialDelay zone now = nextMidnight zone now := by omega
  refine ⟨hdelay, hnext, ?_, ?_, ?_, ?_, ?_, by decide, by decide, by decide, by decide,
    by decide, by decide, by decide⟩
  · rw [hdelay]; exact hbounds.1
  · rw [hdelay]; exact hbounds.2
  · rw [hsum, hnext]
    unfold Time.Day Hour Second
    omega
  · rw [hsum, hnext]
    have habs : Time.abs zone ((Time.Day zone now + 1) * (24 * Hour) - zone * Second) =
        secondsPerDay * (Time.Day zone now + 1 + 106751990353932) := by
      simp only [Time.abs, Time.Day, internalToUnix, unixToInternal, internalToAbsolute,
    absoluteToInternal,
        secondsPerDay, Hour, Second]
      omega
    unfold Time.Clock absClock
    rw [habs]
    simp only [Int.mul_emod_right]
    rfl
  · rw [hsum, hnext]
    unfold Time.Nanosecond Hour Second
    omega

end EdMist
